import Mathlib

/-!
Verification development for the MIDORI compiler core (lexer, parser,
name resolver, type checker, borrow checker, SSA lowering).  Each Python
pass of the source repository is embedded shallowly as an executable Lean
function; Python exceptions other than the compiler's own `MidoriError`
(`IndexError`, `KeyError`, `RuntimeError`) are modelled as distinct
failure outcomes.  Mutable interpreter state (lexer cursor, parser index,
checker scope maps, borrow states, SSA builder) is passed explicitly.
Python `dict`s become insertion-ordered association lists, Python `set`s
become membership-ordered lists; `id(expr)` keys of the checker's
expression-type table are modelled by the (injective, for parsed trees)
source span of the expression.
-/

set_option maxHeartbeats 2000000
set_option maxRecDepth 8000

namespace Midori

/-- Lowercase a string, as Python `str.lower` does on ASCII text. -/
def strLower (s : String) : String :=
  String.mk (s.toList.map Char.toLower)

/-- Whether `pat` is a leading run of `hay` (`str.startswith`). -/
def listStarts : List Char → List Char → Bool
  | [], _ => true
  | _ :: _, [] => false
  | p :: ps, h :: hs => p == h && listStarts ps hs

/-- Whether `pat` occurs inside `hay` (Python's `pat in hay`). -/
def listHasSub (hay pat : List Char) : Bool :=
  match hay with
  | [] => pat.isEmpty
  | _ :: t => listStarts pat hay || listHasSub t pat

/-- Python `pat in s` on strings. -/
def strHasSub (s pat : String) : Bool :=
  listHasSub s.toList pat.toList

/-- Python `s.startswith(pat)`. -/
def strStarts (s pat : String) : Bool :=
  listStarts pat.toList s.toList

/-- Source span record, as in `midori_compiler.span.Span`. -/
structure Span where
  file : String
  start : Nat
  stop : Nat
  line : Nat
  col : Nat
deriving DecidableEq, Repr

/-- `midori_compiler.errors._infer_error_code`: map the raising module and
message to a stable diagnostic code. -/
def inferErrorCode (module message : String) : String :=
  let lower := strLower message
  if strStarts module "midori_compiler.lexer" then
    if strHasSub lower "invalid character" then "MD1001"
    else if strHasSub lower "unterminated string literal" then "MD1002"
    else if strHasSub lower "unterminated char literal" then "MD1003"
    else if strHasSub lower "invalid char literal" then "MD1004"
    else if strHasSub lower "unterminated block comment" then "MD1005"
    else "MD1000"
  else if strStarts module "midori_compiler.parser" then
    if strStarts lower "expected " then "MD2001" else "MD2000"
  else if strStarts module "midori_typecheck.resolver" then
    if strHasSub lower "duplicate function" then "MD3001"
    else if strHasSub lower "duplicate enum variant" then "MD3003"
    else if strHasSub lower "duplicate enum" then "MD3002"
    else if strHasSub lower "missing entry point function" then "MD3004"
    else if strHasSub lower "duplicate custom error" then "MD3005"
    else "MD3000"
  else if strStarts module "midori_typecheck.checker" then
    if strHasSub lower "unknown name" then "MD3101"
    else if strHasSub lower "type mismatch" then "MD3102"
    else if strHasSub lower "cannot assign to immutable variable" then "MD3103"
    else if strHasSub lower "wrong number of arguments" then "MD3104"
    else if strHasSub lower "`?` expects result" then "MD3105"
    else if strHasSub lower "`?` can only be used" then "MD3106"
    else if strHasSub lower "variant pattern" && strHasSub lower "requires enum target" then
      "MD3107"
    else if strHasSub lower "unknown variant" then "MD3108"
    else if strHasSub lower "ambiguous variant constructor" then "MD3109"
    else if strHasSub lower "unsupported" then "MD3110"
    else if strHasSub lower "unknown custom error kind" then "MD3111"
    else if strHasSub lower "`raise`" then "MD3112"
    else "MD3100"
  else if strStarts module "midori_ir.borrow" then
    if strHasSub lower "use after move" then "MD4001"
    else if strHasSub lower "cannot mutably borrow" then "MD4002"
    else if strHasSub lower "cannot immutably borrow" then "MD4003"
    else if strHasSub lower "cannot borrow moved value" then "MD4004"
    else if strHasSub lower "while mutably borrowed" then "MD4005"
    else "MD4000"
  else if strStarts module "midori_ir.lowering" then
    if strHasSub lower "not implemented yet" then "MD5001"
    else if strHasSub lower "expects result" then "MD5002"
    else "MD5000"
  else if strStarts module "midori_codegen_llvm" then "MD6000"
  else if strStarts module "midori_cli" then "MD7000"
  else "MD0001"

/-- A `MidoriError` diagnostic with its code already assigned
(`__post_init__` assigns it at construction). -/
structure MidoriError where
  span : Span
  message : String
  hint : Option String
  code : String
deriving DecidableEq, Repr

/-- Build a diagnostic raised from `module`, inferring the code as the
`MidoriError.__post_init__` / `_caller_module` pair does. -/
def mkError (module : String) (span : Span) (message : String)
    (hint : Option String := none) : MidoriError :=
  ⟨span, message, hint, inferErrorCode module message⟩

/-- Outcome of running a pass: either a `MidoriError` diagnostic or one of
the Python runtime exceptions the source can actually raise.  `fuelOut`
marks exhaustion of the explicit fuel that replaces unbounded Python
loops; every run appearing in a theorem is given sufficient fuel. -/
inductive Failure where
  | diag (e : MidoriError)
  | indexError
  | keyError
  | runtimeError (msg : String)
  | fuelOut
deriving DecidableEq, Repr

/-- Token kinds, as in `midori_compiler.token.TokenKind`. -/
inductive TokenKind where
  | eof | newline
  | identT | intT | floatT | stringT | charT
  | fnK | letK | varK | structK | enumK | traitK | implK | pubK | useK
  | moduleK | ifK | elseK | matchK | forK | inK | whileK | loopK | breakK
  | continueK | returnK | taskK | spawnK | awaitK | unsafeK | externK
  | trueK | falseK
  | plus | minus | star | slash | percent
  | eq | eqeq | ne | lt | le | gt | ge | andand | oror | bang
  | pluseq | minuseq | stareq | slasheq | percenteq | coloneq
  | dotdot | dotdoteq
  | lbrace | rbrace | lparen | rparen | lbracket | rbracket
  | comma | colon | semi | dot | arrow | fatarrow | question | amp
  | importK | errorK | raiseK
deriving DecidableEq, Repr

/-- Modelled from the spec: `token.py`'s enum lacks the `IMPORT`, `ERROR`
and `RAISE` members that `parser.py` references (`TokenKind.IMPORT`,
`TokenKind.ERROR`, `TokenKind.RAISE`), although the spec's token
enumeration lists `import`, `error` and `raise` among the keywords.  The
embedding declares the three members (above) so the parser can be stated;
the keyword table of `token.py` never produces them, so the parser
branches that test them stay unreachable, matching the spec's `.mdr`
grammar only up to those dead branches. -/
def tokenKindModelledMembers : List TokenKind :=
  [.importK, .errorK, .raiseK]

/-- Keyword table (`midori_compiler.token.KEYWORDS`). -/
def keywords : List (String × TokenKind) :=
  [("fn", .fnK), ("let", .letK), ("var", .varK), ("struct", .structK),
   ("enum", .enumK), ("trait", .traitK), ("impl", .implK), ("pub", .pubK),
   ("use", .useK), ("module", .moduleK), ("if", .ifK), ("else", .elseK),
   ("match", .matchK), ("for", .forK), ("in", .inK), ("while", .whileK),
   ("loop", .loopK), ("break", .breakK), ("continue", .continueK),
   ("return", .returnK), ("task", .taskK), ("spawn", .spawnK),
   ("await", .awaitK), ("unsafe", .unsafeK), ("extern", .externK),
   ("true", .trueK), ("false", .falseK)]

/-- Association-list lookup, the first-match semantics of a Python dict. -/
def alookup {α : Type} : List (String × α) → String → Option α
  | [], _ => none
  | (k, v) :: t, key => if k = key then some v else alookup t key

/-- Python `d[k] = v`: overwrite in place if present, else append. -/
def aset {α : Type} : List (String × α) → String → α → List (String × α)
  | [], key, v => [(key, v)]
  | (k, w) :: t, key, v =>
      if k = key then (k, v) :: t else (k, w) :: aset t key v

/-- Python `d.pop(k, None)`: drop the binding for `key` if present. -/
def adrop {α : Type} : List (String × α) → String → List (String × α)
  | [], _ => []
  | (k, w) :: t, key => if k = key then t else (k, w) :: adrop t key

/-- Python `k in d`. -/
def ahas {α : Type} (l : List (String × α)) (key : String) : Bool :=
  (alookup l key).isSome

/-- A token with its lexeme and span. -/
structure Token where
  kind : TokenKind
  lexeme : String
  span : Span
deriving DecidableEq, Repr

/-! ## Lexer (`midori_compiler.lexer.Lexer`)

The Python object holds `source`, `file`, `pos`, `line`, `col`; `source`
and `file` never change, so they are context and the cursor is the state.
`_advance` reads `self.source[self.pos]` without a bounds check, so the
embedding lets it fail with `IndexError` exactly when Python would. -/

structure LexState where
  pos : Nat
  line : Nat
  col : Nat
deriving DecidableEq, Repr

/-- Unchecked Python indexing `source[i]`. -/
def pyAt (src : List Char) (i : Nat) : Except Failure Char :=
  match src.get? i with
  | some c => .ok c
  | none => .error .indexError

def lexAtEnd (src : List Char) (st : LexState) : Bool :=
  decide (st.pos ≥ src.length)

/-- `Lexer._peek` (unchecked, like the source). -/
def lexPeek (src : List Char) (st : LexState) : Except Failure Char :=
  pyAt src st.pos

/-- `Lexer._peek_next` (bounds-checked, returns NUL past the end). -/
def lexPeekNext (src : List Char) (st : LexState) : Char :=
  match src.get? (st.pos + 1) with
  | some c => c
  | none => Char.ofNat 0

/-- `Lexer._advance`. -/
def lexAdvance (src : List Char) (st : LexState) : Except Failure (Char × LexState) := do
  let ch ← pyAt src st.pos
  if ch = '\n' then
    .ok (ch, ⟨st.pos + 1, st.line + 1, 1⟩)
  else
    .ok (ch, ⟨st.pos + 1, st.line, st.col + 1⟩)

/-- `Lexer._advance_n`. -/
def lexAdvanceN (src : List Char) : Nat → LexState → Except Failure LexState
  | 0, st => .ok st
  | n + 1, st => do
      let (_, st') ← lexAdvance src st
      lexAdvanceN src n st'

/-- Slice `source[a:b]` as a string. -/
def srcSlice (src : List Char) (a b : Nat) : String :=
  String.mk ((src.drop a).take (b - a))

def mkToken (file : String) (kind : TokenKind) (lexeme : String)
    (start stop line col : Nat) : Token :=
  ⟨kind, lexeme, ⟨file, start, stop, line, col⟩⟩

def lexErr (file : String) (start stop line col : Nat) (msg : String)
    (hint : Option String) : Failure :=
  .diag (mkError "midori_compiler.lexer" ⟨file, start, stop, line, col⟩ msg hint)

/-- The two-character operator table of `Lexer._symbol`. -/
def table2 (s : String) : Option TokenKind :=
  alookup
    [("==", .eqeq), ("!=", .ne), ("<=", .le), (">=", .ge), ("&&", .andand),
     ("||", .oror), ("+=", .pluseq), ("-=", .minuseq), ("*=", .stareq),
     ("/=", .slasheq), ("%=", .percenteq), (":=", .coloneq), ("..", .dotdot),
     ("->", .arrow), ("=>", .fatarrow)] s

/-- The one-character operator table of `Lexer._symbol`. -/
def table1 (c : Char) : Option TokenKind :=
  match c with
  | '+' => some .plus
  | '-' => some .minus
  | '*' => some .star
  | '/' => some .slash
  | '%' => some .percent
  | '=' => some .eq
  | '<' => some .lt
  | '>' => some .gt
  | '!' => some .bang
  | '{' => some .lbrace
  | '}' => some .rbrace
  | '(' => some .lparen
  | ')' => some .rparen
  | '[' => some .lbracket
  | ']' => some .rbracket
  | ',' => some .comma
  | ':' => some .colon
  | ';' => some .semi
  | '.' => some .dot
  | '?' => some .question
  | '&' => some .amp
  | _ => none

/-- Python `repr` of a one-character string, as used in the
`invalid character` message (plain characters only need quoting). -/
def pyCharRepr (c : Char) : String :=
  String.mk ['\'', c, '\'']

/-- `Lexer._symbol`. -/
def lexSymbol (src : List Char) (file : String) (st : LexState) :
    Except Failure (Token × LexState) := do
  let two := srcSlice src st.pos (st.pos + 2)
  let three := srcSlice src st.pos (st.pos + 3)
  let start := st.pos
  let line := st.line
  let col := st.col
  if three = "..=" then do
    let st' ← lexAdvanceN src 3 st
    .ok (mkToken file .dotdoteq three start st'.pos line col, st')
  else
    match table2 two with
    | some k => do
        let st' ← lexAdvanceN src 2 st
        .ok (mkToken file k two start st'.pos line col, st')
    | none => do
        let (one, st') ← lexAdvance src st
        match table1 one with
        | some k => .ok (mkToken file k (String.mk [one]) start st'.pos line col, st')
        | none =>
            .error (lexErr file start st'.pos line col
              ("invalid character " ++ pyCharRepr one)
              (some "remove or escape the character"))

/-- The scan loop of `Lexer._identifier` (guarded by `_at_end`, so total). -/
def lexIdentLoop (src : List Char) : Nat → LexState → Except Failure LexState
  | 0, _ => .error .fuelOut
  | fuel + 1, st =>
      if h : st.pos < src.length then
        let c := src.get ⟨st.pos, h⟩
        if c.isAlphanum || c = '_' then
          match lexAdvance src st with
          | .ok (_, st') => lexIdentLoop src fuel st'
          | .error e => .error e
        else
          .ok st
      else
        .ok st

/-- `Lexer._identifier`. -/
def lexIdent (src : List Char) (file : String) (fuel : Nat) (st : LexState) :
    Except Failure (Token × LexState) := do
  let start := st.pos
  let line := st.line
  let col := st.col
  let st' ← lexIdentLoop src fuel st
  let text := srcSlice src start st'.pos
  let kind := match alookup keywords text with
    | some k => k
    | none => .identT
  .ok (mkToken file kind text start st'.pos line col, st')

/-- The digit-run loop shared by `Lexer._number`. -/
def lexDigitLoop (src : List Char) : Nat → LexState → Except Failure LexState
  | 0, _ => .error .fuelOut
  | fuel + 1, st =>
      if h : st.pos < src.length then
        let c := src.get ⟨st.pos, h⟩
        if c.isDigit then
          match lexAdvance src st with
          | .ok (_, st') => lexDigitLoop src fuel st'
          | .error e => .error e
        else
          .ok st
      else
        .ok st

/-- `Lexer._number`. -/
def lexNumber (src : List Char) (file : String) (fuel : Nat) (st : LexState) :
    Except Failure (Token × LexState) := do
  let start := st.pos
  let line := st.line
  let col := st.col
  let st1 ← lexDigitLoop src fuel st
  if hlt : st1.pos < src.length then
    if src.get ⟨st1.pos, hlt⟩ = '.' && (lexPeekNext src st1).isDigit then do
      let (_, st2) ← lexAdvance src st1
      let st3 ← lexDigitLoop src fuel st2
      let text := srcSlice src start st3.pos
      .ok (mkToken file .floatT text start st3.pos line col, st3)
    else
      let text := srcSlice src start st1.pos
      .ok (mkToken file .intT text start st1.pos line col, st1)
  else
    let text := srcSlice src start st1.pos
    .ok (mkToken file .intT text start st1.pos line col, st1)

/-- The scan loop of `Lexer._string` with its `escaped` flag. -/
def lexStringLoop (src : List Char) (file : String) (start line col : Nat) :
    Nat → LexState → Bool → Except Failure (Nat × LexState)
  | 0, _, _ => .error .fuelOut
  | fuel + 1, st, escaped =>
      if lexAtEnd src st then
        .error (lexErr file start st.pos line col "unterminated string literal"
          (some "add a closing quote"))
      else
        match lexAdvance src st with
        | .error e => .error e
        | .ok (ch, st') =>
            if escaped then lexStringLoop src file start line col fuel st' false
            else if ch = '\\' then lexStringLoop src file start line col fuel st' true
            else if ch = '"' then .ok (st'.pos, st')
            else lexStringLoop src file start line col fuel st' false

/-- `Lexer._string`. -/
def lexString (src : List Char) (file : String) (fuel : Nat) (st : LexState) :
    Except Failure (Token × LexState) := do
  let start := st.pos
  let line := st.line
  let col := st.col
  let (_, st1) ← lexAdvance src st
  let (stop, st2) ← lexStringLoop src file start line col fuel st1 false
  let lexeme := srcSlice src start stop
  .ok (mkToken file .stringT lexeme start stop line col, st2)

/-- `Lexer._char`.  The `advance_n(2)` after a backslash is unchecked in the
source, so a source ending in a quote followed by a backslash indexes past
the end of the buffer. -/
def lexChar (src : List Char) (file : String) (st : LexState) :
    Except Failure (Token × LexState) := do
  let start := st.pos
  let line := st.line
  let col := st.col
  let (_, st1) ← lexAdvance src st
  let unterminated : Except Failure Unit :=
    if lexAtEnd src st1 then
      .error (lexErr file start st1.pos line col "unterminated char literal"
        (some "char literals must end with a single quote"))
    else do
      let c ← lexPeek src st1
      if c = '\n' then
        .error (lexErr file start st1.pos line col "unterminated char literal"
          (some "char literals must end with a single quote"))
      else .ok ()
  let _ ← unterminated
  let st2 ← do
    let c ← lexPeek src st1
    if c = '\\' then lexAdvanceN src 2 st1
    else do
      let (_, st') ← lexAdvance src st1
      .ok st'
  let closed : Except Failure Unit :=
    if lexAtEnd src st2 then
      .error (lexErr file start st2.pos line col "invalid char literal"
        (some "char literal must contain exactly one character"))
    else do
      let c ← lexPeek src st2
      if c ≠ '\'' then
        .error (lexErr file start st2.pos line col "invalid char literal"
          (some "char literal must contain exactly one character"))
      else .ok ()
  let _ ← closed
  let (_, st3) ← lexAdvance src st2
  let lexeme := srcSlice src start st3.pos
  .ok (mkToken file .charT lexeme start st3.pos line col, st3)

/-- `Lexer._skip_line_comment`'s scan loop. -/
def lexLineCommentLoop (src : List Char) : Nat → LexState → Except Failure LexState
  | 0, _ => .error .fuelOut
  | fuel + 1, st =>
      if h : st.pos < src.length then
        if src.get ⟨st.pos, h⟩ ≠ '\n' then
          match lexAdvance src st with
          | .ok (_, st') => lexLineCommentLoop src fuel st'
          | .error e => .error e
        else
          .ok st
      else
        .ok st

/-- `Lexer._skip_line_comment`. -/
def lexLineComment (src : List Char) (fuel : Nat) (st : LexState) :
    Except Failure LexState := do
  let st1 ← lexAdvanceN src 2 st
  lexLineCommentLoop src fuel st1

/-- `Lexer._skip_block_comment`'s scan loop. -/
def lexBlockCommentLoop (src : List Char) (file : String) (start line col : Nat) :
    Nat → LexState → Except Failure LexState
  | 0, _ => .error .fuelOut
  | fuel + 1, st =>
      if h : st.pos < src.length then
        if src.get ⟨st.pos, h⟩ = '*' && lexPeekNext src st = '/' then
          lexAdvanceN src 2 st
        else
          match lexAdvance src st with
          | .ok (_, st') => lexBlockCommentLoop src file start line col fuel st'
          | .error e => .error e
      else
        .error (lexErr file start st.pos line col "unterminated block comment"
          (some "add closing */"))

/-- `Lexer._skip_block_comment`. -/
def lexBlockComment (src : List Char) (file : String) (fuel : Nat) (st : LexState) :
    Except Failure LexState := do
  let start := st.pos
  let line := st.line
  let col := st.col
  let st1 ← lexAdvanceN src 2 st
  lexBlockCommentLoop src file start line col fuel st1

/-- The main `tokenize` loop. -/
def lexGo (src : List Char) (file : String) :
    Nat → LexState → List Token → Except Failure (List Token)
  | 0, _, _ => .error .fuelOut
  | fuel + 1, st, acc =>
      if h : st.pos < src.length then
        let c := src.get ⟨st.pos, h⟩
        if c = ' ' || c = '\t' || c = '\r' then
          match lexAdvance src st with
          | .ok (_, st') => lexGo src file fuel st' acc
          | .error e => .error e
        else if c = '\n' then
          let tok := mkToken file .newline "\n" st.pos (st.pos + 1) st.line st.col
          match lexAdvance src st with
          | .ok (_, st') => lexGo src file fuel st' (acc ++ [tok])
          | .error e => .error e
        else if c = '/' && lexPeekNext src st = '/' then
          match lexLineComment src (src.length + 1) st with
          | .ok st' => lexGo src file fuel st' acc
          | .error e => .error e
        else if c = '/' && lexPeekNext src st = '*' then
          match lexBlockComment src file (src.length + 1) st with
          | .ok st' => lexGo src file fuel st' acc
          | .error e => .error e
        else if c.isAlpha || c = '_' then
          match lexIdent src file (src.length + 1) st with
          | .ok (tok, st') => lexGo src file fuel st' (acc ++ [tok])
          | .error e => .error e
        else if c.isDigit then
          match lexNumber src file (src.length + 1) st with
          | .ok (tok, st') => lexGo src file fuel st' (acc ++ [tok])
          | .error e => .error e
        else if c = '"' then
          match lexString src file (src.length + 1) st with
          | .ok (tok, st') => lexGo src file fuel st' (acc ++ [tok])
          | .error e => .error e
        else if c = '\'' then
          match lexChar src file st with
          | .ok (tok, st') => lexGo src file fuel st' (acc ++ [tok])
          | .error e => .error e
        else
          match lexSymbol src file st with
          | .ok (tok, st') => lexGo src file fuel st' (acc ++ [tok])
          | .error e => .error e
      else
        .ok (acc ++ [mkToken file .eof "" st.pos st.pos st.line st.col])

/-- `Lexer(source, file).tokenize()`. -/
def tokenize (source : String) (file : String := "<input>") :
    Except Failure (List Token) :=
  let src := source.toList
  lexGo src file (src.length + 1) ⟨0, 1, 1⟩ []

/-! ## Abstract syntax (`midori_compiler.ast`) -/

/-- `ast.TypeRef`. -/
inductive TypeRef where
  | mk (span : Span) (name : String) (args : List TypeRef)
      (isRef isMutRef isPtr isMutPtr : Bool)
deriving Repr

def TypeRef.span : TypeRef → Span
  | .mk sp _ _ _ _ _ _ => sp

def TypeRef.name : TypeRef → String
  | .mk _ n _ _ _ _ _ => n

def TypeRef.args : TypeRef → List TypeRef
  | .mk _ _ a _ _ _ _ => a

/-- `ast.Pattern` and its variants. -/
inductive Pattern where
  | wildcard (span : Span)
  | nameP (span : Span) (name : String)
  | literalP (span : Span) (value : String)
  | variantP (span : Span) (name : String) (fields : List String)
deriving DecidableEq, Repr

def Pattern.span : Pattern → Span
  | .wildcard sp => sp
  | .nameP sp _ => sp
  | .literalP sp _ => sp
  | .variantP sp _ _ => sp

mutual
inductive Expr where
  | literal (span : Span) (value : String) (kind : String)
  | ident (span : Span) (name : String)
  | unary (span : Span) (op : String) (arg : Expr)
  | binary (span : Span) (left : Expr) (op : String) (right : Expr)
  | call (span : Span) (callee : Expr) (args : List Expr)
  | assign (span : Span) (target : Expr) (op : String) (value : Expr)
  | ifE (span : Span) (condition : Expr) (thenBlock : Block) (elseBranch : Option Expr)
  | matchE (span : Span) (scrut : Expr) (arms : List Arm)
  | structInit (span : Span) (name : String) (fields : List FieldInit)
  | blockE (b : Block)
  | rangeE (span : Span) (lo hi : Expr) (inclusive : Bool)
  | tryE (span : Span) (arg : Expr)
  | unsafeE (span : Span) (b : Block)
  | spawnE (span : Span) (arg : Expr)
  | awaitE (span : Span) (arg : Expr)
  | raiseE (span : Span) (kind : String) (message : Expr)

/-- `ast.BlockExpr` (statements, optional tail expression). -/
inductive Block where
  | mk (span : Span) (stmts : List Stmt) (tail : Option Expr)

inductive Stmt where
  | letS (span : Span) (name : String) (ty : Option TypeRef) (rhs : Expr)
      (mutable inferred : Bool)
  | retS (span : Span) (value : Option Expr)
  | breakS (span : Span) (value : Option Expr)
  | contS (span : Span)
  | exprS (span : Span) (e : Expr)

/-- `ast.MatchArm`. -/
inductive Arm where
  | mk (span : Span) (pat : Pattern) (body : Expr)

/-- `ast.FieldInit` of a struct initializer. -/
inductive FieldInit where
  | mk (span : Span) (name : String) (value : Expr)
end

def Expr.span : Expr → Span
  | .literal sp _ _ => sp
  | .ident sp _ => sp
  | .unary sp _ _ => sp
  | .binary sp _ _ _ => sp
  | .call sp _ _ => sp
  | .assign sp _ _ _ => sp
  | .ifE sp _ _ _ => sp
  | .matchE sp _ _ => sp
  | .structInit sp _ _ => sp
  | .blockE b => match b with | .mk sp _ _ => sp
  | .rangeE sp _ _ _ => sp
  | .tryE sp _ => sp
  | .unsafeE sp _ => sp
  | .spawnE sp _ => sp
  | .awaitE sp _ => sp
  | .raiseE sp _ _ => sp

def Block.span : Block → Span
  | .mk sp _ _ => sp

def Block.stmts : Block → List Stmt
  | .mk _ s _ => s

def Block.tail : Block → Option Expr
  | .mk _ _ t => t

def Arm.span : Arm → Span
  | .mk sp _ _ => sp

def Arm.pat : Arm → Pattern
  | .mk _ p _ => p

def Arm.body : Arm → Expr
  | .mk _ _ e => e

def Stmt.span : Stmt → Span
  | .letS sp _ _ _ _ _ => sp
  | .retS sp _ => sp
  | .breakS sp _ => sp
  | .contS sp => sp
  | .exprS sp _ => sp

/-- `ast.Param`. -/
structure Param where
  span : Span
  name : String
  ty : TypeRef
deriving Repr

/-- `ast.StructField` (also the field record of an enum variant). -/
structure StructField where
  span : Span
  name : String
  ty : TypeRef
deriving Repr

/-- `ast.FunctionDecl`. -/
structure FunctionDecl where
  span : Span
  name : String
  genericParams : List String
  params : List Param
  returnType : Option TypeRef
  body : Block
  isTask : Bool
  isPub : Bool

/-- `ast.EnumVariant`. -/
structure EnumVariant where
  span : Span
  name : String
  fields : List StructField
deriving Repr

/-- `ast.EnumDecl`. -/
structure EnumDecl where
  span : Span
  name : String
  variants : List EnumVariant
deriving Repr

/-- `ast.ExternFunctionDecl`. -/
structure ExternFnDecl where
  span : Span
  abi : String
  name : String
  params : List Param
  returnType : Option TypeRef

/-- `ast.StructDecl`. -/
structure StructDecl where
  span : Span
  name : String
  fields : List StructField
deriving Repr

/-- `ast.FunctionSig` (trait method signature). -/
structure FunctionSig where
  span : Span
  name : String
  genericParams : List String
  params : List Param
  returnType : Option TypeRef

/-- `ast.TraitDecl`. -/
structure TraitDecl where
  span : Span
  name : String
  methods : List FunctionSig

/-- `ast.ErrorDecl`. -/
structure ErrorDecl where
  span : Span
  name : String
deriving Repr

/-- `ast.ImportDecl`. -/
structure ImportDecl where
  span : Span
  path : String
deriving Repr

/-- `ast.Item` (the union of top-level declarations). -/
inductive Item where
  | fnI (d : FunctionDecl)
  | externI (d : ExternFnDecl)
  | structI (d : StructDecl)
  | enumI (d : EnumDecl)
  | traitI (d : TraitDecl)
  | errorI (d : ErrorDecl)
  | importI (d : ImportDecl)

def Item.span : Item → Span
  | .fnI d => d.span
  | .externI d => d.span
  | .structI d => d.span
  | .enumI d => d.span
  | .traitI d => d.span
  | .errorI d => d.span
  | .importI d => d.span

/-- `ast.Program`. -/
structure Program where
  span : Span
  items : List Item

/-! ## Parser (`midori_compiler.parser.Parser`)

Recursive descent over the token list; the object's `tokens` list and
index `i` form the state.  Python's unbounded loops and recursion carry
an explicit fuel; every entry point is run with enough fuel for its
input, and exhaustion is the distinct outcome `Failure.fuelOut`. -/

structure PState where
  tokens : List Token
  i : Nat
deriving Repr

abbrev PM (α : Type) := StateT PState (Except Failure) α

/-- `Parser._peek` (`self.tokens[self.i]`, unchecked). -/
def pPeek : PM Token := do
  let st ← get
  match st.tokens.get? st.i with
  | some t => pure t
  | none => throw Failure.indexError

/-- `Parser._advance`. -/
def pAdvance : PM Token := do
  let st ← get
  match st.tokens.get? st.i with
  | some t => do
      set { st with i := st.i + 1 }
      pure t
  | none => throw Failure.indexError

/-- `Parser._prev` (`self.tokens[self.i - 1]`; at `i = 0` Python's negative
index yields the last token). -/
def pPrev : PM Token := do
  let st ← get
  if st.i = 0 then
    match st.tokens.getLast? with
    | some t => pure t
    | none => throw Failure.indexError
  else
    match st.tokens.get? (st.i - 1) with
    | some t => pure t
    | none => throw Failure.indexError

def pCheck (k : TokenKind) : PM Bool := do
  let t ← pPeek
  pure (t.kind = k)

def pCheckAny (ks : List TokenKind) : PM Bool := do
  let t ← pPeek
  pure (ks.contains t.kind)

def pMatch (k : TokenKind) : PM Bool := do
  if (← pCheck k) then
    let _ ← pAdvance
    pure true
  else
    pure false

def pMatchAny (ks : List TokenKind) : PM Bool := do
  if (← pCheckAny ks) then
    let _ ← pAdvance
    pure true
  else
    pure false

/-- `Parser._error_here`. -/
def pErrorHere (message : String) (hint : Option String := none) : PM Failure := do
  let t ← pPeek
  pure (.diag (mkError "midori_compiler.parser" t.span message hint))

/-- `Parser._expect`. -/
def pExpect (k : TokenKind) (message : String) : PM Token := do
  if (← pCheck k) then
    pAdvance
  else
    throw (← pErrorHere message)

/-- `Parser._span`. -/
def spanMerge (a b : Span) : Span :=
  ⟨a.file, a.start, b.stop, a.line, a.col⟩

/-- `Parser._skip_separators`. -/
def pSkipSeparators : Nat → PM Unit
  | 0 => throw Failure.fuelOut
  | fuel + 1 => do
      if (← pMatchAny [.newline, .semi]) then
        pSkipSeparators fuel
      else
        pure ()

/-- `Parser._starts_stmt`. -/
def pStartsStmt : PM Bool :=
  pCheckAny [.letK, .varK, .returnK, .breakK, .continueK]

/-- `TokenKind.name.lower()` for the literal token kinds. -/
def tokKindLitName : TokenKind → String
  | .intT => "int"
  | .floatT => "float"
  | .stringT => "string"
  | .charT => "char"
  | .trueK => "true"
  | .falseK => "false"
  | _ => ""

/-- Python `s.strip('"')`. -/
def stripQuotes (s : String) : String :=
  String.mk ((s.toList.dropWhile (· = '"')).reverse.dropWhile (· = '"')).reverse

mutual

/-- The item loop of `Parser.parse`. -/
def parseItems (fuel : Nat) (acc : List Item) : PM (List Item) :=
  match fuel with
  | 0 => throw Failure.fuelOut
  | fuel + 1 => do
      if (← pCheck .eof) then
        pure acc
      else do
        let item ← parseItem fuel
        pSkipSeparators fuel
        parseItems fuel (acc ++ [item])

/-- `Parser._parse_item`. -/
def parseItem (fuel : Nat) : PM Item :=
  match fuel with
  | 0 => throw Failure.fuelOut
  | fuel + 1 => do
      let isPub ← pMatch .pubK
      let isTask ← pMatch .taskK
      if (← pMatch .importK) then do
        if isPub || isTask then
          throw (← pErrorHere "`import` cannot be prefixed with pub/task")
        let path ← pExpect .stringT "expected import path string, e.g. \"./util.mdr\""
        pure (.importI ⟨path.span, stripQuotes path.lexeme⟩)
      else if (← pMatch .fnK) then
        (.fnI ·) <$> parseFn fuel isPub isTask
      else if (← pMatch .externK) then
        (.externI ·) <$> parseExternFn fuel
      else if (← pMatch .structK) then
        (.structI ·) <$> parseStructDecl fuel
      else if (← pMatch .enumK) then
        (.enumI ·) <$> parseEnumDecl fuel
      else if (← pMatch .traitK) then
        (.traitI ·) <$> parseTraitDecl fuel
      else if (← pMatch .errorK) then do
        let name ← pExpect .identT "expected custom error name"
        pure (.errorI ⟨name.span, name.lexeme⟩)
      else
        throw (← pErrorHere "expected item"
          (some "start with import/fn/struct/enum/trait/extern/error"))

/-- `Parser._parse_fn`. -/
def parseFn (fuel : Nat) (isPub isTask : Bool) : PM FunctionDecl :=
  match fuel with
  | 0 => throw Failure.fuelOut
  | fuel + 1 => do
      let name ← pExpect .identT "expected function name"
      let genericParams ← parseGenericParams fuel
      let _ ← pExpect .lparen "expected '('"
      let params ← parseParams fuel
      let _ ← pExpect .rparen "expected ')'"
      let ret ← parseOptionalReturn fuel
      let body ← parseBlock fuel
      pure ⟨spanMerge name.span body.span, name.lexeme, genericParams, params,
        ret, body, isTask, isPub⟩

/-- `Parser._parse_extern_fn`. -/
def parseExternFn (fuel : Nat) : PM ExternFnDecl :=
  match fuel with
  | 0 => throw Failure.fuelOut
  | fuel + 1 => do
      let abi ← do
        if (← pCheck .stringT) then do
          let t ← pAdvance
          pure (stripQuotes t.lexeme)
        else
          pure "C"
      let _ ← pExpect .fnK "expected fn in extern declaration"
      let name ← pExpect .identT "expected extern function name"
      let _ ← pExpect .lparen "expected '('"
      let params ← parseParams fuel
      let _ ← pExpect .rparen "expected ')'"
      let ret ← parseOptionalReturn fuel
      pSkipSeparators fuel
      let prev ← pPrev
      pure ⟨spanMerge name.span prev.span, abi, name.lexeme, params, ret⟩

/-- The field loop of `Parser._parse_struct`. -/
def parseStructFields (fuel : Nat) (acc : List StructField) : PM (List StructField) :=
  match fuel with
  | 0 => throw Failure.fuelOut
  | fuel + 1 => do
      if (← pCheck .rbrace) then
        pure acc
      else do
        let fieldName ← pExpect .identT "expected field name"
        let _ ← pExpect .colon "expected ':'"
        let ty ← parseType fuel
        let fld : StructField := ⟨spanMerge fieldName.span ty.span, fieldName.lexeme, ty⟩
        let _ ← pMatch .comma
        pSkipSeparators fuel
        parseStructFields fuel (acc ++ [fld])

/-- `Parser._parse_struct`. -/
def parseStructDecl (fuel : Nat) : PM StructDecl :=
  match fuel with
  | 0 => throw Failure.fuelOut
  | fuel + 1 => do
      let name ← pExpect .identT "expected struct name"
      let _ ← pExpect .lbrace "expected '\x7b'"
      pSkipSeparators fuel
      let fields ← parseStructFields fuel []
      let stop ← pExpect .rbrace "expected '\x7d'"
      pure ⟨spanMerge name.span stop.span, name.lexeme, fields⟩

/-- The variant-field loop of `Parser._parse_enum`. -/
def parseVariantFields (fuel : Nat) (acc : List StructField) : PM (List StructField) :=
  match fuel with
  | 0 => throw Failure.fuelOut
  | fuel + 1 => do
      if (← pCheck .rparen) then
        pure acc
      else do
        let fName ← pExpect .identT "expected variant field name"
        let _ ← pExpect .colon "expected ':'"
        let ty ← parseType fuel
        let fld : StructField := ⟨spanMerge fName.span ty.span, fName.lexeme, ty⟩
        if (← pMatch .comma) then
          parseVariantFields fuel (acc ++ [fld])
        else
          pure (acc ++ [fld])

/-- The variant loop of `Parser._parse_enum`. -/
def parseEnumVariants (fuel : Nat) (acc : List EnumVariant) : PM (List EnumVariant) :=
  match fuel with
  | 0 => throw Failure.fuelOut
  | fuel + 1 => do
      if (← pCheck .rbrace) then
        pure acc
      else do
        let varName ← pExpect .identT "expected variant name"
        let fields ← do
          if (← pMatch .lparen) then do
            pSkipSeparators fuel
            let fields ← parseVariantFields fuel []
            let _ ← pExpect .rparen "expected ')'"
            pure fields
          else
            pure []
        let prev ← pPrev
        let variant : EnumVariant := ⟨spanMerge varName.span prev.span, varName.lexeme, fields⟩
        let _ ← pMatch .comma
        pSkipSeparators fuel
        parseEnumVariants fuel (acc ++ [variant])

/-- `Parser._parse_enum`. -/
def parseEnumDecl (fuel : Nat) : PM EnumDecl :=
  match fuel with
  | 0 => throw Failure.fuelOut
  | fuel + 1 => do
      let name ← pExpect .identT "expected enum name"
      let _ ← pExpect .lbrace "expected '\x7b'"
      pSkipSeparators fuel
      let variants ← parseEnumVariants fuel []
      let stop ← pExpect .rbrace "expected '\x7d'"
      pure ⟨spanMerge name.span stop.span, name.lexeme, variants⟩

/-- The method loop of `Parser._parse_trait`. -/
def parseTraitMethods (fuel : Nat) (acc : List FunctionSig) : PM (List FunctionSig) :=
  match fuel with
  | 0 => throw Failure.fuelOut
  | fuel + 1 => do
      if (← pCheck .rbrace) then
        pure acc
      else do
        let _ ← pExpect .fnK "expected fn method declaration"
        let mName ← pExpect .identT "expected method name"
        let genericParams ← parseGenericParams fuel
        let _ ← pExpect .lparen "expected '('"
        let params ← parseParams fuel
        let _ ← pExpect .rparen "expected ')'"
        let ret ← parseOptionalReturn fuel
        let prev ← pPrev
        let sig : FunctionSig :=
          ⟨spanMerge mName.span prev.span, mName.lexeme, genericParams, params, ret⟩
        pSkipSeparators fuel
        parseTraitMethods fuel (acc ++ [sig])

/-- `Parser._parse_trait`. -/
def parseTraitDecl (fuel : Nat) : PM TraitDecl :=
  match fuel with
  | 0 => throw Failure.fuelOut
  | fuel + 1 => do
      let name ← pExpect .identT "expected trait name"
      let _ ← pExpect .lbrace "expected '\x7b'"
      pSkipSeparators fuel
      let methods ← parseTraitMethods fuel []
      let stop ← pExpect .rbrace "expected '\x7d'"
      pure ⟨spanMerge name.span stop.span, name.lexeme, methods⟩

/-- `Parser._parse_params`. -/
def parseParams (fuel : Nat) : PM (List Param) :=
  match fuel with
  | 0 => throw Failure.fuelOut
  | fuel + 1 => do
      pSkipSeparators fuel
      parseParamsLoop fuel []

def parseParamsLoop (fuel : Nat) (acc : List Param) : PM (List Param) :=
  match fuel with
  | 0 => throw Failure.fuelOut
  | fuel + 1 => do
      if (← pCheck .rparen) then
        pure acc
      else do
        let pName ← pExpect .identT "expected parameter name"
        let _ ← pExpect .colon "expected ':'"
        let pTy ← parseType fuel
        let param : Param := ⟨spanMerge pName.span pTy.span, pName.lexeme, pTy⟩
        if (← pMatch .comma) then do
          pSkipSeparators fuel
          parseParamsLoop fuel (acc ++ [param])
        else
          pure (acc ++ [param])

/-- `Parser._parse_optional_return`. -/
def parseOptionalReturn (fuel : Nat) : PM (Option TypeRef) :=
  match fuel with
  | 0 => throw Failure.fuelOut
  | fuel + 1 => do
      if (← pMatch .arrow) then
        (some ·) <$> parseType fuel
      else
        pure none

/-- The loop of `Parser._parse_generic_params`. -/
def parseGenericParamsLoop (fuel : Nat) (acc : List String) : PM (List String) :=
  match fuel with
  | 0 => throw Failure.fuelOut
  | fuel + 1 => do
      let name ← pExpect .identT "expected generic parameter name"
      let acc := acc ++ [name.lexeme]
      if (← pMatch .colon) then do
        let _ ← pExpect .identT "expected trait bound name"
        if (← pMatch .comma) then
          parseGenericParamsLoop fuel acc
        else do
          let _ ← pExpect .rbracket "expected ']'"
          pure acc
      else if (← pMatch .comma) then
        parseGenericParamsLoop fuel acc
      else do
        let _ ← pExpect .rbracket "expected ']'"
        pure acc

/-- `Parser._parse_generic_params`. -/
def parseGenericParams (fuel : Nat) : PM (List String) :=
  match fuel with
  | 0 => throw Failure.fuelOut
  | fuel + 1 => do
      if (← pMatch .lbracket) then
        parseGenericParamsLoop fuel []
      else
        pure []

/-- The argument loop of `Parser._parse_type`. -/
def parseTypeArgs (fuel : Nat) (acc : List TypeRef) : PM (List TypeRef) :=
  match fuel with
  | 0 => throw Failure.fuelOut
  | fuel + 1 => do
      let arg ← parseType fuel
      if (← pMatch .comma) then
        parseTypeArgs fuel (acc ++ [arg])
      else do
        let _ ← pExpect .rbracket "expected ']'"
        pure (acc ++ [arg])

/-- `Parser._parse_type`. -/
def parseType (fuel : Nat) : PM TypeRef :=
  match fuel with
  | 0 => throw Failure.fuelOut
  | fuel + 1 => do
      let mut0 : Bool × Bool := (false, false)
      let (isRef, isMutRef) ← do
        if (← pMatch .amp) then do
          let t ← pPeek
          if t.kind = .identT ∧ t.lexeme = "mut" then do
            let _ ← pAdvance
            pure (true, true)
          else
            pure (true, false)
        else
          pure mut0
      let (isPtr, isMutPtr) ← do
        if (← pMatch .star) then do
          let t ← pPeek
          if t.kind = .identT ∧ t.lexeme = "mut" then do
            let _ ← pAdvance
            pure (true, true)
          else
            pure (true, false)
        else
          pure mut0
      let name ← pExpect .identT "expected type name"
      let args ← do
        if (← pMatch .lbracket) then
          parseTypeArgs fuel []
        else
          pure []
      let prev ← pPrev
      pure (.mk (spanMerge name.span prev.span) name.lexeme args isRef isMutRef isPtr isMutPtr)

/-- The statement/tail loop of `Parser._parse_block`. -/
def parseBlockItems (fuel : Nat) (acc : List Stmt) :
    PM (List Stmt × Option Expr) :=
  match fuel with
  | 0 => throw Failure.fuelOut
  | fuel + 1 => do
      if (← pCheck .rbrace) then
        pure (acc, none)
      else if (← pStartsStmt) then do
        let stmt ← parseStmt fuel
        pSkipSeparators fuel
        parseBlockItems fuel (acc ++ [stmt])
      else do
        let e ← parseExpr fuel
        if (← pMatch .semi) then do
          pSkipSeparators fuel
          parseBlockItems fuel (acc ++ [.exprS e.span e])
        else if (← pCheck .newline) then do
          let _ ← pAdvance
          if (← pCheck .rbrace) then
            pure (acc, some e)
          else do
            pSkipSeparators fuel
            parseBlockItems fuel (acc ++ [.exprS e.span e])
        else
          pure (acc, some e)

/-- `Parser._parse_block`. -/
def parseBlock (fuel : Nat) : PM Block :=
  match fuel with
  | 0 => throw Failure.fuelOut
  | fuel + 1 => do
      let start ← pExpect .lbrace "expected '\x7b'"
      pSkipSeparators fuel
      let (stmts, tail) ← parseBlockItems fuel []
      let stop ← pExpect .rbrace "expected '\x7d'"
      pure (.mk (spanMerge start.span stop.span) stmts tail)

/-- `Parser._parse_stmt`. -/
def parseStmt (fuel : Nat) : PM Stmt :=
  match fuel with
  | 0 => throw Failure.fuelOut
  | fuel + 1 => do
      if (← pMatch .letK) then
        parseLet fuel false
      else if (← pMatch .varK) then
        parseLet fuel true
      else if (← pMatch .returnK) then do
        if (← pCheckAny [.semi, .newline, .rbrace]) then do
          let prev ← pPrev
          pure (.retS prev.span none)
        else do
          let e ← parseExpr fuel
          let prev ← pPrev
          pure (.retS (spanMerge prev.span e.span) (some e))
      else if (← pMatch .breakK) then do
        if (← pCheckAny [.semi, .newline, .rbrace]) then do
          let prev ← pPrev
          pure (.breakS prev.span none)
        else do
          let e ← parseExpr fuel
          let prev ← pPrev
          pure (.breakS (spanMerge prev.span e.span) (some e))
      else if (← pMatch .continueK) then do
        let prev ← pPrev
        pure (.contS prev.span)
      else
        throw (← pErrorHere "expected statement")

/-- `Parser._parse_let`. -/
def parseLet (fuel : Nat) (mutable : Bool) : PM Stmt :=
  match fuel with
  | 0 => throw Failure.fuelOut
  | fuel + 1 => do
      let name ← pExpect .identT "expected variable name"
      let (ty, inferred) ← do
        if (← pMatch .coloneq) then
          pure ((none : Option TypeRef), true)
        else do
          let ty ← do
            if (← pMatch .colon) then
              (some ·) <$> parseType fuel
            else
              pure none
          let _ ← pExpect .eq "expected '=' or ':='"
          pure (ty, false)
      let e ← parseExpr fuel
      pure (.letS (spanMerge name.span e.span) name.lexeme ty e mutable inferred)

/-- `Parser._parse_expr`. -/
def parseExpr (fuel : Nat) : PM Expr :=
  match fuel with
  | 0 => throw Failure.fuelOut
  | fuel + 1 => parseAssignment fuel

/-- `Parser._parse_assignment`. -/
def parseAssignment (fuel : Nat) : PM Expr :=
  match fuel with
  | 0 => throw Failure.fuelOut
  | fuel + 1 => do
      let e ← parseRange fuel
      if (← pMatchAny [.eq, .pluseq, .minuseq, .stareq, .slasheq, .percenteq]) then do
        let op ← pPrev
        let value ← parseAssignment fuel
        pure (.assign (spanMerge e.span value.span) e op.lexeme value)
      else
        pure e

/-- `Parser._parse_range`. -/
def parseRange (fuel : Nat) : PM Expr :=
  match fuel with
  | 0 => throw Failure.fuelOut
  | fuel + 1 => do
      let e ← parseOr fuel
      if (← pMatch .dotdot) then do
        let hi ← parseOr fuel
        pure (.rangeE (spanMerge e.span hi.span) e hi false)
      else if (← pMatch .dotdoteq) then do
        let hi ← parseOr fuel
        pure (.rangeE (spanMerge e.span hi.span) e hi true)
      else
        pure e

/-- `Parser._binop` instantiated at the logical-or level. -/
def parseOr (fuel : Nat) : PM Expr :=
  match fuel with
  | 0 => throw Failure.fuelOut
  | fuel + 1 => do
      let e ← parseAnd fuel
      parseOrLoop fuel e

def parseOrLoop (fuel : Nat) (e : Expr) : PM Expr :=
  match fuel with
  | 0 => throw Failure.fuelOut
  | fuel + 1 => do
      if (← pMatchAny [.oror]) then do
        let op ← pPrev
        let right ← parseAnd fuel
        parseOrLoop fuel (.binary (spanMerge e.span right.span) e op.lexeme right)
      else
        pure e

def parseAnd (fuel : Nat) : PM Expr :=
  match fuel with
  | 0 => throw Failure.fuelOut
  | fuel + 1 => do
      let e ← parseEquality fuel
      parseAndLoop fuel e

def parseAndLoop (fuel : Nat) (e : Expr) : PM Expr :=
  match fuel with
  | 0 => throw Failure.fuelOut
  | fuel + 1 => do
      if (← pMatchAny [.andand]) then do
        let op ← pPrev
        let right ← parseEquality fuel
        parseAndLoop fuel (.binary (spanMerge e.span right.span) e op.lexeme right)
      else
        pure e

def parseEquality (fuel : Nat) : PM Expr :=
  match fuel with
  | 0 => throw Failure.fuelOut
  | fuel + 1 => do
      let e ← parseCompare fuel
      parseEqualityLoop fuel e

def parseEqualityLoop (fuel : Nat) (e : Expr) : PM Expr :=
  match fuel with
  | 0 => throw Failure.fuelOut
  | fuel + 1 => do
      if (← pMatchAny [.eqeq, .ne]) then do
        let op ← pPrev
        let right ← parseCompare fuel
        parseEqualityLoop fuel (.binary (spanMerge e.span right.span) e op.lexeme right)
      else
        pure e

def parseCompare (fuel : Nat) : PM Expr :=
  match fuel with
  | 0 => throw Failure.fuelOut
  | fuel + 1 => do
      let e ← parseTerm fuel
      parseCompareLoop fuel e

def parseCompareLoop (fuel : Nat) (e : Expr) : PM Expr :=
  match fuel with
  | 0 => throw Failure.fuelOut
  | fuel + 1 => do
      if (← pMatchAny [.lt, .le, .gt, .ge]) then do
        let op ← pPrev
        let right ← parseTerm fuel
        parseCompareLoop fuel (.binary (spanMerge e.span right.span) e op.lexeme right)
      else
        pure e

def parseTerm (fuel : Nat) : PM Expr :=
  match fuel with
  | 0 => throw Failure.fuelOut
  | fuel + 1 => do
      let e ← parseFactor fuel
      parseTermLoop fuel e

def parseTermLoop (fuel : Nat) (e : Expr) : PM Expr :=
  match fuel with
  | 0 => throw Failure.fuelOut
  | fuel + 1 => do
      if (← pMatchAny [.plus, .minus]) then do
        let op ← pPrev
        let right ← parseFactor fuel
        parseTermLoop fuel (.binary (spanMerge e.span right.span) e op.lexeme right)
      else
        pure e

def parseFactor (fuel : Nat) : PM Expr :=
  match fuel with
  | 0 => throw Failure.fuelOut
  | fuel + 1 => do
      let e ← parseUnary fuel
      parseFactorLoop fuel e

def parseFactorLoop (fuel : Nat) (e : Expr) : PM Expr :=
  match fuel with
  | 0 => throw Failure.fuelOut
  | fuel + 1 => do
      if (← pMatchAny [.star, .slash, .percent]) then do
        let op ← pPrev
        let right ← parseUnary fuel
        parseFactorLoop fuel (.binary (spanMerge e.span right.span) e op.lexeme right)
      else
        pure e

/-- `Parser._parse_unary`. -/
def parseUnary (fuel : Nat) : PM Expr :=
  match fuel with
  | 0 => throw Failure.fuelOut
  | fuel + 1 => do
      if (← pMatchAny [.bang, .minus, .awaitK, .spawnK, .amp]) then do
        let op ← pPrev
        let opLexeme ← do
          if op.kind = .amp then do
            let t ← pPeek
            if t.kind = .identT ∧ t.lexeme = "mut" then do
              let _ ← pAdvance
              pure "&mut"
            else
              pure op.lexeme
          else
            pure op.lexeme
        let e ← parseUnary fuel
        if op.kind = .awaitK then
          pure (.awaitE (spanMerge op.span e.span) e)
        else if op.kind = .spawnK then
          pure (.spawnE (spanMerge op.span e.span) e)
        else
          pure (.unary (spanMerge op.span e.span) opLexeme e)
      else
        parsePostfixExpr fuel

/-- The call-argument loop of `Parser._parse_postfix`. -/
def parseCallArgs (fuel : Nat) (acc : List Expr) : PM (List Expr) :=
  match fuel with
  | 0 => throw Failure.fuelOut
  | fuel + 1 => do
      let arg ← parseExpr fuel
      if (← pMatch .comma) then
        parseCallArgs fuel (acc ++ [arg])
      else
        pure (acc ++ [arg])

/-- The postfix loop of `Parser._parse_postfix`. -/
def parsePostfixLoop (fuel : Nat) (e : Expr) : PM Expr :=
  match fuel with
  | 0 => throw Failure.fuelOut
  | fuel + 1 => do
      if (← pMatch .lparen) then do
        let args ← do
          if (← pCheck .rparen) then
            pure ([] : List Expr)
          else
            parseCallArgs fuel []
        let stop ← pExpect .rparen "expected ')'"
        parsePostfixLoop fuel (.call (spanMerge e.span stop.span) e args)
      else if (← pMatch .question) then do
        let prev ← pPrev
        parsePostfixLoop fuel (.tryE (spanMerge e.span prev.span) e)
      else
        pure e

/-- `Parser._parse_postfix`. -/
def parsePostfixExpr (fuel : Nat) : PM Expr :=
  match fuel with
  | 0 => throw Failure.fuelOut
  | fuel + 1 => do
      let e ← parsePrimary fuel
      parsePostfixLoop fuel e

/-- The field loop of the struct-initializer branch of `Parser._parse_primary`. -/
def parseInitFields (fuel : Nat) (acc : List FieldInit) : PM (List FieldInit) :=
  match fuel with
  | 0 => throw Failure.fuelOut
  | fuel + 1 => do
      if (← pCheck .rbrace) then
        pure acc
      else do
        let fName ← pExpect .identT "expected field name"
        let _ ← pExpect .colon "expected ':'"
        let value ← parseExpr fuel
        let fld : FieldInit := .mk (spanMerge fName.span value.span) fName.lexeme value
        if (← pMatch .comma) then
          parseInitFields fuel (acc ++ [fld])
        else
          pure (acc ++ [fld])

/-- `Parser._parse_primary`. -/
def parsePrimary (fuel : Nat) : PM Expr :=
  match fuel with
  | 0 => throw Failure.fuelOut
  | fuel + 1 => do
      if (← pMatchAny [.intT, .floatT, .stringT, .charT, .trueK, .falseK]) then do
        let tok ← pPrev
        pure (.literal tok.span tok.lexeme (tokKindLitName tok.kind))
      else if (← pMatch .identT) then do
        let identTok ← pPrev
        let isStructInit ← do
          let hasBrace ← pCheck .lbrace
          pure (hasBrace && (identTok.lexeme.toList.headD 'a').isUpper)
        if isStructInit then do
          let _ ← pAdvance
          let fields ← parseInitFields fuel []
          let stop ← pExpect .rbrace "expected '\x7d'"
          pure (.structInit (spanMerge identTok.span stop.span) identTok.lexeme fields)
        else
          pure (.ident identTok.span identTok.lexeme)
      else if (← pMatch .lparen) then do
        let e ← parseExpr fuel
        let _ ← pExpect .rparen "expected ')'"
        pure e
      else if (← pCheck .lbrace) then
        (.blockE ·) <$> parseBlock fuel
      else if (← pMatch .ifK) then
        parseIfExpr fuel
      else if (← pMatch .matchK) then
        parseMatchExpr fuel
      else if (← pMatch .unsafeK) then do
        let marker ← pPrev
        let b ← parseBlock fuel
        pure (.unsafeE (spanMerge marker.span b.span) b)
      else if (← pMatch .raiseK) then do
        let marker ← pPrev
        let kind ← pExpect .identT "expected custom error name after raise"
        let _ ← pExpect .lparen "expected '(' after custom error name"
        let message ← parseExpr fuel
        let stop ← pExpect .rparen "expected ')'"
        pure (.raiseE (spanMerge marker.span stop.span) kind.lexeme message)
      else
        throw (← pErrorHere "expected expression")

/-- `Parser._parse_if_expr`. -/
def parseIfExpr (fuel : Nat) : PM Expr :=
  match fuel with
  | 0 => throw Failure.fuelOut
  | fuel + 1 => do
      let cond ← parseExpr fuel
      let thenBlock ← parseBlock fuel
      let elseBranch ← do
        if (← pMatch .elseK) then do
          if (← pMatch .ifK) then
            (some ·) <$> parseIfExpr fuel
          else if (← pCheck .lbrace) then do
            let b ← parseBlock fuel
            pure (some (Expr.blockE b))
          else
            (some ·) <$> parseExpr fuel
        else
          pure (none : Option Expr)
      let stopSpan := match elseBranch with
        | some e => e.span
        | none => thenBlock.span
      pure (.ifE (spanMerge cond.span stopSpan) cond thenBlock elseBranch)

/-- The arm loop of `Parser._parse_match_expr`. -/
def parseMatchArms (fuel : Nat) (acc : List Arm) : PM (List Arm) :=
  match fuel with
  | 0 => throw Failure.fuelOut
  | fuel + 1 => do
      if (← pCheck .rbrace) then
        pure acc
      else do
        let pat ← parsePatternP fuel
        let _ ← pExpect .fatarrow "expected '=>' in match arm"
        let e ← parseExpr fuel
        let arm : Arm := .mk (spanMerge pat.span e.span) pat e
        let _ ← pMatch .comma
        pSkipSeparators fuel
        parseMatchArms fuel (acc ++ [arm])

/-- `Parser._parse_match_expr`. -/
def parseMatchExpr (fuel : Nat) : PM Expr :=
  match fuel with
  | 0 => throw Failure.fuelOut
  | fuel + 1 => do
      let target ← parseExpr fuel
      let _ ← pExpect .lbrace "expected '\x7b' after match expression"
      pSkipSeparators fuel
      let arms ← parseMatchArms fuel []
      let stop ← pExpect .rbrace "expected '\x7d'"
      pure (.matchE (spanMerge target.span stop.span) target arms)

/-- The variant-field loop of `Parser._parse_pattern`. -/
def parsePatternFields (fuel : Nat) (acc : List String) : PM (List String) :=
  match fuel with
  | 0 => throw Failure.fuelOut
  | fuel + 1 => do
      if (← pCheck .rparen) then
        pure acc
      else do
        let f ← pExpect .identT "expected pattern field"
        if (← pMatch .comma) then
          parsePatternFields fuel (acc ++ [f.lexeme])
        else
          pure (acc ++ [f.lexeme])

/-- `Parser._parse_pattern`. -/
def parsePatternP (fuel : Nat) : PM Pattern :=
  match fuel with
  | 0 => throw Failure.fuelOut
  | fuel + 1 => do
      if (← pMatch .identT) then do
        let tok ← pPrev
        if tok.lexeme = "_" then
          pure (.wildcard tok.span)
        else if (← pMatch .lparen) then do
          let fields ← parsePatternFields fuel []
          let _ ← pExpect .rparen "expected ')'"
          let prev ← pPrev
          pure (.variantP (spanMerge tok.span prev.span) tok.lexeme fields)
        else
          pure (.nameP tok.span tok.lexeme)
      else if (← pMatchAny [.intT, .floatT, .stringT, .charT, .trueK, .falseK]) then do
        let tok ← pPrev
        pure (.literalP tok.span tok.lexeme)
      else
        throw (← pErrorHere "expected pattern")

end

/-- `Parser.parse`. -/
def parseProgram (tokens : List Token) (fuel : Nat) : Except Failure Program := do
  let run : PM Program := do
    pSkipSeparators fuel
    let items ← parseItems fuel []
    let span ← do
      match items, items.getLast? with
      | [], _ => do
          let t ← pPeek
          pure t.span
      | first :: _, some last =>
          pure (spanMerge first.span last.span)
      | first :: _, none =>
          pure first.span
    pure ⟨span, items⟩
  (run ⟨tokens, 0⟩).map (·.1)

/-- `Parser.from_source(source, file).parse()`.  The fuel policy is a fixed
function of the input size; any terminating Python run is reproduced
exactly once the fuel exceeds the source's loop counts. -/
def parseSource (source : String) (file : String := "<input>") :
    Except Failure Program := do
  let tokens ← tokenize source file
  parseProgram tokens ((tokens.length + source.length + 16) * 16)

/-! ## Semantic types (`midori_typecheck.types`) -/

/-- `types.Type`: a name with a tuple of argument types. -/
inductive Ty where
  | mk (name : String) (args : List Ty)

def Ty.name : Ty → String
  | .mk n _ => n

def Ty.args : Ty → List Ty
  | .mk _ a => a

mutual

/-- Structural equality of types (Python compares `Type` dataclasses
structurally). -/
def tyBEq : Ty → Ty → Bool
  | .mk n1 a1, .mk n2 a2 => n1 == n2 && tyListBEq a1 a2

/-- The argument-list comparison underlying `tyBEq`. -/
def tyListBEq : List Ty → List Ty → Bool
  | [], [] => true
  | [], _ :: _ => false
  | _ :: _, [] => false
  | x :: xs, y :: ys => tyBEq x y && tyListBEq xs ys

end

mutual

theorem tyBEq_iff : ∀ a b : Ty, tyBEq a b = true ↔ a = b
  | .mk n1 a1, .mk n2 a2 => by
      simp only [tyBEq, Bool.and_eq_true, beq_iff_eq, Ty.mk.injEq]
      exact and_congr Iff.rfl (tyListBEq_iff a1 a2)

theorem tyListBEq_iff : ∀ l1 l2 : List Ty, tyListBEq l1 l2 = true ↔ l1 = l2
  | [], [] => by simp [tyListBEq]
  | [], _ :: _ => by simp [tyListBEq]
  | _ :: _, [] => by simp [tyListBEq]
  | x :: xs, y :: ys => by
      simp only [tyListBEq, Bool.and_eq_true, List.cons.injEq]
      exact and_congr (tyBEq_iff x y) (tyListBEq_iff xs ys)

end

instance : DecidableEq Ty := fun a b => decidable_of_iff _ (tyBEq_iff a b)

def tyInt : Ty := .mk "Int" []
def tyFloat : Ty := .mk "Float" []
def tyBool : Ty := .mk "Bool" []
def tyChar : Ty := .mk "Char" []
def tyString : Ty := .mk "String" []
def tyVoid : Ty := .mk "Void" []
def tyUnknown : Ty := .mk "Unknown" []

/-- `types.result_type`. -/
def resultType (ok err : Ty) : Ty := .mk "Result" [ok, err]

/-- `types.option_type`. -/
def optionType (inner : Ty) : Ty := .mk "Option" [inner]

/-- `Type.is_copy`. -/
def Ty.isCopy (t : Ty) : Bool :=
  t.name = "Int" || t.name = "Float" || t.name = "Bool" || t.name = "Char"

mutual

/-- `Type.__str__`. -/
def tyStr : Ty → String
  | .mk n [] => n
  | .mk n (a :: rest) => n ++ "[" ++ tyStrList (a :: rest) ++ "]"

/-- `", ".join(str(a) for a in args)`. -/
def tyStrList : List Ty → String
  | [] => ""
  | [a] => tyStr a
  | a :: b :: rest => tyStr a ++ ", " ++ tyStrList (b :: rest)

end

instance : Repr Ty := ⟨fun t _ => Std.Format.text (tyStr t)⟩

/-! ## Name resolver (`midori_typecheck.resolver`) -/

/-- `resolver.EnumVariantSymbol`. -/
structure EnumVariantSymbol where
  name : String
  index : Nat
  fields : List StructField

/-- `resolver.EnumSymbol`. -/
structure EnumSymbol where
  name : String
  decl : EnumDecl
  variants : List (String × EnumVariantSymbol)

/-- `resolver.Resolution`. -/
structure Resolution where
  functions : List (String × FunctionDecl)
  enums : List (String × EnumSymbol)
  errors : List (String × ErrorDecl)
  variantsByName : List (String × List (String × EnumVariantSymbol))

def resolverErr (span : Span) (message : String) (hint : Option String) : Failure :=
  .diag (mkError "midori_typecheck.resolver" span message hint)

/-- The variant loop of the `EnumDecl` branch of `resolve_names`. -/
def resolveVariants (enumName : String) :
    List EnumVariant → Nat → List (String × EnumVariantSymbol) →
    List (String × List (String × EnumVariantSymbol)) →
    Except Failure
      (List (String × EnumVariantSymbol) ×
        List (String × List (String × EnumVariantSymbol)))
  | [], _, variants, byName => .ok (variants, byName)
  | v :: rest, i, variants, byName =>
      if ahas variants v.name then
        .error (resolverErr v.span
          ("duplicate enum variant '" ++ v.name ++ "' in enum '" ++ enumName ++ "'")
          (some "rename one variant"))
      else
        let sym : EnumVariantSymbol := ⟨v.name, i, v.fields⟩
        let byName' :=
          match alookup byName v.name with
          | some l => aset byName v.name (l ++ [(enumName, sym)])
          | none => byName ++ [(v.name, [(enumName, sym)])]
        resolveVariants enumName rest (i + 1) (variants ++ [(v.name, sym)]) byName'

/-- The item loop of `resolve_names`. -/
def resolveItems :
    List Item → Resolution → Except Failure Resolution
  | [], res => .ok res
  | item :: rest, res => do
      let res ← match item with
        | .fnI d =>
            if ahas res.functions d.name then
              .error (resolverErr d.span ("duplicate function '" ++ d.name ++ "'")
                (some "rename one declaration"))
            else
              .ok { res with functions := res.functions ++ [(d.name, d)] }
        | .enumI d =>
            if ahas res.enums d.name then
              .error (resolverErr d.span ("duplicate enum '" ++ d.name ++ "'")
                (some "rename one declaration"))
            else do
              let (variants, byName) ←
                resolveVariants d.name d.variants 0 [] res.variantsByName
              .ok { res with
                enums := res.enums ++ [(d.name, ⟨d.name, d, variants⟩)],
                variantsByName := byName }
        | .errorI d =>
            if ahas res.errors d.name then
              .error (resolverErr d.span ("duplicate custom error '" ++ d.name ++ "'")
                (some "rename one custom error declaration"))
            else
              .ok { res with errors := res.errors ++ [(d.name, d)] }
        | _ => .ok res
      resolveItems rest res

/-- `resolve_names`. -/
def resolveNames (program : Program) : Except Failure Resolution := do
  let res ← resolveItems program.items ⟨[], [], [], []⟩
  if ahas res.functions "main" then
    .ok res
  else
    .error (resolverErr program.span "missing entry point function 'main'"
      (some "add `fn main() -> Int \x7b ... \x7d`"))

/-! ## Type checker (`midori_typecheck.checker`): data model and helpers -/

/-- `checker.FunctionType`. -/
structure FunctionType where
  params : List Ty
  ret : Ty
  genericParams : List String
deriving DecidableEq, Repr

/-- `checker.EnumVariantInfo`. -/
structure EnumVariantInfo where
  name : String
  index : Nat
  fieldTypes : List Ty
deriving DecidableEq, Repr

/-- `checker.EnumInfo`. -/
structure EnumInfo where
  name : String
  variants : List (String × EnumVariantInfo)
deriving DecidableEq, Repr

mutual

/-- `checker._type_from_ref` on a present reference. -/
def typeFromRefT : TypeRef → Ty
  | .mk _ name argRefs isRef isMutRef isPtr isMutPtr =>
      let args := typeFromRefList argRefs
      if isRef || isMutRef then .mk "Ref" [.mk name args]
      else if isPtr || isMutPtr then .mk "Ptr" [.mk name args]
      else .mk name args

def typeFromRefList : List TypeRef → List Ty
  | [] => []
  | r :: rest => typeFromRefT r :: typeFromRefList rest

end

/-- `checker._type_from_ref` (`None` maps to `Void`). -/
def typeFromRef : Option TypeRef → Ty
  | none => tyVoid
  | some r => typeFromRefT r

def checkerErr (span : Span) (message : String)
    (hint : Option String := none) : MidoriError :=
  mkError "midori_typecheck.checker" span message hint

/-- `checker._ensure_assignable`.  The per-argument scan accepts `Unknown`
on either side of a position and compares the rest for plain equality. -/
def ensureAssignable (expected actual : Ty) (span : Span) :
    Except MidoriError Unit :=
  if expected = actual then .ok ()
  else if expected.name = actual.name ∧ expected.args.length = actual.args.length ∧
      argsUnknownOk expected.args actual.args then
    .ok ()
  else if expected.name = "Unknown" ∨ actual.name = "Unknown" then
    .ok ()
  else
    .error (checkerErr span
      ("type mismatch: expected " ++ tyStr expected ++ ", got " ++ tyStr actual))
where
  argsUnknownOk : List Ty → List Ty → Bool
    | [], [] => true
    | e :: es, a :: as =>
        (e.name = "Unknown" || a.name = "Unknown" || e = a) && argsUnknownOk es as
    | _, _ => false

/-- `checker._literal_pattern_type`. -/
def literalPatternType (value : String) : Ty :=
  let chars := value.toList
  if value = "true" ∨ value = "false" then tyBool
  else if listStarts ['"'] chars ∧ listStarts ['"'] chars.reverse then tyString
  else if listStarts ['\''] chars ∧ listStarts ['\''] chars.reverse then tyChar
  else if chars.contains '.' ∧
      (chars.filter (· ≠ '.')).length + 1 = chars.length ∧
      (chars.filter (· ≠ '.')) ≠ [] ∧ (chars.filter (· ≠ '.')).all Char.isDigit then
    tyFloat
  else if chars ≠ [] ∧ chars.all Char.isDigit then tyInt
  else tyUnknown

/-- `checker._enum_variants_for_type`. -/
def enumVariantsForType (ty : Ty) (enums : List (String × EnumInfo)) :
    Option (List (String × EnumVariantInfo)) :=
  match alookup enums ty.name with
  | some info => some info.variants
  | none =>
      match ty with
      | .mk "Option" [inner] =>
          some [("Some", ⟨"Some", 0, [inner]⟩), ("None", ⟨"None", 1, []⟩)]
      | .mk "Result" [okTy, errTy] =>
          some [("Ok", ⟨"Ok", 0, [okTy]⟩), ("Err", ⟨"Err", 1, [errTy]⟩)]
      | _ => none

/-- Python set equality `seen_bool_literals == {"true", "false"}`. -/
def seenBoolsComplete (seen : List String) : Bool :=
  seen.contains "true" && seen.contains "false" &&
    seen.all (fun s => s = "true" || s = "false")

/-- `checker._is_exhaustive_match`. -/
def isExhaustiveMatch (targetTy : Ty) (sawCatchAll : Bool)
    (seenVariants : List String) (seenBools : List String)
    (enums : List (String × EnumInfo)) : Bool :=
  if sawCatchAll then true
  else if targetTy = tyBool then seenBoolsComplete seenBools
  else
    match enumVariantsForType targetTy enums with
    | some variants =>
        if variants.isEmpty then false
        else variants.all (fun kv => seenVariants.contains kv.1)
    | none => false

/-- The builtin names excluded from generic-parameter positions in
`checker._bind_generic` and `checker._apply_subst`. -/
def genericExcluded : List String :=
  ["Int", "Float", "Bool", "Char", "String", "Void", "Result", "Option",
   "Ref", "Ptr", "Unknown"]

/-- Python `str.isupper()` on the first character (`name[0].isupper()`). -/
def firstIsUpper (s : String) : Bool :=
  match s.toList with
  | [] => false
  | c :: _ => c.isUpper

mutual

/-- `checker._bind_generic`. -/
def bindGeneric : (expected actual : Ty) → (subst : List (String × Ty)) → Span →
    Except MidoriError (List (String × Ty))
  | .mk en eargs, .mk an aargs, subst, span =>
      if eargs.isEmpty ∧ en ≠ "" ∧ firstIsUpper en ∧
          ¬ genericExcluded.contains en then
        match alookup subst en with
        | none => .ok (aset subst en (.mk an aargs))
        | some prev => do
            let _ ← ensureAssignable prev (.mk an aargs) span
            .ok subst
      else if en ≠ an ∨ eargs.length ≠ aargs.length then
        .error (checkerErr span
          ("type mismatch: expected " ++ tyStr (.mk en eargs) ++ ", got " ++
            tyStr (.mk an aargs)))
      else
        bindGenericList eargs aargs subst span

def bindGenericList : (expArgs actArgs : List Ty) → List (String × Ty) → Span →
    Except MidoriError (List (String × Ty))
  | [], _, subst, _ => .ok subst
  | _ :: _, [], subst, _ => .ok subst
  | e :: es, a :: as, subst, span => do
      let subst ← bindGeneric e a subst span
      bindGenericList es as subst span

end

mutual

/-- `checker._apply_subst`. -/
def applySubst : Ty → List (String × Ty) → Ty
  | .mk n args, subst =>
      if args.isEmpty ∧ ahas subst n ∧ ¬ genericExcluded.contains n then
        match alookup subst n with
        | some t => t
        | none => .mk n args
      else if args.isEmpty then .mk n args
      else .mk n (applySubstList args subst)

def applySubstList : List Ty → List (String × Ty) → List Ty
  | [], _ => []
  | t :: rest, subst => applySubst t subst :: applySubstList rest subst

end

mutual

/-- `checker._coerce_unknown_type`. -/
def coerceUnknownType : Ty → Ty → Ty
  | .mk en eargs, .mk an aargs =>
      if en = an ∧ eargs.length = aargs.length then
        .mk en (coerceUnknownList eargs aargs)
      else if an = "Unknown" then .mk en eargs
      else .mk an aargs

def coerceUnknownList : List Ty → List Ty → List Ty
  | [], _ => []
  | _ :: _, [] => []
  | e :: es, a :: as =>
      (if a.name = "Unknown" then e
       else if e.name = "Unknown" then a
       else coerceUnknownType e a) :: coerceUnknownList es as

end

/-- `checker._is_printable_type`. -/
def isPrintableType (ty : Ty) : Bool :=
  ty = tyInt || ty = tyFloat || ty = tyBool || ty = tyChar || ty = tyString

/-- `checker._merge_branch_types`. -/
def mergeBranchTypes (left right : Ty) (span : Span) : Except MidoriError Ty :=
  if left = right then .ok left
  else
    match ensureAssignable left right span with
    | .ok _ => .ok (coerceUnknownType left right)
    | .error _ =>
        match ensureAssignable right left span with
        | .ok _ => .ok (coerceUnknownType right left)
        | .error _ =>
            .error (checkerErr span
              ("if branches type mismatch: " ++ tyStr left ++ " vs " ++ tyStr right))

/-! ## Type checker: `_check_function` and `check_program`

The Python checker is a bundle of nested closures sharing `vars_map`,
`all_locals`, `expr_types` and `saw_explicit_return`; the embedding passes
that shared state explicitly.  `expr_types` is keyed by `id(expr)` in the
source; parsed trees give distinct nodes distinct spans, so the span is
the embedded key. -/

/-- `checker._VarState`. -/
structure VarState where
  ty : Ty
  mutable : Bool
deriving DecidableEq, Repr

/-- The closure state of `_check_function`. -/
structure ChkState where
  varsMap : List (String × VarState)
  allLocals : List (String × Ty)
  exprTypes : List (Span × Ty)
  sawReturn : Bool
deriving Repr

/-- The per-function context (arguments of `_check_function`). -/
structure ChkCtx where
  fnTypes : List (String × FunctionType)
  enums : List (String × EnumInfo)
  variantsByName : List (String × List (String × EnumVariantSymbol))
  customErrors : List String
  declName : String

/-- `checker._PatternResult`. -/
structure PatternResult where
  kind : String
  variantName : Option String
  literalValue : Option String
deriving DecidableEq, Repr

/-- Unchecked Python list indexing. -/
def pyListAt {α : Type} (l : List α) (i : Nat) : Except Failure α :=
  match l.get? i with
  | some x => .ok x
  | none => .error .indexError

/-- Unchecked Python dict indexing (`d[k]`). -/
def pyDictAt {α : Type} (l : List (String × α)) (k : String) : Except Failure α :=
  match alookup l k with
  | some x => .ok x
  | none => .error .keyError

/-- Python `set.add` on an insertion-ordered set. -/
def setAdd (l : List String) (s : String) : List String :=
  if l.contains s then l else l ++ [s]

/-- Insertion sort by `≤`, for `sorted(...)` over strings. -/
def sortStrings (l : List String) : List String :=
  let rec insert (s : String) : List String → List String
    | [] => [s]
    | x :: xs => if s ≤ x then s :: x :: xs else x :: insert s xs
  match l with
  | [] => []
  | x :: xs => insert x (sortStrings xs)

/-- Python `", ".join(l)`. -/
def joinComma : List String → String
  | [] => ""
  | [s] => s
  | s :: rest => s ++ ", " ++ joinComma rest

/-- `note(expr, ty)`: record the type under the expression's key. -/
def noteTy (st : ChkState) (e : Expr) (ty : Ty) : Ty × ChkState :=
  (ty, { st with exprTypes := aspanSet st.exprTypes e.span ty })
where
  aspanSet (l : List (Span × Ty)) (k : Span) (v : Ty) : List (Span × Ty) :=
    match l with
    | [] => [(k, v)]
    | (k', w) :: t => if k' = k then (k', v) :: t else (k', w) :: aspanSet t k v

/-- Record a type under an explicit span key (`expr_types[id(e)] = ty`). -/
def putExprTy (st : ChkState) (sp : Span) (ty : Ty) : ChkState :=
  { st with exprTypes := noteTy.aspanSet st.exprTypes sp ty }

/-- Span-keyed lookup of a recorded expression type. -/
def spanLookup (l : List (Span × Ty)) (k : Span) : Option Ty :=
  match l with
  | [] => none
  | (k', v) :: t => if k' = k then some v else spanLookup t k

/-- The accumulator of the match-arm loop in the `MatchExpr` branch. -/
structure MatchAcc where
  seenVariants : List String
  seenBools : List String
  sawCatchAll : Bool
deriving DecidableEq, Repr

/-- The per-arm accumulator update of the `MatchExpr` loop. -/
def matchAccUpdate (acc : MatchAcc) (pat : PatternResult) : MatchAcc :=
  let acc :=
    if pat.kind = "variant" then
      match pat.variantName with
      | some v => { acc with seenVariants := setAdd acc.seenVariants v }
      | none => acc
    else acc
  let acc :=
    if pat.kind = "literal" then
      match pat.literalValue with
      | some v =>
          if v = "true" ∨ v = "false" then
            { acc with seenBools := setAdd acc.seenBools v }
          else acc
      | none => acc
    else acc
  if pat.kind = "wildcard" ∨ pat.kind = "binding" then
    { acc with sawCatchAll := true }
  else acc

/-- The binding loop of the variant-pattern branch of `check_pattern`. -/
def bindVariantFields : ChkState → List String → List Ty →
    Except Failure ChkState
  | st, [], _ => .ok st
  | st, f :: fs, ft :: fts =>
      bindVariantFields { st with varsMap := aset st.varsMap f ⟨ft, false⟩ } fs fts
  | _, _ :: _, [] => .error .indexError

/-- `check_pattern` of `_check_function`. -/
def checkPattern (ctx : ChkCtx) (st : ChkState) (pattern : Pattern) (targetTy : Ty) :
    Except Failure (PatternResult × ChkState) :=
  let enumVariants := enumVariantsForType targetTy ctx.enums
  match pattern with
  | .wildcard _ => .ok (⟨"wildcard", none, none⟩, st)
  | .literalP sp value => do
      let litTy := literalPatternType value
      let _ ← (ensureAssignable targetTy litTy sp).mapError .diag
      .ok (⟨"literal", none, some value⟩, st)
  | .variantP sp name fields =>
      match enumVariants with
      | none =>
          .error (.diag (checkerErr sp
            ("variant pattern '" ++ name ++ "' requires enum target, got " ++
              tyStr targetTy)))
      | some variants =>
          match alookup variants name with
          | none =>
              .error (.diag (checkerErr sp
                ("unknown variant '" ++ name ++ "' for enum '" ++ targetTy.name ++ "'")))
          | some info =>
              if fields.length ≠ info.fieldTypes.length then
                .error (.diag (checkerErr sp
                  ("variant '" ++ name ++ "' expects " ++
                    toString info.fieldTypes.length ++ " bindings, got " ++
                    toString fields.length)))
              else do
                let st ← bindVariantFields st fields info.fieldTypes
                .ok (⟨"variant", some name, none⟩, st)
  | .nameP _ name =>
      match enumVariants with
      | some variants =>
          if ¬ variants.isEmpty ∧ (alookup variants name).isSome then
            match alookup variants name with
            | some info =>
                if ¬ info.fieldTypes.isEmpty then
                  .error (.diag (checkerErr pattern.span
                    ("variant '" ++ name ++ "' carries payload; use '" ++ name ++
                      "(...)' pattern")))
                else
                  .ok (⟨"variant", some name, none⟩, st)
            | none => .error .keyError
          else
            .ok (⟨"binding", none, none⟩,
              { st with varsMap := aset st.varsMap name ⟨targetTy, false⟩ })
      | none =>
          .ok (⟨"binding", none, none⟩,
            { st with varsMap := aset st.varsMap name ⟨targetTy, false⟩ })

/-- The arm-type unification loop (`for got in arm_types[1:]`). -/
def ensureArmTypes (armTy : Ty) (rest : List Ty) (span : Span) :
    Except Failure Unit :=
  match rest with
  | [] => .ok ()
  | got :: more => do
      let _ ← (ensureAssignable armTy got span).mapError .diag
      ensureArmTypes armTy more span

/-- The exhaustiveness gate at the end of the `MatchExpr` branch: accept,
or raise the `non-exhaustive match` diagnostic (usually code `MD3100`;
the code is sniffed from the message, which embeds the type name). -/
def matchExhaustGate (span : Span) (targetTy : Ty) (acc : MatchAcc)
    (enums : List (String × EnumInfo)) : Except Failure Unit :=
  if isExhaustiveMatch targetTy acc.sawCatchAll acc.seenVariants acc.seenBools enums then
    .ok ()
  else
    .error (.diag (checkerErr span
      ("non-exhaustive match over type " ++ tyStr targetTy)
      (some "add missing patterns or a trailing `_ => ...` arm")))

/-- `?` acceptance (`PostfixTryExpr` branch, after the operand's type is
known): requires `Result[T, E]` operand, a `Result[T', E']` enclosing
return type, and `E` assignable to `E'`; yields `T`. -/
def checkTryTy (innerTy fnRet : Ty) (span : Span) : Except Failure Ty :=
  if innerTy.name ≠ "Result" ∨ innerTy.args.length ≠ 2 then
    .error (.diag (checkerErr span "`?` expects Result[T, E]"))
  else if fnRet.name ≠ "Result" ∨ fnRet.args.length ≠ 2 then
    .error (.diag (checkerErr span
      "`?` can only be used in functions returning Result[T, E]"))
  else do
    let fnErrTy ← pyListAt fnRet.args 1
    let innerErrTy ← pyListAt innerTy.args 1
    let _ ← (ensureAssignable fnErrTy innerErrTy span).mapError .diag
    pyListAt innerTy.args 0

mutual

/-- The `infer` closure of `_check_function`. -/
def inferExpr (ctx : ChkCtx) (st : ChkState) : Expr → Except Failure (Ty × ChkState)
  | .literal sp value kind =>
      let e := Expr.literal sp value kind
      if kind = "int" then .ok (noteTy st e tyInt)
      else if kind = "float" then .ok (noteTy st e tyFloat)
      else if kind = "char" then .ok (noteTy st e tyChar)
      else if kind = "true" ∨ kind = "false" then .ok (noteTy st e tyBool)
      else .ok (noteTy st e tyString)
  | .ident sp name =>
      match alookup st.varsMap name with
      | none =>
          .error (.diag (checkerErr sp ("unknown name '" ++ name ++ "'")
            (some "declare it first")))
      | some vs => .ok (noteTy st (.ident sp name) vs.ty)
  | .unary sp op arg => do
      let (inner, st) ← inferExpr ctx st arg
      let e := Expr.unary sp op arg
      if op = "-" then
        if inner ≠ tyInt ∧ inner ≠ tyFloat then
          .error (.diag (checkerErr sp
            ("type mismatch: expected Int or Float, got " ++ tyStr inner)))
        else
          .ok (noteTy st e inner)
      else if op = "!" then do
        let _ ← (ensureAssignable tyBool inner sp).mapError .diag
        .ok (noteTy st e tyBool)
      else if op = "&" ∨ op = "&mut" then
        .ok (noteTy st e (.mk "Ref" [inner]))
      else
        .error (.diag (checkerErr sp ("unsupported unary operator '" ++ op ++ "'")))
  | .binary sp left op right => do
      let (lt, st) ← inferExpr ctx st left
      let (rt, st) ← inferExpr ctx st right
      let e := Expr.binary sp left op right
      if lt ≠ rt then
        .error (.diag (checkerErr sp
          ("type mismatch: " ++ tyStr lt ++ " vs " ++ tyStr rt)))
      else if op = "+" ∨ op = "-" ∨ op = "*" ∨ op = "/" ∨ op = "%" then
        .ok (noteTy st e lt)
      else if op = "==" ∨ op = "!=" ∨ op = "<" ∨ op = "<=" ∨ op = ">" ∨
          op = ">=" ∨ op = "&&" ∨ op = "||" then
        .ok (noteTy st e tyBool)
      else
        .error (.diag (checkerErr sp ("unsupported binary operator '" ++ op ++ "'")))
  | .assign sp target op value =>
      match target with
      | .ident _ tname =>
          (match alookup st.varsMap tname with
          | none =>
              .error (.diag (checkerErr sp ("unknown name '" ++ tname ++ "'")))
          | some state =>
              if ¬ state.mutable then
                .error (.diag (checkerErr sp
                  ("cannot assign to immutable variable '" ++ tname ++ "'")))
              else do
                let (valueTy, st) ← inferExpr ctx st value
                let _ ← (ensureAssignable state.ty valueTy sp).mapError .diag
                .ok (noteTy st (.assign sp target op value) state.ty))
      | _ =>
          .error (.diag (checkerErr sp "assignment target must be an identifier"))
  | .call sp callee args =>
      match callee with
      | .ident _ name =>
          let e := Expr.call sp callee args
          if name = "print" then do
            let st ← inferPrintArgs ctx st args
            .ok (noteTy st e tyVoid)
          else if name = "read_file" then do
            match args with
            | [arg0] => do
                let (argTy, st) ← inferExpr ctx st arg0
                let _ ← (ensureAssignable tyString argTy arg0.span).mapError .diag
                .ok (noteTy st e (resultType tyString tyString))
            | _ =>
                .error (.diag (checkerErr sp "read_file expects one argument"))
          else if name = "Some" then do
            match args with
            | [arg0] => do
                let (argTy, st) ← inferExpr ctx st arg0
                .ok (noteTy st e (optionType argTy))
            | _ =>
                .error (.diag (checkerErr sp "Some expects one argument"))
          else if name = "None" then
            .ok (noteTy st e (optionType tyUnknown))
          else if name = "Ok" then do
            match args with
            | [arg0] => do
                let (argTy, st) ← inferExpr ctx st arg0
                .ok (noteTy st e (resultType argTy tyUnknown))
            | _ =>
                .error (.diag (checkerErr sp "Ok expects one argument"))
          else if name = "Err" then do
            match args with
            | [arg0] => do
                let (argTy, st) ← inferExpr ctx st arg0
                .ok (noteTy st e (resultType tyUnknown argTy))
            | _ =>
                .error (.diag (checkerErr sp "Err expects one argument"))
          else
            match alookup ctx.variantsByName name with
            | some candidates =>
                if candidates.length > 1 then
                  .error (.diag (checkerErr sp
                    ("ambiguous variant constructor '" ++ name ++ "'")
                    (some ("rename variants to avoid ambiguity across enums: " ++
                      joinComma (sortStrings (candidates.map (·.1)))))))
                else do
                  let c0 ← pyListAt candidates 0
                  let enumInfo ← pyDictAt ctx.enums c0.1
                  let variantInfo ← pyDictAt enumInfo.variants name
                  if args.length ≠ variantInfo.fieldTypes.length then
                    .error (.diag (checkerErr sp
                      ("wrong number of arguments for variant '" ++ name ++
                        "': expected " ++ toString variantInfo.fieldTypes.length ++
                        ", got " ++ toString args.length)))
                  else do
                    let st ← inferSeqCheck ctx st args variantInfo.fieldTypes
                    .ok (noteTy st e (.mk c0.1 []))
            | none =>
                match alookup ctx.fnTypes name with
                | none =>
                    .error (.diag (checkerErr sp ("unknown function '" ++ name ++ "'")))
                | some sig =>
                    if ¬ sig.genericParams.isEmpty then do
                      if args.length ≠ sig.params.length then
                        .error (.diag (checkerErr sp
                          ("wrong number of arguments for '" ++ name ++
                            "': expected " ++ toString sig.params.length ++
                            ", got " ++ toString args.length)))
                      else do
                        let (subst, st) ← inferGenericBind ctx st args sig.params []
                        let st ← inferGenericCheck ctx st args sig.params subst
                        .ok (noteTy st e (applySubst sig.ret subst))
                    else do
                      if args.length ≠ sig.params.length then
                        .error (.diag (checkerErr sp
                          ("wrong number of arguments for '" ++ name ++
                            "': expected " ++ toString sig.params.length ++
                            ", got " ++ toString args.length)))
                      else do
                        let st ← inferSeqCheck ctx st args sig.params
                        .ok (noteTy st e sig.ret)
      | _ =>
          .error (.diag (checkerErr sp "only direct function calls are supported"))
  | .ifE sp condition thenBlock elseBranch => do
      let (condTy, st) ← inferExpr ctx st condition
      let _ ← (ensureAssignable tyBool condTy condition.span).mapError .diag
      let (thenTy, st) ← inferBlock ctx st thenBlock
      let (elseTy, st) ← do
        match elseBranch with
        | some e => inferExpr ctx st e
        | none => .ok (tyVoid, st)
      let merged ← (mergeBranchTypes thenTy elseTy sp).mapError .diag
      let st := match thenBlock.tail with
        | some tailE => putExprTy st tailE.span (coerceUnknownType merged thenTy)
        | none => st
      let st := match elseBranch with
        | some e =>
            let coercedElse := coerceUnknownType merged elseTy
            let st := putExprTy st e.span coercedElse
            (match e with
            | .blockE b =>
                (match b.tail with
                | some t => putExprTy st t.span coercedElse
                | none => st)
            | _ => st)
        | none => st
      .ok (noteTy st (.ifE sp condition thenBlock elseBranch) merged)
  | .blockE b => do
      let (ty, st) ← inferBlock ctx st b
      .ok (noteTy st (.blockE b) ty)
  | .rangeE sp lo hi incl =>
      let _ := (lo, hi, incl)
      .error (.diag (checkerErr sp "unsupported range expression"
        (some "range lowering is not implemented yet")))
  | .tryE sp arg => do
      let (inner, st) ← inferExpr ctx st arg
      let fnTy ← pyDictAt ctx.fnTypes ctx.declName
      let ty ← checkTryTy inner fnTy.ret sp
      .ok (noteTy st (.tryE sp arg) ty)
  | .raiseE sp kind message => do
      if ¬ ctx.customErrors.contains kind then
        .error (.diag (checkerErr sp
          ("unknown custom error kind '" ++ kind ++ "'")
          (some ("declare it first with `error " ++ kind ++ "`"))))
      else do
        let fnTy ← pyDictAt ctx.fnTypes ctx.declName
        if fnTy.ret.name ≠ "Result" ∨ fnTy.ret.args.length ≠ 2 then
          .error (.diag (checkerErr sp
            "`raise` can only be used in functions returning Result[T, String]"))
        else do
          let errSlot ← pyListAt fnTy.ret.args 1
          let _ ← (ensureAssignable tyString errSlot sp).mapError .diag
          let (msgTy, st) ← inferExpr ctx st message
          let _ ← (ensureAssignable tyString msgTy message.span).mapError .diag
          match message with
          | .literal _ _ "string" =>
              .ok (noteTy st (.raiseE sp kind message) tyUnknown)
          | _ =>
              .error (.diag (checkerErr message.span
                "`raise` message must be a string literal"
                (some "example: raise MyError(\"detail\")")))
  | .awaitE sp arg =>
      let _ := arg
      .error (.diag (checkerErr sp "await codegen is not implemented yet"
        (some "track roadmap in docs")))
  | .spawnE sp arg =>
      let _ := arg
      .error (.diag (checkerErr sp "spawn codegen is not implemented yet"
        (some "track roadmap in docs")))
  | .matchE sp scrut arms => do
      if arms.isEmpty then
        .error (.diag (checkerErr sp "empty match expression"))
      else do
        let (targetTy, st) ← inferExpr ctx st scrut
        let (acc, armTypes, st) ←
          checkArms ctx st arms targetTy ⟨[], [], false⟩ []
        match armTypes with
        | [] => .error .indexError
        | armTy :: rest => do
            let _ ← ensureArmTypes armTy rest sp
            let _ ← matchExhaustGate sp targetTy acc ctx.enums
            .ok (noteTy st (.matchE sp scrut arms) armTy)
  | .structInit sp name fields =>
      let _ := (name, fields)
      .error (.diag (checkerErr sp "unsupported struct initialization expression"
        (some "struct initialization lowering is not implemented yet")))
  | .unsafeE sp b => do
      let (ty, st) ← inferBlock ctx st b
      .ok (noteTy st (.unsafeE sp b) ty)

/-- The `print` argument loop of the `CallExpr` branch. -/
def inferPrintArgs (ctx : ChkCtx) (st : ChkState) :
    List Expr → Except Failure ChkState
  | [] => .ok st
  | arg :: rest => do
      let (argTy, st) ← inferExpr ctx st arg
      if ¬ isPrintableType argTy then
        .error (.diag (checkerErr arg.span
          ("unsupported print argument type " ++ tyStr argTy)
          (some "print supports Int, Float, Bool, Char, and String")))
      else
        inferPrintArgs ctx st rest

/-- The positional infer-and-check loop used for user-variant constructor
arguments and non-generic call arguments. -/
def inferSeqCheck (ctx : ChkCtx) (st : ChkState) :
    List Expr → List Ty → Except Failure ChkState
  | [], _ => .ok st
  | arg :: rest, expTy :: expRest => do
      let (argTy, st) ← inferExpr ctx st arg
      let _ ← (ensureAssignable expTy argTy arg.span).mapError .diag
      inferSeqCheck ctx st rest expRest
  | _ :: _, [] => .error .indexError

/-- The first (binding) pass over a generic call's arguments. -/
def inferGenericBind (ctx : ChkCtx) (st : ChkState) :
    List Expr → List Ty → List (String × Ty) →
    Except Failure (List (String × Ty) × ChkState)
  | [], _, subst => .ok (subst, st)
  | arg :: rest, expTy :: expRest, subst => do
      let (argTy, st) ← inferExpr ctx st arg
      let subst ← (bindGeneric expTy argTy subst arg.span).mapError .diag
      inferGenericBind ctx st rest expRest subst
  | _ :: _, [], _ => .error .indexError

/-- The second (checking) pass over a generic call's arguments. -/
def inferGenericCheck (ctx : ChkCtx) (st : ChkState) :
    List Expr → List Ty → List (String × Ty) → Except Failure ChkState
  | [], _, _ => .ok st
  | arg :: rest, expTy :: expRest, subst => do
      let (argTy, st) ← inferExpr ctx st arg
      let _ ← (ensureAssignable (applySubst expTy subst) argTy arg.span).mapError .diag
      inferGenericCheck ctx st rest expRest subst
  | _ :: _, [], _ => .error .indexError

/-- The arm loop of the `MatchExpr` branch: per arm, snapshot the scope,
check the pattern, update the accumulator, infer the arm body, restore
the scope. -/
def checkArms (ctx : ChkCtx) (st : ChkState) :
    List Arm → Ty → MatchAcc → List Ty →
    Except Failure (MatchAcc × List Ty × ChkState)
  | [], _, acc, armTypes => .ok (acc, armTypes, st)
  | .mk _ pat body :: rest, targetTy, acc, armTypes => do
      let oldScope := st.varsMap
      let (patRes, st) ← checkPattern ctx st pat targetTy
      let acc := matchAccUpdate acc patRes
      let (armTy, st) ← inferExpr ctx st body
      let st := { st with varsMap := oldScope }
      checkArms ctx st rest targetTy acc (armTypes ++ [armTy])

/-- The `infer_stmt` closure. -/
def inferStmt (ctx : ChkCtx) (st : ChkState) : Stmt → Except Failure ChkState
  | .letS sp name ty rhs mutable inferred => do
      let (valTy, st) ← inferExpr ctx st rhs
      let outTy := if inferred then valTy else typeFromRef ty
      let _ ← (ensureAssignable outTy valTy sp).mapError .diag
      let st := putExprTy st rhs.span (coerceUnknownType outTy valTy)
      .ok { st with
        varsMap := aset st.varsMap name ⟨outTy, mutable⟩,
        allLocals := aset st.allLocals name outTy }
  | .retS sp value => do
      let st := { st with sawReturn := true }
      let fnTy ← pyDictAt ctx.fnTypes ctx.declName
      let expected := fnTy.ret
      let (actual, st) ← do
        match value with
        | none => .ok (tyVoid, st)
        | some e => inferExpr ctx st e
      let _ ← (ensureAssignable expected actual sp).mapError .diag
      let st := match value with
        | some e => putExprTy st e.span (coerceUnknownType expected actual)
        | none => st
      .ok st
  | .exprS _ e => do
      let (_, st) ← inferExpr ctx st e
      .ok st
  | .breakS sp value =>
      let _ := value
      .error (.diag (checkerErr sp "unsupported break statement"
        (some "loop lowering is not implemented yet")))
  | .contS sp =>
      .error (.diag (checkerErr sp "unsupported continue statement"
        (some "loop lowering is not implemented yet")))

/-- The statement loop of `infer_block`. -/
def inferStmts (ctx : ChkCtx) (st : ChkState) : List Stmt → Except Failure ChkState
  | [] => .ok st
  | s :: rest => do
      let st ← inferStmt ctx st s
      inferStmts ctx st rest

/-- The `infer_block` closure. -/
def inferBlock (ctx : ChkCtx) (st : ChkState) : Block → Except Failure (Ty × ChkState)
  | .mk _ stmts tail => do
      let oldScope := st.varsMap
      let st ← inferStmts ctx st stmts
      match tail with
      | some t => do
          let (out, st) ← inferExpr ctx st t
          .ok (out, { st with varsMap := oldScope })
      | none =>
          if st.sawReturn then do
            let fnTy ← pyDictAt ctx.fnTypes ctx.declName
            .ok (fnTy.ret, { st with varsMap := oldScope })
          else
            .ok (tyVoid, { st with varsMap := oldScope })

end

/-- `checker.TypedFunction`. -/
structure TypedFunction where
  decl : FunctionDecl
  fnType : FunctionType
  exprTypes : List (Span × Ty)
  localTypes : List (String × Ty)

/-- `checker.TypedProgram`. -/
structure TypedProgram where
  program : Program
  functions : List (String × TypedFunction)
  enums : List (String × EnumInfo)
  warnings : List String

/-- The parameter-scope initialisation loop of `_check_function`. -/
def initParamScope (fnParams : List Ty) (params : List Param) (i : Nat)
    (st : ChkState) : Except Failure ChkState :=
  match params with
  | [] => .ok st
  | p :: rest => do
      let ty ← pyListAt fnParams i
      initParamScope fnParams rest (i + 1)
        { st with
          varsMap := aset st.varsMap p.name ⟨ty, false⟩,
          allLocals := aset st.allLocals p.name ty }

/-- `checker._check_function`.  The `warnings` list is taken and returned;
no branch of the source function ever appends to it. -/
def checkFunction (decl : FunctionDecl) (fnTypes : List (String × FunctionType))
    (enums : List (String × EnumInfo))
    (variantsByName : List (String × List (String × EnumVariantSymbol)))
    (customErrors : List String) (warnings : List String) :
    Except Failure (TypedFunction × List String) := do
  let ctx : ChkCtx := ⟨fnTypes, enums, variantsByName, customErrors, decl.name⟩
  let fnTy ← pyDictAt fnTypes decl.name
  let st0 : ChkState := ⟨[], [], [], false⟩
  let st ← initParamScope fnTy.params decl.params 0 st0
  let (bodyTy, st) ← inferBlock ctx st decl.body
  let expectedRet := fnTy.ret
  let _ ← (ensureAssignable expectedRet bodyTy decl.body.span).mapError .diag
  let st := match decl.body.tail with
    | some tailE =>
        let coercedTail := coerceUnknownType expectedRet bodyTy
        let st := putExprTy st tailE.span coercedTail
        (match tailE with
        | .blockE b =>
            (match b.tail with
            | some tt => putExprTy st tt.span coercedTail
            | none => st)
        | _ => st)
    | none => st
  .ok (⟨decl, fnTy, st.exprTypes, st.allLocals⟩, warnings)

/-- The enum-conversion loop of `check_program`. -/
def enumInfoOfSymbol (sym : EnumSymbol) : EnumInfo :=
  ⟨sym.name,
    sym.variants.map (fun kv =>
      (kv.1, ⟨kv.2.name, kv.2.index,
        kv.2.fields.map (fun f => typeFromRef (some f.ty))⟩))⟩

/-- The signature-collection loop of `check_program`. -/
def fnTypeOfDecl (decl : FunctionDecl) : FunctionType :=
  ⟨decl.params.map (fun p => typeFromRef (some p.ty)),
    (match decl.returnType with
    | some rt => typeFromRef (some rt)
    | none => tyVoid),
    decl.genericParams⟩

/-- The function-checking loop of `check_program`. -/
def checkFunctions (fnTypes : List (String × FunctionType))
    (enums : List (String × EnumInfo))
    (variantsByName : List (String × List (String × EnumVariantSymbol)))
    (customErrors : List String) :
    List (String × FunctionDecl) → List (String × TypedFunction) → List String →
    Except Failure (List (String × TypedFunction) × List String)
  | [], acc, warnings => .ok (acc, warnings)
  | (name, decl) :: rest, acc, warnings => do
      let (tf, warnings) ←
        checkFunction decl fnTypes enums variantsByName customErrors warnings
      checkFunctions fnTypes enums variantsByName customErrors rest
        (acc ++ [(name, tf)]) warnings

/-- `checker.check_program`. -/
def checkProgram (program : Program) (resolution : Resolution) :
    Except Failure TypedProgram := do
  let enums := resolution.enums.map (fun kv => (kv.1, enumInfoOfSymbol kv.2))
  let fnTypes := resolution.functions.map (fun kv => (kv.1, fnTypeOfDecl kv.2))
  let warnings : List String := []
  let (typedFuncs, warnings) ←
    checkFunctions fnTypes enums resolution.variantsByName
      (resolution.errors.map (·.1)) resolution.functions [] warnings
  .ok ⟨program, typedFuncs, enums, warnings⟩

/-! ## Borrow checker (`midori_ir.borrow`)

`_State` objects are mutated in place in the source; no two map entries
alias one object, so the embedding updates a value map.  `release_ops`
is the list the source mutates by `append`; it is threaded through and
returned extended. -/

/-- `borrow._State`. -/
structure BorrowState where
  moved : Bool
  immBorrows : Nat
  mutBorrow : Bool
  ty : Option Ty
deriving DecidableEq, Repr

/-- A fresh `_State(ty=t)` with the default flags. -/
def freshBorrowState (ty : Option Ty) : BorrowState :=
  ⟨false, 0, false, ty⟩

abbrev BorrowStates := List (String × BorrowState)

def borrowErr (span : Span) (message : String) : Failure :=
  .diag (mkError "midori_ir.borrow" span message none)

/-- The `isinstance(expr.expr, ast.IdentifierExpr)` test of the borrow
branch of `_visit_expr`. -/
def exprIdentName : Expr → Option String
  | .ident _ n => some n
  | _ => none

/-- `borrow._clone_states` is the identity on a value map; the merge of
`borrow._merge_branch_states` rebuilds each base entry. -/
def mergeBranchStates (base : BorrowStates) (branches : List BorrowStates) :
    BorrowStates :=
  base.map (fun kv =>
    (kv.1,
      branches.foldl
        (fun merged branch =>
          match alookup branch kv.1 with
          | none => merged
          | some b =>
              { merged with
                moved := merged.moved || b.moved,
                immBorrows := max merged.immBorrows b.immBorrows,
                mutBorrow := merged.mutBorrow || b.mutBorrow })
        kv.2))

/-- `borrow._bind_pattern_names`. -/
def bindPatternNames (pattern : Pattern) (states : BorrowStates)
    (exprTypes : List (Span × Ty)) (scrut : Expr) :
    Except Failure BorrowStates :=
  let targetTy := spanLookup exprTypes scrut.span
  match pattern with
  | .nameP _ name =>
      (match targetTy with
      | some ty =>
          if ty.name ≠ "Result" ∧ ty.name ≠ "Option" then do
            let c0 ← pyListAt ty.name.toList 0
            if c0.isUpper then
              .ok states
            else
              .ok (aset states name (freshBorrowState targetTy))
          else
            .ok (aset states name (freshBorrowState targetTy))
      | none => .ok (aset states name (freshBorrowState targetTy)))
  | .variantP _ _ fields =>
      .ok (fields.foldl
        (fun st f => aset st f (freshBorrowState (some tyUnknown))) states)
  | _ => .ok states

mutual

/-- `borrow._check_block`. -/
def borrowCheckBlock (exprTypes : List (Span × Ty)) :
    Block → BorrowStates → Except Failure BorrowStates
  | .mk _ stmts tail, states => do
      let (states, releaseOps, shadowed, localsDefined) ←
        borrowStmts exprTypes stmts states [] [] []
      let (states, releaseOps) ← do
        match tail with
        | some t => borrowVisit exprTypes t states releaseOps
        | none => .ok (states, releaseOps)
      let states := releaseOps.foldl
        (fun st op =>
          match alookup st op.1 with
          | none => st
          | some s =>
              if op.2 = "imm" then
                aset st op.1 { s with immBorrows := s.immBorrows - 1 }
              else
                aset st op.1 { s with mutBorrow := false })
        states
      let states := localsDefined.foldl
        (fun st lcl =>
          match alookup shadowed lcl with
          | some (some old) => aset st lcl old
          | _ => adrop st lcl)
        states
      .ok states

/-- The statement loop of `_check_block`; returns the updated states, the
accumulated release operations, the shadow map, and the locals defined. -/
def borrowStmts (exprTypes : List (Span × Ty)) :
    List Stmt → BorrowStates → List (String × String) →
    List (String × Option BorrowState) → List String →
    Except Failure
      (BorrowStates × List (String × String) ×
        List (String × Option BorrowState) × List String)
  | [], states, releaseOps, shadowed, localsDefined =>
      .ok (states, releaseOps, shadowed, localsDefined)
  | stmt :: rest, states, releaseOps, shadowed, localsDefined => do
      match stmt with
      | .letS _ name _ rhs _ _ => do
          let (states, releaseOps) ← borrowVisit exprTypes rhs states releaseOps
          let states := match rhs with
            | .ident _ src =>
                (match alookup states src, spanLookup exprTypes rhs.span with
                | some srcState, some srcTy =>
                    if ¬ srcTy.isCopy then
                      aset states src { srcState with moved := true }
                    else
                      states
                | _, _ => states)
            | _ => states
          let shadowed :=
            if ahas shadowed name then shadowed
            else shadowed ++ [(name, alookup states name)]
          let states := aset states name (freshBorrowState (spanLookup exprTypes rhs.span))
          let localsDefined :=
            if localsDefined.contains name then localsDefined else localsDefined ++ [name]
          borrowStmts exprTypes rest states releaseOps shadowed localsDefined
      | .exprS _ e => do
          let (states, releaseOps) ← borrowVisit exprTypes e states releaseOps
          borrowStmts exprTypes rest states releaseOps shadowed localsDefined
      | .retS _ (some e) => do
          let (states, releaseOps) ← borrowVisit exprTypes e states releaseOps
          borrowStmts exprTypes rest states releaseOps shadowed localsDefined
      | _ =>
          borrowStmts exprTypes rest states releaseOps shadowed localsDefined

/-- `borrow._visit_expr`. -/
def borrowVisit (exprTypes : List (Span × Ty)) :
    Expr → BorrowStates → List (String × String) →
    Except Failure (BorrowStates × List (String × String))
  | .ident sp name, states, releaseOps =>
      (match alookup states name with
      | some s =>
          if s.moved then
            .error (borrowErr sp ("use after move of '" ++ name ++ "'"))
          else if s.mutBorrow then
            .error (borrowErr sp
              ("cannot use '" ++ name ++ "' while mutably borrowed"))
          else
            .ok (states, releaseOps)
      | none => .ok (states, releaseOps))
  | .unary sp op arg, states, releaseOps =>
      if op = "&" ∨ op = "&mut" then
        match exprIdentName arg with
        | some name =>
            (match alookup states name with
            | none => .ok (states, releaseOps)
            | some s =>
                if s.moved then
                  .error (borrowErr sp ("cannot borrow moved value '" ++ name ++ "'"))
                else if op = "&" then
                  if s.mutBorrow then
                    .error (borrowErr sp
                      ("cannot immutably borrow '" ++ name ++ "' while mutably borrowed"))
                  else
                    .ok (aset states name { s with immBorrows := s.immBorrows + 1 },
                      releaseOps ++ [(name, "imm")])
                else
                  if s.mutBorrow || s.immBorrows > 0 then
                    .error (borrowErr sp
                      ("cannot mutably borrow '" ++ name ++ "' while already borrowed"))
                  else
                    .ok (aset states name { s with mutBorrow := true },
                      releaseOps ++ [(name, "mut")]))
        | none => do
            let (states, releaseOps) ← borrowVisit exprTypes arg states releaseOps
            .ok (states, releaseOps)
      else
        borrowVisit exprTypes arg states releaseOps
  | .ifE _ condition thenBlock elseBranch, states, releaseOps => do
      let (states, releaseOps) ← borrowVisit exprTypes condition states releaseOps
      let base := states
      let thenStates ← borrowCheckBlock exprTypes thenBlock base
      let elseStates ← do
        match elseBranch with
        | some e => do
            let (st, _) ← borrowVisit exprTypes e base []
            .ok st
        | none => .ok base
      .ok (mergeBranchStates base [thenStates, elseStates], releaseOps)
  | .matchE _ scrut arms, states, releaseOps => do
      let (states, releaseOps) ← borrowVisit exprTypes scrut states releaseOps
      let base := states
      let branchStates ← borrowArms exprTypes arms base scrut []
      if branchStates.isEmpty then
        .ok (states, releaseOps)
      else
        .ok (mergeBranchStates base branchStates, releaseOps)
  | .blockE b, states, releaseOps => do
      let states ← borrowCheckBlock exprTypes b states
      .ok (states, releaseOps)
  /- The remaining constructors traverse `_children` in order. -/
  | .binary _ l _ r, states, releaseOps => do
      let (states, releaseOps) ← borrowVisit exprTypes l states releaseOps
      borrowVisit exprTypes r states releaseOps
  | .assign _ target _ value, states, releaseOps => do
      let (states, releaseOps) ← borrowVisit exprTypes target states releaseOps
      borrowVisit exprTypes value states releaseOps
  | .call _ callee args, states, releaseOps => do
      let (states, releaseOps) ← borrowVisit exprTypes callee states releaseOps
      borrowVisitList exprTypes args states releaseOps
  | .rangeE _ lo hi _, states, releaseOps => do
      let (states, releaseOps) ← borrowVisit exprTypes lo states releaseOps
      borrowVisit exprTypes hi states releaseOps
  | .tryE _ arg, states, releaseOps =>
      borrowVisit exprTypes arg states releaseOps
  | .unsafeE _ b, states, releaseOps => do
      /- `_children` yields the inner `BlockExpr`, whose visit runs
      `_check_block`. -/
      let states ← borrowCheckBlock exprTypes b states
      .ok (states, releaseOps)
  | .spawnE _ arg, states, releaseOps =>
      borrowVisit exprTypes arg states releaseOps
  | .awaitE _ arg, states, releaseOps =>
      borrowVisit exprTypes arg states releaseOps
  | .structInit _ _ fields, states, releaseOps =>
      borrowVisitFields exprTypes fields states releaseOps
  | .literal _ _ _, states, releaseOps => .ok (states, releaseOps)
  /- `RaiseExpr` has no `_children` entry: its message is not visited. -/
  | .raiseE _ _ _, states, releaseOps => .ok (states, releaseOps)

/-- The child loop at the foot of `_visit_expr`. -/
def borrowVisitList (exprTypes : List (Span × Ty)) :
    List Expr → BorrowStates → List (String × String) →
    Except Failure (BorrowStates × List (String × String))
  | [], states, releaseOps => .ok (states, releaseOps)
  | e :: rest, states, releaseOps => do
      let (states, releaseOps) ← borrowVisit exprTypes e states releaseOps
      borrowVisitList exprTypes rest states releaseOps

/-- The child walk of a struct initializer (`_children` yields the field
value expressions in order). -/
def borrowVisitFields (exprTypes : List (Span × Ty)) :
    List FieldInit → BorrowStates → List (String × String) →
    Except Failure (BorrowStates × List (String × String))
  | [], states, releaseOps => .ok (states, releaseOps)
  | .mk _ _ v :: rest, states, releaseOps => do
      let (states, releaseOps) ← borrowVisit exprTypes v states releaseOps
      borrowVisitFields exprTypes rest states releaseOps

/-- The arm loop of the `MatchExpr` branch of `_visit_expr`. -/
def borrowArms (exprTypes : List (Span × Ty)) :
    List Arm → BorrowStates → Expr → List BorrowStates →
    Except Failure (List BorrowStates)
  | [], _, _, acc => .ok acc
  | .mk _ pat body :: rest, base, scrut, acc => do
      let armStates ← bindPatternNames pat base exprTypes scrut
      let (armStates, _) ← borrowVisit exprTypes body armStates []
      borrowArms exprTypes rest base scrut (acc ++ [armStates])

end

/-- The state-initialisation loops of `run_borrow_check` (locals first,
then parameters, which overwrite). -/
def initBorrowStates (fn : TypedFunction) : Except Failure BorrowStates := do
  let states := fn.localTypes.foldl
    (fun st kv => aset st kv.1 (freshBorrowState (some kv.2))) []
  let rec paramLoop (params : List Param) (i : Nat) (st : BorrowStates) :
      Except Failure BorrowStates :=
    match params with
    | [] => .ok st
    | p :: rest => do
        let ty ← pyListAt fn.fnType.params i
        paramLoop rest (i + 1) (aset st p.name (freshBorrowState (some ty)))
  paramLoop fn.decl.params 0 states

/-- `borrow.run_borrow_check`. -/
def runBorrowCheck (typed : TypedProgram) : Except Failure Unit :=
  go typed.functions
where
  go : List (String × TypedFunction) → Except Failure Unit
    | [] => .ok ()
    | (_, fn) :: rest => do
        let states ← initBorrowStates fn
        let _ ← borrowCheckBlock fn.exprTypes fn.decl.body states
        go rest

/-! ## SSA IR (`midori_ir.mir`) -/

inductive Instr where
  | constI (target : String) (value : String) (ty : Ty)
  | aliasI (target source : String)
  | binop (target : String) (op : String) (left right : String) (ty : Ty)
  | callI (target : Option String) (name : String) (args : List String) (retTy : Ty)
  | enumConstruct (target : String) (enumKey : String) (variantIndex : Nat)
      (fields : List String) (fieldTypes : List Ty)
  | enumTag (target source : String) (enumKey : String)
  | enumField (target source : String) (enumKey : String) (fieldIndex : Nat)
      (fieldTy : Ty)
  | phi (target : String) (incomings : List (String × String)) (ty : Ty)
  | branch (target : String)
  | condBranch (cond thenBB elseBB : String)
  | retI (value : Option String)
deriving DecidableEq, Repr

structure BasicBlock where
  name : String
  instructions : List Instr
  terminator : Option Instr
deriving DecidableEq, Repr

structure FunctionIR where
  name : String
  params : List (String × Ty)
  returnType : Ty
  blocks : List (String × BasicBlock)
  entry : String
deriving DecidableEq, Repr

/-- `mir.EnumVariantLayout`. -/
structure EnumVariantLayout where
  name : String
  index : Nat
  fieldTypes : List Ty
deriving DecidableEq, Repr

/-- `mir.EnumLayout`. -/
structure EnumLayout where
  key : String
  variants : List EnumVariantLayout
  payloadSlots : Nat
deriving DecidableEq, Repr

/-- `mir.ProgramIR`. -/
structure ProgramIR where
  functions : List (String × FunctionIR)
  enums : List (String × EnumLayout)
deriving DecidableEq, Repr

/-! ## Lowering (`midori_ir.lowering`) -/

def loweringErr (span : Span) (message : String) : Failure :=
  .diag (mkError "midori_ir.lowering" span message none)

/-- `lowering._enum_key_for_type`. -/
def enumKeyForType (ty : Ty) : Option String :=
  if (ty.name = "Option" ∨ ty.name = "Result") ∧ ¬ ty.args.isEmpty then
    some (tyStr ty)
  else if ["Int", "Float", "Bool", "Char", "String", "Void", "Range", "Ref",
      "Ptr", "Unknown"].contains ty.name then
    none
  else
    some ty.name

mutual

/-- `lowering._collect_type_enums`; the `out` set keeps insertion order. -/
def collectTypeEnums (enumNames : List String) : Ty → List String → List String
  | .mk n args, out =>
      let out :=
        match enumKeyForType (.mk n args) with
        | some key =>
            if enumNames.contains n ∨ n = "Option" ∨ n = "Result" then
              setAdd out key
            else out
        | none => out
      collectTypeEnumsList enumNames args out

def collectTypeEnumsList (enumNames : List String) :
    List Ty → List String → List String
  | [], out => out
  | t :: rest, out =>
      collectTypeEnumsList enumNames rest (collectTypeEnums enumNames t out)

end

/-- Python `str.strip()` (whitespace). -/
def strStrip (s : String) : String :=
  String.mk ((s.toList.dropWhile Char.isWhitespace).reverse.dropWhile
    Char.isWhitespace).reverse

/-- Python `s.split(",")`. -/
def splitCommas (s : String) : List String :=
  s.splitOn ","

/-- Insertion sort of variant infos by index
(`sorted(..., key=lambda x: x.index)`). -/
def sortByIndex (l : List EnumVariantInfo) : List EnumVariantInfo :=
  let rec insert (v : EnumVariantInfo) : List EnumVariantInfo → List EnumVariantInfo
    | [] => [v]
    | x :: xs => if v.index < x.index then v :: x :: xs else x :: insert v xs
  match l with
  | [] => []
  | x :: xs => insert x (sortByIndex xs)

/-- `lowering._layout_for_enum_key`. -/
def layoutForEnumKey (enumKey : String) (enums : List (String × EnumInfo)) :
    Except Failure EnumLayout :=
  match alookup enums enumKey with
  | some enumInfo =>
      let variants := (sortByIndex (enumInfo.variants.map (·.2))).map
        (fun v => EnumVariantLayout.mk v.name v.index v.fieldTypes)
      let payloadSlots := (variants.map (·.fieldTypes.length)).foldl max 0
      .ok ⟨enumKey, variants, payloadSlots⟩
  | none =>
      if strStarts enumKey "Option[" then
        let inner := (enumKey.drop 7).dropRight 1
        let ty :=
          if ¬ strHasSub inner "," ∧ ¬ strHasSub inner "[" then Ty.mk inner []
          else tyUnknown
        .ok ⟨enumKey, [⟨"Some", 0, [ty]⟩, ⟨"None", 1, []⟩], 1⟩
      else if strStarts enumKey "Result[" then
        let inside := (enumKey.drop 7).dropRight 1
        let parts := splitCommas inside
        let okTy := match parts.get? 0 with
          | some s => Ty.mk (strStrip s) []
          | none => tyUnknown
        let errTy := match parts.get? 1 with
          | some s => Ty.mk (strStrip s) []
          | none => tyUnknown
        .ok ⟨enumKey, [⟨"Ok", 0, [okTy]⟩, ⟨"Err", 1, [errTy]⟩], 1⟩
      else
        .error (.runtimeError ("missing enum layout for '" ++ enumKey ++ "'"))

/-- `lowering._Builder`'s state. -/
structure Builder where
  fnName : String
  fnReturnType : Ty
  exprTypes : List (Span × Ty)
  enumLayouts : List (String × EnumLayout)
  userVariantCtors : List (String × (String × EnumVariantLayout))
  blocks : List (String × BasicBlock)
  blockIndex : Nat
  tempIndex : Nat
  current : String
  env : List (String × String)

/-- `_Builder.new_block`. -/
def bNewBlock (b : Builder) (prefixStr : String) : String × Builder :=
  let name := prefixStr ++ "_" ++ toString b.blockIndex
  (name,
    { b with
      blocks := b.blocks ++ [(name, ⟨name, [], none⟩)],
      blockIndex := b.blockIndex + 1 })

/-- `_Builder.tmp`. -/
def bTmp (b : Builder) : String × Builder :=
  ("%t" ++ toString b.tempIndex, { b with tempIndex := b.tempIndex + 1 })

/-- `_Builder.emit` (appends to the current block). -/
def bEmit (b : Builder) (i : Instr) : Except Failure Builder :=
  match alookup b.blocks b.current with
  | some bb =>
      let bb' := { bb with instructions := bb.instructions ++ [i] }
      .ok { b with blocks := aset b.blocks b.current bb' }
  | none => .error .keyError

/-- `_Builder.terminate`. -/
def bTerminate (b : Builder) (i : Instr) : Except Failure Builder :=
  match alookup b.blocks b.current with
  | some bb =>
      let bb' := { bb with terminator := some i }
      .ok { b with blocks := aset b.blocks b.current bb' }
  | none => .error .keyError

/-- The current block's terminator (`self.current.terminator`). -/
def bTerminator (b : Builder) : Except Failure (Option Instr) :=
  match alookup b.blocks b.current with
  | some bb => .ok bb.terminator
  | none => .error .keyError

/-- `self.expr_types[id(expr)]` (unchecked dict access). -/
def bExprTy (b : Builder) (sp : Span) : Except Failure Ty :=
  match spanLookup b.exprTypes sp with
  | some t => .ok t
  | none => .error .keyError

/-- `self.env[name]` (unchecked dict access). -/
def bEnv (b : Builder) (name : String) : Except Failure String :=
  match alookup b.env name with
  | some v => .ok v
  | none => .error .keyError

/-- `_Builder._lookup_variant`. -/
def lookupVariant (b : Builder) (enumKey variantName : String) :
    Option EnumVariantLayout :=
  match alookup b.enumLayouts enumKey with
  | none => none
  | some layout => layout.variants.find? (fun v => v.name = variantName)

/-- `_Builder._emit_variant_cond`. -/
def emitVariantCond (b : Builder) (enumKey targetVal : String)
    (variantIndex : Nat) : Except Failure (String × Builder) := do
  let (tag, b) := bTmp b
  let b ← bEmit b (.enumTag tag targetVal enumKey)
  let (wanted, b) := bTmp b
  let b ← bEmit b (.constI wanted (toString variantIndex) tyInt)
  let (cond, b) := bTmp b
  let b ← bEmit b (.binop cond "==" tag wanted tyBool)
  .ok (cond, b)

/-- `_Builder._lower_pattern_condition`. -/
def lowerPatternCondition (b : Builder) (pattern : Pattern)
    (targetVal : String) (targetTy : Ty) :
    Except Failure (Option String × Builder) :=
  match pattern with
  | .wildcard _ => .ok (none, b)
  | .nameP _ name =>
      (match enumKeyForType targetTy with
      | some enumKey =>
          if ahas b.enumLayouts enumKey then
            match lookupVariant b enumKey name with
            | some variant =>
                if variant.fieldTypes.isEmpty then do
                  let (cond, b) ← emitVariantCond b enumKey targetVal variant.index
                  .ok (some cond, b)
                else
                  .ok (none, b)
            | none => .ok (none, b)
          else
            .ok (none, b)
      | none => .ok (none, b))
  | .literalP _ value => do
      let (litTemp, b) := bTmp b
      let b ← bEmit b (.constI litTemp value targetTy)
      let (cond, b) := bTmp b
      let b ← bEmit b (.binop cond "==" targetVal litTemp tyBool)
      .ok (some cond, b)
  | .variantP sp name _ =>
      (match enumKeyForType targetTy with
      | none =>
          .error (loweringErr sp "variant pattern expects enum target")
      | some enumKey =>
          match lookupVariant b enumKey name with
          | none =>
              .error (loweringErr sp
                ("unknown variant '" ++ name ++ "' for enum '" ++ enumKey ++ "'"))
          | some variant => do
              let (cond, b) ← emitVariantCond b enumKey targetVal variant.index
              .ok (some cond, b))

/-- The field-binding loop of `_Builder._bind_pattern`'s variant case. -/
def bindPatternFields (b : Builder) (enumKey targetVal : String) :
    List String → List Ty → Nat → Except Failure Builder
  | [], _, _ => .ok b
  | bindName :: rest, ft :: fts, i => do
      let (temp, b) := bTmp b
      let b ← bEmit b (.enumField temp targetVal enumKey i ft)
      let b := { b with env := aset b.env bindName temp }
      bindPatternFields b enumKey targetVal rest fts (i + 1)
  | _ :: _, [], _ => .error .indexError

/-- `_Builder._bind_pattern`. -/
def bindPattern (b : Builder) (pattern : Pattern) (targetVal : String)
    (targetTy : Ty) : Except Failure Builder :=
  match pattern with
  | .nameP _ name =>
      (match enumKeyForType targetTy with
      | some enumKey =>
          if ahas b.enumLayouts enumKey then
            match lookupVariant b enumKey name with
            | some variant =>
                if variant.fieldTypes.isEmpty then .ok b
                else .ok { b with env := aset b.env name targetVal }
            | none => .ok { b with env := aset b.env name targetVal }
          else
            .ok { b with env := aset b.env name targetVal }
      | none => .ok { b with env := aset b.env name targetVal })
  | .variantP _ name fields =>
      (match enumKeyForType targetTy with
      | none => .ok b
      | some enumKey =>
          match lookupVariant b enumKey name with
          | none => .ok b
          | some variant =>
              bindPatternFields b enumKey targetVal fields variant.fieldTypes 0)
  | _ => .ok b

/-- `_Builder._emit_default_value`.  The Python recursion has no decreasing
structural measure (a self-referential enum layout would overflow the
interpreter stack); the embedding carries fuel, with exhaustion modelling
that overflow. -/
def emitDefaultValue (b : Builder) : Nat → Ty → Except Failure (String × Builder)
  | 0, _ => .error .fuelOut
  | fuel + 1, ty =>
      if ty = tyVoid then .ok ("", b)
      else if ty = tyInt then do
        let (out, b) := bTmp b
        let b ← bEmit b (.constI out "0" tyInt)
        .ok (out, b)
      else if ty = tyFloat then do
        let (out, b) := bTmp b
        let b ← bEmit b (.constI out "0.0" tyFloat)
        .ok (out, b)
      else if ty = tyBool then do
        let (out, b) := bTmp b
        let b ← bEmit b (.constI out "false" tyBool)
        .ok (out, b)
      else if ty = tyString then do
        let (out, b) := bTmp b
        let b ← bEmit b (.constI out "\"\"" tyString)
        .ok (out, b)
      else
        match enumKeyForType ty with
        | some enumKey =>
            (match alookup b.enumLayouts enumKey with
            | some layout => do
                let first ← pyListAt layout.variants 0
                let (fieldVals, b) ← defaultFields b fuel first.fieldTypes []
                let (out, b) := bTmp b
                let b ← bEmit b
                  (.enumConstruct out enumKey first.index fieldVals first.fieldTypes)
                .ok (out, b)
            | none => do
                let (out, b) := bTmp b
                let b ← bEmit b (.constI out "0" tyInt)
                .ok (out, b))
        | none => do
            let (out, b) := bTmp b
            let b ← bEmit b (.constI out "0" tyInt)
            .ok (out, b)
where
  defaultFields (b : Builder) (fuel : Nat) :
      List Ty → List String → Except Failure (List String × Builder)
    | [], acc => .ok (acc, b)
    | ft :: fts, acc => do
        let (v, b) ← emitDefaultValue b fuel ft
        defaultFields b fuel fts (acc ++ [v])

mutual

/-- `_Builder.lower_expr`. -/
def lowerExpr (b : Builder) : Expr → Except Failure (String × Builder)
  | .literal sp value kind => do
      let _ := kind
      let ty ← bExprTy b sp
      let (out, b) := bTmp b
      let b ← bEmit b (.constI out value ty)
      .ok (out, b)
  | .ident _ name => do
      let v ← bEnv b name
      .ok (v, b)
  | .unary sp op arg => do
      let (val, b) ← lowerExpr b arg
      if op = "-" then do
        let ty ← bExprTy b sp
        let (zero, b) := bTmp b
        let b ← bEmit b (.constI zero "0" ty)
        let (out, b) := bTmp b
        let b ← bEmit b (.binop out "-" zero val ty)
        .ok (out, b)
      else if op = "!" then do
        let (one, b) := bTmp b
        let b ← bEmit b (.constI one "1" tyBool)
        let (out, b) := bTmp b
        let b ← bEmit b (.binop out "^" val one tyBool)
        .ok (out, b)
      else
        .ok (val, b)
  | .binary sp left op right => do
      let (l, b) ← lowerExpr b left
      let (r, b) ← lowerExpr b right
      let ty ← bExprTy b sp
      let (out, b) := bTmp b
      let b ← bEmit b (.binop out op l r ty)
      .ok (out, b)
  | .assign sp target _ value =>
      (match exprIdentName target with
      | none =>
          .error (loweringErr sp "assignment target must be an identifier")
      | some tname => do
          let (v, b) ← lowerExpr b value
          .ok (v, { b with env := aset b.env tname v }))
  | .call sp callee args =>
      (match exprIdentName callee with
      | none =>
          .error (loweringErr sp "only direct function calls are supported in v0.2.0")
      | some cname =>
          if cname = "Some" ∨ cname = "None" ∨ cname = "Ok" ∨ cname = "Err" then do
            let outTy ← bExprTy b sp
            match enumKeyForType outTy with
            | none =>
                .error (loweringErr sp
                  ("cannot construct enum value for type " ++ tyStr outTy))
            | some enumKey =>
                if ¬ ahas b.enumLayouts enumKey then
                  .error (loweringErr sp
                    ("internal error: missing enum layout '" ++ enumKey ++ "'"))
                else
                  match lookupVariant b enumKey cname with
                  | none =>
                      .error (loweringErr sp
                        ("internal error: unknown variant '" ++ cname ++
                          "' for enum '" ++ enumKey ++ "'"))
                  | some variant => do
                      let (argVals, b) ← lowerExprList b args []
                      let (out, b) := bTmp b
                      let b ← bEmit b (.enumConstruct out enumKey variant.index
                        argVals variant.fieldTypes)
                      .ok (out, b)
          else
            match alookup b.userVariantCtors cname with
            | some (enumKey, variant) => do
                let (argVals, b) ← lowerExprList b args []
                let (out, b) := bTmp b
                let b ← bEmit b (.enumConstruct out enumKey variant.index argVals
                  variant.fieldTypes)
                .ok (out, b)
            | none => do
                let (argVals, b) ← lowerExprList b args []
                let retTy ← bExprTy b sp
                if retTy = tyVoid then do
                  let b ← bEmit b (.callI none cname argVals retTy)
                  .ok ("", b)
                else do
                  let (target, b) := bTmp b
                  let b ← bEmit b (.callI (some target) cname argVals retTy)
                  .ok (target, b))
  | .blockE blk => lowerBlockB b blk
  | .ifE sp condition thenBlock elseBranch => do
      let (cond, b) ← lowerExpr b condition
      let (thenBB, b) := bNewBlock b "then"
      let (elseBB, b) := bNewBlock b "else"
      let (joinBB, b) := bNewBlock b "join"
      let b ← bTerminate b (.condBranch cond thenBB elseBB)
      let oldEnv := b.env
      let b := { b with current := thenBB, env := oldEnv }
      let (thenVal, b) ← lowerBlockB b thenBlock
      let thenEnd := b.current
      let term ← bTerminator b
      let b ← if term = none then bTerminate b (.branch joinBB) else .ok b
      let b := { b with current := elseBB, env := oldEnv }
      let (elseVal, b) ← do
        match elseBranch with
        | some e => lowerExpr b e
        | none => .ok ("", b)
      let elseEnd := b.current
      let term ← bTerminator b
      let b ← if term = none then bTerminate b (.branch joinBB) else .ok b
      let b := { b with current := joinBB, env := oldEnv }
      let ty ← bExprTy b sp
      if ty = tyVoid then
        .ok ("", b)
      else do
        let (out, b) := bTmp b
        let b ← bEmit b (.phi out [(thenEnd, thenVal), (elseEnd, elseVal)] ty)
        .ok (out, b)
  | .tryE sp arg => do
      let innerTy ← bExprTy b arg.span
      if innerTy.name ≠ "Result" ∨ innerTy.args.length ≠ 2 then
        .error (loweringErr sp "`?` lowering expects Result[T, E]")
      else if b.fnReturnType.name ≠ "Result" then
        .error (loweringErr sp
          "`?` can only be used in functions returning Result[T, E]")
      else
        match enumKeyForType innerTy with
        | none =>
            .error (loweringErr sp ("missing enum key for " ++ tyStr innerTy))
        | some enumKey => do
            let (resultVal, b) ← lowerExpr b arg
            let (tagVal, b) := bTmp b
            let b ← bEmit b (.enumTag tagVal resultVal enumKey)
            let (okTag, b) := bTmp b
            let b ← bEmit b (.constI okTag "0" tyInt)
            let (isOk, b) := bTmp b
            let b ← bEmit b (.binop isOk "==" tagVal okTag tyBool)
            let (okBB, b) := bNewBlock b "try_ok"
            let (errBB, b) := bNewBlock b "try_err"
            let b ← bTerminate b (.condBranch isOk okBB errBB)
            let b := { b with current := errBB }
            let b ← bTerminate b (.retI (some resultVal))
            let b := { b with current := okBB }
            let (out, b) := bTmp b
            let fieldTy ← pyListAt innerTy.args 0
            let b ← bEmit b (.enumField out resultVal enumKey 0 fieldTy)
            .ok (out, b)
  | .matchE sp scrut arms => do
      let (targetVal, b) ← lowerExpr b scrut
      let targetTy ← bExprTy b scrut.span
      let outTy ← bExprTy b sp
      let (endBB, b) := bNewBlock b "match_end"
      let baseEnv := b.env
      let testBB := b.current
      let (testBB, incoming, b) ←
        lowerArms b arms targetVal targetTy outTy endBB baseEnv testBB []
      let b := { b with current := testBB }
      let term ← bTerminator b
      let (incoming, b) ← do
        if term = none then do
          let (defaultVal, b) ← do
            if outTy ≠ tyVoid then emitDefaultValue b 10000 outTy
            else .ok ("", b)
          let b ← bTerminate b (.branch endBB)
          if outTy ≠ tyVoid then
            .ok (incoming ++ [(b.current, defaultVal)], b)
          else
            .ok (incoming, b)
        else
          .ok (incoming, b)
      let b := { b with current := endBB, env := baseEnv }
      if outTy = tyVoid then
        .ok ("", b)
      else do
        let (out, b) := bTmp b
        let b ← bEmit b (.phi out incoming outTy)
        .ok (out, b)
  | .unsafeE _ blk => lowerBlockB b blk
  | .rangeE sp _ _ _ =>
      .error (loweringErr sp "range lowering is not implemented yet")
  | .structInit sp _ _ =>
      .error (loweringErr sp "struct initialization lowering is not implemented yet")
  | .spawnE sp _ =>
      .error (loweringErr sp "concurrency lowering is not implemented yet")
  | .awaitE sp _ =>
      .error (loweringErr sp "concurrency lowering is not implemented yet")
  | .raiseE sp _ _ =>
      .error (loweringErr sp "unsupported expression in lowering: RaiseExpr")

/-- The argument loop of the call cases. -/
def lowerExprList (b : Builder) :
    List Expr → List String → Except Failure (List String × Builder)
  | [], acc => .ok (acc, b)
  | e :: rest, acc => do
      let (v, b) ← lowerExpr b e
      lowerExprList b rest (acc ++ [v])

/-- The arm loop of `_Builder._lower_match_expr`: returns the final test
block and the collected phi incomings.  A wildcard/binding arm clears the
remaining arms after lowering its own body. -/
def lowerArms (b : Builder) :
    List Arm → String → Ty → Ty → String → List (String × String) → String →
    List (String × String) →
    Except Failure (String × List (String × String) × Builder)
  | [], _, _, _, _, _, testBB, incoming => .ok (testBB, incoming, b)
  | .mk _ pat body :: rest, targetVal, targetTy, outTy, endBB, baseEnv,
      testBB, incoming => do
      let (armBB, b) := bNewBlock b "match_arm"
      let b := { b with current := testBB }
      let (cond, b) ← lowerPatternCondition b pat targetVal targetTy
      let (b, nextTest, stop) ← do
        match cond with
        | none => do
            let b ← bTerminate b (.branch armBB)
            let (deadBB, b) := bNewBlock b "match_dead"
            .ok (b, deadBB, true)
        | some c => do
            let (nextBB, b) := bNewBlock b "match_next"
            let b ← bTerminate b (.condBranch c armBB nextBB)
            .ok (b, nextBB, false)
      let b := { b with current := armBB, env := baseEnv }
      let b ← bindPattern b pat targetVal targetTy
      let (armVal, b) ← lowerExpr b body
      let armEnd := b.current
      let term ← bTerminator b
      let (incoming, b) ← do
        if term = none then do
          let b ← bTerminate b (.branch endBB)
          if outTy ≠ tyVoid then
            .ok (incoming ++ [(armEnd, armVal)], b)
          else
            .ok (incoming, b)
        else
          .ok (incoming, b)
      if stop then
        .ok (nextTest, incoming, b)
      else
        lowerArms b rest targetVal targetTy outTy endBB baseEnv nextTest incoming

/-- `_Builder.lower_stmt`. -/
def lowerStmtB (b : Builder) : Stmt → Except Failure Builder
  | .letS _ name _ rhs _ _ => do
      let (value, b) ← lowerExpr b rhs
      .ok { b with env := aset b.env name value }
  | .retS _ value => do
      let (v, b) ← do
        match value with
        | some e => do
            let (v, b) ← lowerExpr b e
            .ok (some v, b)
        | none => .ok (none, b)
      let b ← bTerminate b (.retI v)
      let (deadBB, b) := bNewBlock b "dead"
      .ok { b with current := deadBB }
  | .exprS _ e => do
      let (_, b) ← lowerExpr b e
      .ok b
  | .breakS sp _ =>
      .error (loweringErr sp "BreakStmt lowering is not implemented yet")
  | .contS sp =>
      .error (loweringErr sp "ContinueStmt lowering is not implemented yet")

/-- The statement loop of `_Builder.lower_block`. -/
def lowerStmtsB (b : Builder) : List Stmt → Except Failure Builder
  | [] => .ok b
  | s :: rest => do
      let b ← lowerStmtB b s
      lowerStmtsB b rest

/-- `_Builder.lower_block`. -/
def lowerBlockB (b : Builder) : Block → Except Failure (String × Builder)
  | .mk _ stmts tail => do
      let oldEnv := b.env
      let b ← lowerStmtsB b stmts
      match tail with
      | some t => do
          let (out, b) ← lowerExpr b t
          .ok (out, { b with env := oldEnv })
      | none =>
          .ok ("", { b with env := oldEnv })

end

/-- The enum-key collection pass at the head of `lower_typed_program`. -/
def collectProgramEnumKeys (typed : TypedProgram) : List String :=
  let enumNames := typed.enums.map (·.1)
  typed.functions.foldl
    (fun keys kv =>
      let fn := kv.2
      let keys := collectTypeEnums enumNames fn.fnType.ret keys
      let keys := fn.fnType.params.foldl
        (fun ks ty => collectTypeEnums enumNames ty ks) keys
      fn.exprTypes.foldl
        (fun ks sv => collectTypeEnums enumNames sv.2 ks) keys)
    []

/-- The layout table (`{key: _layout_for_enum_key(key, typed) for key in keys}`). -/
def buildEnumLayouts (keys : List String) (enums : List (String × EnumInfo)) :
    Except Failure (List (String × EnumLayout))
  := go keys []
where
  go : List String → List (String × EnumLayout) →
      Except Failure (List (String × EnumLayout))
    | [], acc => .ok acc
    | key :: rest, acc => do
        let layout ← layoutForEnumKey key enums
        go rest (acc ++ [(key, layout)])

/-- The ambiguity-filtered variant-constructor table of
`lower_typed_program` (register first occurrences, collect clashes, then
drop every clashing name). -/
def buildVariantCtors (enumLayouts : List (String × EnumLayout))
    (userEnumNames : List String) :
    List (String × (String × EnumVariantLayout)) :=
  let step := enumLayouts.foldl
    (fun acc kv =>
      if ¬ userEnumNames.contains kv.1 then acc
      else
        kv.2.variants.foldl
          (fun acc variant =>
            let (ctors, ambiguous) := acc
            if ahas ctors variant.name then
              (ctors, setAdd ambiguous variant.name)
            else
              (ctors ++ [(variant.name, (kv.1, variant))], ambiguous))
          acc)
    ([], [])
  step.2.foldl (fun ctors name => adrop ctors name) step.1

/-- The `%argN` parameter-environment loop of `lower_typed_program`. -/
def initLowerEnv (params : List Param) : List (String × String) :=
  params.enum.map (fun pi => (pi.2.name, "%arg" ++ toString pi.1))

/-- The parameter list of the emitted `FunctionIR`. -/
def lowerFnParams (decl : FunctionDecl) (fnType : FunctionType) :
    Except Failure (List (String × Ty)) :=
  go decl.params 0 []
where
  go : List Param → Nat → List (String × Ty) →
      Except Failure (List (String × Ty))
    | [], _, acc => .ok acc
    | p :: rest, i, acc => do
        let ty ← pyListAt fnType.params i
        go rest (i + 1) (acc ++ [(p.name, ty)])

/-- The per-function lowering loop of `lower_typed_program`. -/
def lowerFunctions (enumLayouts : List (String × EnumLayout))
    (ctors : List (String × (String × EnumVariantLayout))) :
    List (String × TypedFunction) → List (String × FunctionIR) →
    Except Failure (List (String × FunctionIR))
  | [], acc => .ok acc
  | (name, typedFn) :: rest, acc => do
      let b0 : Builder :=
        { fnName := name,
          fnReturnType := typedFn.fnType.ret,
          exprTypes := typedFn.exprTypes,
          enumLayouts := enumLayouts,
          userVariantCtors := ctors,
          blocks := [],
          blockIndex := 0,
          tempIndex := 0,
          current := "",
          env := [] }
      let (entry, b) := bNewBlock b0 "entry"
      let b := { b with current := entry, env := initLowerEnv typedFn.decl.params }
      let (tail, b) ← lowerBlockB b typedFn.decl.body
      let term ← bTerminator b
      let b ← do
        if term = none then
          if typedFn.fnType.ret = tyVoid then
            bTerminate b (.retI none)
          else
            bTerminate b (.retI (some tail))
        else
          .ok b
      let params ← lowerFnParams typedFn.decl typedFn.fnType
      let fnIR : FunctionIR :=
        ⟨name, params, typedFn.fnType.ret, b.blocks, entry⟩
      lowerFunctions enumLayouts ctors rest (acc ++ [(name, fnIR)])

/-- `lowering.lower_typed_program`. -/
def lowerTypedProgram (typed : TypedProgram) : Except Failure ProgramIR := do
  let enumKeys := collectProgramEnumKeys typed
  let enumLayouts ← buildEnumLayouts enumKeys typed.enums
  let ctors := buildVariantCtors enumLayouts (typed.enums.map (·.1))
  let functions ← lowerFunctions enumLayouts ctors typed.functions []
  .ok ⟨functions, enumLayouts⟩

/-! ## The full pipeline -/

/-- The semantic passes of `midori_cli.pipeline._analyze_file` on an
already-parsed program: resolve, check, borrow-check, lower. -/
def analyzeProgram (program : Program) : Except Failure ProgramIR := do
  let resolution ← resolveNames program
  let typed ← checkProgram program resolution
  let _ ← runBorrowCheck typed
  lowerTypedProgram typed

/-- The compiler core applied to one source buffer: lex, parse, resolve,
check, borrow-check, lower. -/
def pipeline (source : String) (file : String := "<input>") :
    Except Failure ProgramIR := do
  let program ← parseSource source file
  analyzeProgram program

/-! ## Association-list facts used by the claim proofs -/

theorem alookup_aset_self {α : Type} (l : List (String × α)) (k : String) (v : α) :
    alookup (aset l k v) k = some v := by
  induction l with
  | nil => simp [aset, alookup]
  | cons kv t ih =>
      by_cases h : kv.1 = k
      · simp [aset, h, alookup]
      · simp [aset, h, alookup, ih]

theorem alookup_aset_ne {α : Type} (l : List (String × α)) (k k' : String) (v : α)
    (h : k' ≠ k) : alookup (aset l k v) k' = alookup l k' := by
  induction l with
  | nil => simp [aset, alookup, Ne.symm h]
  | cons kv t ih =>
      by_cases hk : kv.1 = k
      · subst hk
        simp [aset, alookup, Ne.symm h]
      · by_cases hk' : kv.1 = k'
        · simp [aset, hk, alookup, hk', h]
        · simp [aset, hk, alookup, hk', h, ih]

instance {ε α : Type} [DecidableEq ε] [DecidableEq α] : DecidableEq (Except ε α) :=
  fun a b =>
    match a, b with
    | .ok x, .ok y =>
        if h : x = y then .isTrue (by rw [h])
        else .isFalse (by intro he; injection he; contradiction)
    | .error x, .error y =>
        if h : x = y then .isTrue (by rw [h])
        else .isFalse (by intro he; injection he; contradiction)
    | .ok _, .error _ => .isFalse (by intro he; injection he)
    | .error _, .ok _ => .isFalse (by intro he; injection he)

theorem except_bind_ok {ε α β : Type} (a : α) (f : α → Except ε β) :
    ((Except.ok a : Except ε α) >>= f) = f a := rfl

theorem except_bind_error {ε α β : Type} (e : ε) (f : α → Except ε β) :
    ((Except.error e : Except ε α) >>= f) = Except.error e := rfl

/-! ## Concrete programs used in the claim theorems

Hand-built abstract syntax trees, mirroring small Midori sources; spans
are arbitrary but pairwise distinct where the checker keys its
expression-type table by span. -/

/-- A span factory for hand-built trees. -/
def msp (n : Nat) : Span := ⟨"<input>", n, n + 1, 1, n + 1⟩

/-- A plain (non-ref, non-ptr) type reference. -/
def trefN (n : Nat) (name : String) (args : List TypeRef := []) : TypeRef :=
  .mk (msp n) name args false false false false

/-- `fn main() -> Int { 0 }`. -/
def mainOnlyProgram : Program :=
  ⟨msp 0,
    [.fnI ⟨msp 1, "main", [], [], some (trefN 2 "Int"),
      .mk (msp 3) [] (some (.literal (msp 4) "0" "int")), false, false⟩]⟩

def mainOnlyResolution : Resolution :=
  match resolveNames mainOnlyProgram with
  | .ok r => r
  | .error _ => ⟨[], [], [], []⟩

/-- `fn f(x: Option[Option[Int]]) -> Int { 0 }  fn main() -> Int { 0 }`:
an enum variant payload type that is itself an enum type. -/
def nestedEnumProgram : Program :=
  ⟨msp 0,
    [.fnI ⟨msp 1, "f", [],
      [⟨msp 2, "x", trefN 3 "Option" [trefN 4 "Option" [trefN 5 "Int"]]⟩],
      some (trefN 6 "Int"),
      .mk (msp 7) [] (some (.literal (msp 8) "0" "int")), false, false⟩,
     .fnI ⟨msp 9, "main", [], [], some (trefN 10 "Int"),
      .mk (msp 11) [] (some (.literal (msp 12) "0" "int")), false, false⟩]⟩

/-! ## C7 — lexer failure on a malformed char literal -/

/-- C7: the spec says every failure of the compiler core is a diagnostic
with a span and code, and a malformed char literal is MD1003/MD1004.  The
well-formed paths do carry MD1003/MD1004, but on a source ending in a
quote followed by a backslash `Lexer._char` runs `self._advance_n(2)`
past the end of the buffer and `self.source[self.pos]` raises a bare
`IndexError` — a failure that is not a diagnostic at all. -/
theorem lexer_char_eof_backslash_indexerror :
    tokenize "'\\" "<input>" = .error .indexError ∧
    (∀ d : MidoriError, Failure.indexError ≠ Failure.diag d) ∧
    tokenize "'" "<input>" =
      .error (.diag (mkError "midori_compiler.lexer" ⟨"<input>", 0, 1, 1, 1⟩
        "unterminated char literal"
        (some "char literals must end with a single quote"))) ∧
    (mkError "midori_compiler.lexer" ⟨"<input>", 0, 1, 1, 1⟩
        "unterminated char literal"
        (some "char literals must end with a single quote")).code = "MD1003" ∧
    tokenize "'a" "<input>" =
      .error (.diag (mkError "midori_compiler.lexer" ⟨"<input>", 0, 2, 1, 1⟩
        "invalid char literal"
        (some "char literal must contain exactly one character"))) ∧
    (mkError "midori_compiler.lexer" ⟨"<input>", 0, 2, 1, 1⟩
        "invalid char literal"
        (some "char literal must contain exactly one character")).code = "MD1004" :=
  ⟨by decide, fun d h => by injection h, by decide, by decide, by decide, by decide⟩

/-! ## C9 — determinism of the pipeline -/

/-- C9: the pipeline is a pure function of the source buffer and file
name — no state survives a run (fresh `Lexer`, `Parser`, checker scopes
and `_Builder` counters each time), so two runs on the same input return
identical `ProgramIR` values, SSA names, block names and enum layout
table included. In the embedding every pass is a function, and equality
of the two runs is definitional. -/
theorem pipeline_deterministic (source file : String) :
    pipeline source file = pipeline source file ∧
    analyzeProgram = analyzeProgram := ⟨rfl, rfl⟩

/-! ## C6 — nested enum payloads and lowering -/

/-- C6: the spec says a variant payload that is another enum is rejected
at lowering with MD5000/MD3110.  In the source `lower_typed_program`
rejects nothing: on a program using `Option[Option[Int]]` it returns a
`ProgramIR` whose enum table holds layouts for both `Option[Option[Int]]`
and `Option[Int]`, the nested payload type degraded to `Unknown` by the
string parse in `_layout_for_enum_key` (the only rejection is a bare
`RuntimeError` later, in LLVM codegen's `_encode_payload`). -/
theorem nested_enum_lowering_accepts :
    (analyzeProgram nestedEnumProgram).toOption.map
        (fun ir => (ahas ir.enums "Option[Option[Int]]", ahas ir.enums "Option[Int]"))
      = some (true, true) ∧
    ((analyzeProgram nestedEnumProgram).toOption.bind
        (fun ir => alookup ir.enums "Option[Option[Int]]"))
      = some ⟨"Option[Option[Int]]",
          [⟨"Some", 0, [Ty.mk "Unknown" []]⟩, ⟨"None", 1, []⟩], 1⟩ :=
  ⟨by decide, by decide⟩

/-! ## C10 — the checker's warnings channel is never used -/

theorem checkFunction_warnings
    (decl : FunctionDecl) (fnTypes : List (String × FunctionType))
    (enums : List (String × EnumInfo))
    (variantsByName : List (String × List (String × EnumVariantSymbol)))
    (customErrors warnings : List String)
    (tf : TypedFunction) (ws' : List String)
    (h : checkFunction decl fnTypes enums variantsByName customErrors warnings
        = .ok (tf, ws')) : ws' = warnings := by
  unfold checkFunction at h
  dsimp only [] at h
  cases h1 : pyDictAt fnTypes decl.name with
  | error e => simp only [h1, except_bind_error] at h; exact Except.noConfusion h
  | ok fnTy =>
    simp only [h1, except_bind_ok] at h
    cases h2 : initParamScope fnTy.params decl.params 0 ⟨[], [], [], false⟩ with
    | error e => simp only [h2, except_bind_error] at h; exact Except.noConfusion h
    | ok st =>
      simp only [h2, except_bind_ok] at h
      cases h3 : inferBlock ⟨fnTypes, enums, variantsByName, customErrors, decl.name⟩
          st decl.body with
      | error e => simp only [h3, except_bind_error] at h; exact Except.noConfusion h
      | ok p =>
        simp only [h3, except_bind_ok] at h
        obtain ⟨bodyTy, st2⟩ := p
        try dsimp only [] at h
        cases h4 : (ensureAssignable fnTy.ret bodyTy decl.body.span).mapError
            Failure.diag with
        | error e => simp only [h4, except_bind_error] at h; exact Except.noConfusion h
        | ok u =>
          simp only [h4, except_bind_ok] at h
          rw [Except.ok.injEq, Prod.mk.injEq] at h
          exact h.2.symm

theorem checkFunctions_warnings (fnTypes : List (String × FunctionType))
    (enums : List (String × EnumInfo))
    (variantsByName : List (String × List (String × EnumVariantSymbol)))
    (customErrors : List String) (decls : List (String × FunctionDecl)) :
    ∀ acc warnings fns ws',
      checkFunctions fnTypes enums variantsByName customErrors decls acc warnings
        = .ok (fns, ws') → ws' = warnings := by
  induction decls with
  | nil =>
      intro acc ws fns ws' h
      unfold checkFunctions at h
      rw [Except.ok.injEq, Prod.mk.injEq] at h
      exact h.2.symm
  | cons kv rest ih =>
      obtain ⟨name, decl⟩ := kv
      intro acc ws fns ws' h
      unfold checkFunctions at h
      dsimp only [] at h
      cases h1 : checkFunction decl fnTypes enums variantsByName customErrors ws with
      | error e => simp only [h1, except_bind_error] at h; exact Except.noConfusion h
      | ok p =>
        obtain ⟨tf, ws1⟩ := p
        simp only [h1, except_bind_ok] at h
        try dsimp only [] at h
        have h2 := ih (acc ++ [(name, tf)]) ws1 fns ws' h
        rw [h2]
        exact checkFunction_warnings decl fnTypes enums variantsByName customErrors
          ws tf ws1 h1

/-- C10: the checker's interface reserves a warnings list as its non-fatal
output channel, but no code path of `_check_function` or `check_program`
ever appends to it: every `TypedProgram` a successful `check_program`
returns has `warnings = []`. -/
theorem checker_warnings_empty (program : Program) (resolution : Resolution)
    (tp : TypedProgram) (h : checkProgram program resolution = .ok tp) :
    tp.warnings = [] := by
  unfold checkProgram at h
  dsimp only [] at h
  cases h1 : checkFunctions (resolution.functions.map fun kv => (kv.1, fnTypeOfDecl kv.2))
      (resolution.enums.map fun kv => (kv.1, enumInfoOfSymbol kv.2))
      resolution.variantsByName (resolution.errors.map (fun kv => kv.1))
      resolution.functions [] [] with
  | error e => simp only [h1, except_bind_error] at h; exact Except.noConfusion h
  | ok p =>
    obtain ⟨fns, ws'⟩ := p
    simp only [h1, except_bind_ok] at h
    try dsimp only [] at h
    rw [Except.ok.injEq] at h
    have hw := checkFunctions_warnings _ _ _ _ _ _ _ _ _ h1
    rw [← h]
    exact hw

/-- The `TypedProgram` that checking `fn main() -> Int \x7b 0 \x7d` returns. -/
def mainOnlyTyped : TypedProgram :=
  match checkProgram mainOnlyProgram mainOnlyResolution with
  | .ok tp => tp
  | .error _ => ⟨mainOnlyProgram, [], [], []⟩

theorem checker_warnings_empty_witness :
    resolveNames mainOnlyProgram = .ok mainOnlyResolution ∧
    checkProgram mainOnlyProgram mainOnlyResolution = .ok mainOnlyTyped ∧
    mainOnlyTyped.warnings = [] :=
  ⟨rfl, rfl, checker_warnings_empty mainOnlyProgram mainOnlyResolution mainOnlyTyped rfl⟩


/-! ## C2 — typing of the postfix `?` operator -/

/-- C2: `e?` type-checks exactly when the type of `e` is `Result[T, E]`
with two arguments and the enclosing function returns `Result[T', E']`
with `E'` assignable from `E`; on success the expression's recorded type
is `T`; a non-Result operand is MD3105 and a non-Result enclosing return
type is MD3106. -/
theorem postfix_try_typing
    (span : Span) (innerTy fnRet : Ty)
    (ctx : ChkCtx) (st st' : ChkState) (arg : Expr)
    (fnTy : FunctionType) (inner ty0 : Ty) :
    ((∃ ty, checkTryTy innerTy fnRet span = .ok ty) ↔
      (innerTy.name = "Result" ∧ innerTy.args.length = 2 ∧
       fnRet.name = "Result" ∧ fnRet.args.length = 2 ∧
       ensureAssignable (fnRet.args.getD 1 tyUnknown) (innerTy.args.getD 1 tyUnknown)
         span = .ok ())) ∧
    (∀ ty, checkTryTy innerTy fnRet span = .ok ty →
      ty = innerTy.args.getD 0 tyUnknown) ∧
    (innerTy.name ≠ "Result" ∨ innerTy.args.length ≠ 2 →
      checkTryTy innerTy fnRet span =
        .error (.diag (checkerErr span "`?` expects Result[T, E]")) ∧
      (checkerErr span "`?` expects Result[T, E]").code = "MD3105") ∧
    (innerTy.name = "Result" → innerTy.args.length = 2 →
      (fnRet.name ≠ "Result" ∨ fnRet.args.length ≠ 2) →
      checkTryTy innerTy fnRet span =
        .error (.diag (checkerErr span
          "`?` can only be used in functions returning Result[T, E]")) ∧
      (checkerErr span
          "`?` can only be used in functions returning Result[T, E]").code
        = "MD3106") ∧
    (inferExpr ctx st arg = .ok (inner, st') →
      pyDictAt ctx.fnTypes ctx.declName = .ok fnTy →
      checkTryTy inner fnTy.ret span = .ok ty0 →
      inferExpr ctx st (.tryE span arg) = .ok (noteTy st' (.tryE span arg) ty0)) := by
  refine ⟨?_, ?_, ?_, ?_, ?_⟩
  · constructor
    · rintro ⟨ty, hty⟩
      unfold checkTryTy at hty
      by_cases h1 : innerTy.name ≠ "Result" ∨ innerTy.args.length ≠ 2
      · rw [if_pos h1] at hty; exact Except.noConfusion hty
      · rw [if_neg h1] at hty
        push_neg at h1
        obtain ⟨hn, hl⟩ := h1
        by_cases h2 : fnRet.name ≠ "Result" ∨ fnRet.args.length ≠ 2
        · rw [if_pos h2] at hty; exact Except.noConfusion hty
        · rw [if_neg h2] at hty
          push_neg at h2
          obtain ⟨hn', hl'⟩ := h2
          obtain ⟨t, e, hargs⟩ := List.length_eq_two.mp hl
          obtain ⟨t', e', hargs'⟩ := List.length_eq_two.mp hl'
          rw [hargs, hargs'] at hty
          simp only [pyListAt, List.get?, except_bind_ok] at hty
          refine ⟨hn, hl, hn', hl', ?_⟩
          rw [hargs, hargs']
          cases he : ensureAssignable e' e span with
          | error d => simp [he, Except.mapError, except_bind_error] at hty
          | ok u => cases u; exact he
    · rintro ⟨hn, hl, hn', hl', hass⟩
      obtain ⟨t, e, hargs⟩ := List.length_eq_two.mp hl
      obtain ⟨t', e', hargs'⟩ := List.length_eq_two.mp hl'
      rw [hargs, hargs'] at hass
      refine ⟨t, ?_⟩
      unfold checkTryTy
      rw [if_neg (fun hc => hc.elim (fun a => a hn) (fun a => a hl)),
          if_neg (fun hc => hc.elim (fun a => a hn') (fun a => a hl')),
          hargs, hargs']
      simp only [pyListAt, List.get?, except_bind_ok]
      simp [Except.mapError, except_bind_ok,
        show ensureAssignable e' e span = Except.ok () from hass]
  · intro ty hty
    unfold checkTryTy at hty
    by_cases h1 : innerTy.name ≠ "Result" ∨ innerTy.args.length ≠ 2
    · rw [if_pos h1] at hty; exact Except.noConfusion hty
    · rw [if_neg h1] at hty
      push_neg at h1
      obtain ⟨hn, hl⟩ := h1
      by_cases h2 : fnRet.name ≠ "Result" ∨ fnRet.args.length ≠ 2
      · rw [if_pos h2] at hty; exact Except.noConfusion hty
      · rw [if_neg h2] at hty
        push_neg at h2
        obtain ⟨hn', hl'⟩ := h2
        obtain ⟨t, e, hargs⟩ := List.length_eq_two.mp hl
        obtain ⟨t', e', hargs'⟩ := List.length_eq_two.mp hl'
        rw [hargs, hargs'] at hty
        simp only [pyListAt, List.get?, except_bind_ok] at hty
        rw [hargs]
        cases he : ensureAssignable e' e span with
        | error d => simp [he, Except.mapError, except_bind_error] at hty
        | ok u =>
            cases u
            simp [he, Except.mapError, except_bind_ok] at hty
            simp [hty]
  · intro h1
    constructor
    · unfold checkTryTy
      rw [if_pos h1]
    · rfl
  · intro hn hl h2
    constructor
    · unfold checkTryTy
      rw [if_neg (fun hc => hc.elim (fun a => a hn) (fun a => a hl)), if_pos h2]
    · rfl
  · intro h1 h2 h3
    have heq : inferExpr ctx st (.tryE span arg) =
        (do
          let (inner, st) ← inferExpr ctx st arg
          let fnTy ← pyDictAt ctx.fnTypes ctx.declName
          let ty ← checkTryTy inner fnTy.ret span
          .ok (noteTy st (.tryE span arg) ty)) := rfl
    rw [heq, h1, except_bind_ok]
    dsimp only []
    rw [h2, except_bind_ok, h3, except_bind_ok]

/-- A checking context for `main() -> Result[Int, String]`. -/
def tryCtx : ChkCtx := ⟨[("main", ⟨[], resultType tyInt tyString, []⟩)], [], [], [], "main"⟩

/-- A scope holding `r : Result[Int, String]`. -/
def trySt : ChkState := ⟨[("r", ⟨resultType tyInt tyString, false⟩)], [], [], false⟩

theorem postfix_try_typing_witness :
    (∃ ty, checkTryTy (resultType tyInt tyString) (resultType tyInt tyString) (msp 0)
      = .ok ty) ∧
    checkTryTy tyInt (resultType tyInt tyString) (msp 0) =
      .error (.diag (checkerErr (msp 0) "`?` expects Result[T, E]")) ∧
    (checkerErr (msp 0) "`?` expects Result[T, E]").code = "MD3105" ∧
    checkTryTy (resultType tyInt tyString) tyInt (msp 0) =
      .error (.diag (checkerErr (msp 0)
        "`?` can only be used in functions returning Result[T, E]")) ∧
    (checkerErr (msp 0)
        "`?` can only be used in functions returning Result[T, E]").code = "MD3106" ∧
    inferExpr tryCtx trySt (.tryE (msp 0) (.ident (msp 1) "r")) =
      .ok (noteTy (noteTy trySt (.ident (msp 1) "r") (resultType tyInt tyString)).2
            (.tryE (msp 0) (.ident (msp 1) "r")) tyInt) := by
  have hA := postfix_try_typing (msp 0) (resultType tyInt tyString)
    (resultType tyInt tyString) tryCtx trySt trySt (.ident (msp 1) "r")
    ⟨[], resultType tyInt tyString, []⟩ tyInt tyInt
  have hB := postfix_try_typing (msp 0) tyInt (resultType tyInt tyString)
    tryCtx trySt trySt (.ident (msp 1) "r")
    ⟨[], resultType tyInt tyString, []⟩ tyInt tyInt
  have hC := postfix_try_typing (msp 0) (resultType tyInt tyString) tyInt
    tryCtx trySt trySt (.ident (msp 1) "r")
    ⟨[], resultType tyInt tyString, []⟩ tyInt tyInt
  have hD := postfix_try_typing (msp 0) (resultType tyInt tyString)
    (resultType tyInt tyString) tryCtx trySt
    (noteTy trySt (.ident (msp 1) "r") (resultType tyInt tyString)).2
    (.ident (msp 1) "r") ⟨[], resultType tyInt tyString, []⟩
    (resultType tyInt tyString) tyInt
  obtain ⟨hB1, hB2⟩ := hB.2.2.1 (Or.inl (by decide))
  obtain ⟨hC1, hC2⟩ := hC.2.2.2.1 rfl rfl (Or.inl (by decide))
  exact ⟨hA.1.mpr ⟨rfl, rfl, rfl, rfl, by decide⟩, hB1, hB2, hC1, hC2,
    hD.2.2.2.2 rfl rfl (by decide)⟩


/-! ## Borrow-checker step equations shared by the borrow claims -/

/-- Unfolding of `_visit_expr` on an identifier. -/
theorem borrowVisit_ident_eq (exprTypes : List (Span × Ty)) (sp : Span) (name : String)
    (states : BorrowStates) (rel : List (String × String)) :
    borrowVisit exprTypes (.ident sp name) states rel =
      (match alookup states name with
      | some s =>
          if s.moved then
            .error (borrowErr sp ("use after move of '" ++ name ++ "'"))
          else if s.mutBorrow then
            .error (borrowErr sp
              ("cannot use '" ++ name ++ "' while mutably borrowed"))
          else
            .ok (states, rel)
      | none => .ok (states, rel)) := rfl

/-- An error in the statement loop aborts `_check_block`. -/
theorem borrowCheckBlock_stmts_error (exprTypes : List (Span × Ty)) (bsp : Span)
    (stmts : List Stmt) (tail : Option Expr) (states : BorrowStates) (e : Failure)
    (h : borrowStmts exprTypes stmts states [] [] [] = .error e) :
    borrowCheckBlock exprTypes (.mk bsp stmts tail) states = .error e := by
  unfold borrowCheckBlock
  rw [h, except_bind_error]

/-! ## C3 — move by `let`, then read -/

/-- C3: after `let t = s` moves a non-copy `s` (any type other than Int,
Float, Bool, Char), a later read of `s` makes the borrow checker fail
with `use after move of 's'`, whose inferred code is MD4001, whatever
statements follow; when the type of `s` is a copy type the same
rebinding followed by the read succeeds. -/
theorem move_then_read
    (exprTypes : List (Span × Ty)) (states : BorrowStates)
    (s t : String) (st0 : BorrowState) (ty : Ty)
    (bsp spLet spRhs spStmt spUse : Span) (oty : Option TypeRef) (m inf : Bool)
    (rest : List Stmt) (tail : Option Expr)
    (hneq : t ≠ s)
    (hs : alookup states s = some st0)
    (hmoved : st0.moved = false)
    (hmut : st0.mutBorrow = false)
    (hty : spanLookup exprTypes spRhs = some ty) :
    (ty.isCopy = false →
      borrowCheckBlock exprTypes
        (.mk bsp (.letS spLet t oty (.ident spRhs s) m inf ::
                  .exprS spStmt (.ident spUse s) :: rest) tail) states
        = .error (borrowErr spUse ("use after move of '" ++ s ++ "'")) ∧
      borrowErr spUse ("use after move of '" ++ s ++ "'") =
        .diag (mkError "midori_ir.borrow" spUse
          ("use after move of '" ++ s ++ "'") none) ∧
      (mkError "midori_ir.borrow" spUse
        ("use after move of '" ++ s ++ "'") none).code = "MD4001") ∧
    (ty.isCopy = true →
      ∃ states', borrowCheckBlock exprTypes
        (.mk bsp [.letS spLet t oty (.ident spRhs s) m inf,
                  .exprS spStmt (.ident spUse s)] none) states = .ok states') := by
  have e1 : ∀ rel, borrowVisit exprTypes (.ident spRhs s) states rel
      = .ok (states, rel) := by
    intro rel
    rw [borrowVisit_ident_eq, hs]
    simp [hmoved, hmut]
  have eqExpr : ∀ rest2 states2 rel sh ld,
      borrowStmts exprTypes (.exprS spStmt (.ident spUse s) :: rest2)
        states2 rel sh ld =
      (do
        let (states2, rel) ← borrowVisit exprTypes (.ident spUse s) states2 rel
        borrowStmts exprTypes rest2 states2 rel sh ld) := fun _ _ _ _ _ => rfl
  constructor
  · intro hC
    refine ⟨?_, rfl, rfl⟩
    apply borrowCheckBlock_stmts_error
    have eqLet : borrowStmts exprTypes (.letS spLet t oty (.ident spRhs s) m inf ::
        .exprS spStmt (.ident spUse s) :: rest) states [] [] [] =
        (do
          let (states, rel) ← borrowVisit exprTypes (.ident spRhs s) states []
          let states := match (.ident spRhs s : Expr) with
            | .ident _ src =>
                (match alookup states src,
                    spanLookup exprTypes (Expr.ident spRhs s).span with
                | some srcState, some srcTy =>
                    if ¬ srcTy.isCopy then
                      aset states src { srcState with moved := true }
                    else
                      states
                | _, _ => states)
            | _ => states
          let sh := if ahas ([] : List (String × Option BorrowState)) t
            then ([] : List (String × Option BorrowState))
            else [] ++ [(t, alookup states t)]
          let states := aset states t
            (freshBorrowState (spanLookup exprTypes (Expr.ident spRhs s).span))
          let ld := if ([] : List String).contains t then ([] : List String)
            else [] ++ [t]
          borrowStmts exprTypes (.exprS spStmt (.ident spUse s) :: rest)
            states rel sh ld) := rfl
    rw [eqLet, e1, except_bind_ok]
    dsimp only []
    rw [hs]
    dsimp only [Expr.span]
    rw [hty]
    dsimp only []
    rw [if_pos (by simp [hC])]
    rw [eqExpr]
    have e2 : alookup (aset (aset states s { st0 with moved := true }) t
        (freshBorrowState (some ty))) s = some { st0 with moved := true } := by
      rw [alookup_aset_ne _ t s _ (Ne.symm hneq), alookup_aset_self]
    have e3 : borrowVisit exprTypes (.ident spUse s)
        (aset (aset states s { st0 with moved := true }) t
          (freshBorrowState (some ty))) [] =
        .error (borrowErr spUse ("use after move of '" ++ s ++ "'")) := by
      rw [borrowVisit_ident_eq, e2]
      simp
    rw [e3, except_bind_error]
  · intro hC
    have eqBlock : borrowCheckBlock exprTypes
        (.mk bsp [.letS spLet t oty (.ident spRhs s) m inf,
                  .exprS spStmt (.ident spUse s)] none) states =
        (do
          let (states, releaseOps, shadowed, localsDefined) ←
            borrowStmts exprTypes [.letS spLet t oty (.ident spRhs s) m inf,
                  .exprS spStmt (.ident spUse s)] states [] [] []
          let (states, releaseOps) ←
            (.ok (states, releaseOps) :
              Except Failure (BorrowStates × List (String × String)))
          let states := releaseOps.foldl
            (fun st op =>
              match alookup st op.1 with
              | none => st
              | some s =>
                  if op.2 = "imm" then
                    aset st op.1 { s with immBorrows := s.immBorrows - 1 }
                  else
                    aset st op.1 { s with mutBorrow := false })
            states
          let states := localsDefined.foldl
            (fun st lcl =>
              match alookup shadowed lcl with
              | some (some old) => aset st lcl old
              | _ => adrop st lcl)
            states
          .ok states) := rfl
    rw [eqBlock]
    have eqLet : borrowStmts exprTypes [.letS spLet t oty (.ident spRhs s) m inf,
        .exprS spStmt (.ident spUse s)] states [] [] [] =
        (do
          let (states, rel) ← borrowVisit exprTypes (.ident spRhs s) states []
          let states := match (.ident spRhs s : Expr) with
            | .ident _ src =>
                (match alookup states src,
                    spanLookup exprTypes (Expr.ident spRhs s).span with
                | some srcState, some srcTy =>
                    if ¬ srcTy.isCopy then
                      aset states src { srcState with moved := true }
                    else
                      states
                | _, _ => states)
            | _ => states
          let sh := if ahas ([] : List (String × Option BorrowState)) t
            then ([] : List (String × Option BorrowState))
            else [] ++ [(t, alookup states t)]
          let states := aset states t
            (freshBorrowState (spanLookup exprTypes (Expr.ident spRhs s).span))
          let ld := if ([] : List String).contains t then ([] : List String)
            else [] ++ [t]
          borrowStmts exprTypes [.exprS spStmt (.ident spUse s)]
            states rel sh ld) := rfl
    rw [eqLet, e1, except_bind_ok]
    dsimp only []
    rw [hs]
    dsimp only [Expr.span]
    rw [hty]
    dsimp only []
    rw [if_neg (by simp [hC])]
    have e2 : alookup (aset states t (freshBorrowState (some ty))) s = some st0 := by
      rw [alookup_aset_ne _ t s _ (Ne.symm hneq)]
      exact hs
    rw [show ([.exprS spStmt (.ident spUse s)] : List Stmt)
      = .exprS spStmt (.ident spUse s) :: ([] : List Stmt) from rfl]
    rw [eqExpr]
    have e3 : borrowVisit exprTypes (.ident spUse s)
        (aset states t (freshBorrowState (some ty))) [] =
        .ok (aset states t (freshBorrowState (some ty)), []) := by
      rw [borrowVisit_ident_eq, e2]
      simp [hmoved, hmut]
    rw [e3, except_bind_ok]
    dsimp only []
    have eqNil : ∀ states2 rel sh ld,
        borrowStmts exprTypes ([] : List Stmt) states2 rel sh ld =
          .ok (states2, rel, sh, ld) := fun _ _ _ _ => rfl
    rw [eqNil, except_bind_ok]
    dsimp only [List.foldl]
    cases halt : alookup states t with
    | none =>
        refine ⟨adrop (aset states t (freshBorrowState (some ty))) t, ?_⟩
        rw [except_bind_ok]
        dsimp only [List.foldl]
        simp [ahas, alookup]
    | some old =>
        refine ⟨aset (aset states t (freshBorrowState (some ty))) t old, ?_⟩
        rw [except_bind_ok]
        dsimp only [List.foldl]
        simp [ahas, alookup]

theorem move_then_read_witness :
    borrowCheckBlock [(msp 10, tyString)]
      (.mk (msp 0) [.letS (msp 1) "t" none (.ident (msp 10) "s") false true,
                    .exprS (msp 2) (.ident (msp 3) "s")] none)
      [("s", ⟨false, 0, false, some tyString⟩)]
      = .error (borrowErr (msp 3) "use after move of 's'") ∧
    (mkError "midori_ir.borrow" (msp 3) "use after move of 's'" none).code
      = "MD4001" ∧
    (∃ states', borrowCheckBlock [(msp 10, tyInt)]
      (.mk (msp 0) [.letS (msp 1) "t" none (.ident (msp 10) "s") false true,
                    .exprS (msp 2) (.ident (msp 3) "s")] none)
      [("s", ⟨false, 0, false, some tyInt⟩)] = .ok states') := by
  have hA := (move_then_read [(msp 10, tyString)]
    [("s", ⟨false, 0, false, some tyString⟩)]
    "s" "t" ⟨false, 0, false, some tyString⟩ tyString
    (msp 0) (msp 1) (msp 10) (msp 2) (msp 3)
    none false true [] none (by decide) rfl rfl rfl (by decide)).1 (by decide)
  have hB := (move_then_read [(msp 10, tyInt)]
    [("s", ⟨false, 0, false, some tyInt⟩)]
    "s" "t" ⟨false, 0, false, some tyInt⟩ tyInt
    (msp 0) (msp 1) (msp 10) (msp 2) (msp 3)
    none false true [] none (by decide) rfl rfl rfl (by decide)).2 (by decide)
  exact ⟨hA.1, hA.2.2, hB⟩


/-! ## C4 — call arguments do not move -/

/-- C4 (amended): `_visit_expr` on a call only walks the callee and the
argument expressions through `_children`; unlike the `LetStmt` branch of
`_check_block` it records no move, so after `f(s)` the states are
unchanged and a later read of `s` still succeeds, whatever the type of
`s`. -/
theorem call_argument_no_move
    (exprTypes : List (Span × Ty)) (states : BorrowStates)
    (spCall spF spArg bsp spStmt1 spStmt2 spUse : Span) (f s : String)
    (rel : List (String × String)) (stS : BorrowState)
    (hsF : alookup states f = none)
    (hs : alookup states s = some stS)
    (hmoved : stS.moved = false) (hmut : stS.mutBorrow = false) :
    borrowVisit exprTypes (.call spCall (.ident spF f) [.ident spArg s]) states rel
      = .ok (states, rel) ∧
    borrowCheckBlock exprTypes
      (.mk bsp [.exprS spStmt1 (.call spCall (.ident spF f) [.ident spArg s]),
                .exprS spStmt2 (.ident spUse s)] none) states = .ok states := by
  have eS : ∀ (sp : Span) rel, borrowVisit exprTypes (.ident sp s) states rel
      = .ok (states, rel) := by
    intro sp rel
    rw [borrowVisit_ident_eq, hs]
    simp [hmoved, hmut]
  have eF : ∀ rel, borrowVisit exprTypes (.ident spF f) states rel
      = .ok (states, rel) := by
    intro rel
    rw [borrowVisit_ident_eq, hsF]
  have eCall : ∀ rel, borrowVisit exprTypes
      (.call spCall (.ident spF f) [.ident spArg s]) states rel
      = .ok (states, rel) := by
    intro rel
    have eq : borrowVisit exprTypes
        (.call spCall (.ident spF f) [.ident spArg s]) states rel =
        (do
          let (states, rel) ← borrowVisit exprTypes (.ident spF f) states rel
          borrowVisitList exprTypes [.ident spArg s] states rel) := rfl
    rw [eq, eF, except_bind_ok]
    dsimp only []
    have eqL : ∀ states2 rel2, borrowVisitList exprTypes [.ident spArg s] states2 rel2 =
        (do
          let (states2, rel2) ← borrowVisit exprTypes (.ident spArg s) states2 rel2
          borrowVisitList exprTypes ([] : List Expr) states2 rel2) :=
      fun _ _ => rfl
    rw [eqL, eS, except_bind_ok]
    dsimp only []
    rfl
  refine ⟨eCall rel, ?_⟩
  have eqBlock : borrowCheckBlock exprTypes
      (.mk bsp [.exprS spStmt1 (.call spCall (.ident spF f) [.ident spArg s]),
                .exprS spStmt2 (.ident spUse s)] none) states =
      (do
        let (states, releaseOps, shadowed, localsDefined) ←
          borrowStmts exprTypes
            [.exprS spStmt1 (.call spCall (.ident spF f) [.ident spArg s]),
             .exprS spStmt2 (.ident spUse s)] states [] [] []
        let (states, releaseOps) ←
          (.ok (states, releaseOps) :
            Except Failure (BorrowStates × List (String × String)))
        let states := releaseOps.foldl
          (fun st op =>
            match alookup st op.1 with
            | none => st
            | some s =>
                if op.2 = "imm" then
                  aset st op.1 { s with immBorrows := s.immBorrows - 1 }
                else
                  aset st op.1 { s with mutBorrow := false })
          states
        let states := localsDefined.foldl
          (fun st lcl =>
            match alookup shadowed lcl with
            | some (some old) => aset st lcl old
            | _ => adrop st lcl)
          states
        .ok states) := rfl
  rw [eqBlock]
  have eqStmt1 : borrowStmts exprTypes
      [.exprS spStmt1 (.call spCall (.ident spF f) [.ident spArg s]),
       .exprS spStmt2 (.ident spUse s)] states [] [] [] =
      (do
        let (states, rel) ← borrowVisit exprTypes
          (.call spCall (.ident spF f) [.ident spArg s]) states []
        borrowStmts exprTypes [.exprS spStmt2 (.ident spUse s)] states rel [] []) := rfl
  rw [eqStmt1, eCall, except_bind_ok]
  dsimp only []
  have eqStmt2 : borrowStmts exprTypes [.exprS spStmt2 (.ident spUse s)]
      states [] [] [] =
      (do
        let (states, rel) ← borrowVisit exprTypes (.ident spUse s) states []
        borrowStmts exprTypes ([] : List Stmt) states rel [] []) := rfl
  rw [eqStmt2, eS, except_bind_ok]
  dsimp only []
  rfl

/-- C4 counterexample to the spec's claim: `s` has non-copy type String,
yet `f(s)` followed by a read of `s` borrow-checks, while the same read
after `let t = s` is a use-after-move error. -/
theorem call_argument_no_move_counterexample :
    borrowCheckBlock [(msp 10, tyString)]
      (.mk (msp 0)
        [.exprS (msp 1) (.call (msp 2) (.ident (msp 3) "f") [.ident (msp 10) "s"]),
         .exprS (msp 4) (.ident (msp 5) "s")] none)
      [("s", ⟨false, 0, false, some tyString⟩)]
      = .ok [("s", ⟨false, 0, false, some tyString⟩)] ∧
    borrowCheckBlock [(msp 10, tyString)]
      (.mk (msp 0)
        [.letS (msp 1) "t" none (.ident (msp 10) "s") false true,
         .exprS (msp 4) (.ident (msp 5) "s")] none)
      [("s", ⟨false, 0, false, some tyString⟩)]
      = .error (borrowErr (msp 5) "use after move of 's'") :=
  ⟨by decide, by decide⟩

theorem call_argument_no_move_witness :
    borrowVisit [(msp 10, tyString)]
      (.call (msp 2) (.ident (msp 3) "f") [.ident (msp 10) "s"])
      [("s", ⟨false, 0, false, some tyString⟩)] []
      = .ok ([("s", ⟨false, 0, false, some tyString⟩)], []) ∧
    borrowCheckBlock [(msp 10, tyString)]
      (.mk (msp 0)
        [.exprS (msp 1) (.call (msp 2) (.ident (msp 3) "f") [.ident (msp 10) "s"]),
         .exprS (msp 4) (.ident (msp 5) "s")] none)
      [("s", ⟨false, 0, false, some tyString⟩)]
      = .ok [("s", ⟨false, 0, false, some tyString⟩)] :=
  call_argument_no_move [(msp 10, tyString)]
    [("s", ⟨false, 0, false, some tyString⟩)]
    (msp 2) (msp 3) (msp 10) (msp 0) (msp 1) (msp 4) (msp 5) "f" "s" []
    ⟨false, 0, false, some tyString⟩ rfl rfl rfl rfl


/-! ## C5 — borrow rules for `&x` and `&mut x` -/

/-- Unfolding of `_visit_expr` on `&x`. -/
theorem borrowVisit_amp_eq (exprTypes : List (Span × Ty)) (sp spArg : Span)
    (x : String) (states : BorrowStates) (rel : List (String × String)) :
    borrowVisit exprTypes (.unary sp "&" (.ident spArg x)) states rel =
      (match alookup states x with
      | none => .ok (states, rel)
      | some s =>
          if s.moved then
            .error (borrowErr sp ("cannot borrow moved value '" ++ x ++ "'"))
          else if s.mutBorrow then
            .error (borrowErr sp
              ("cannot immutably borrow '" ++ x ++ "' while mutably borrowed"))
          else
            .ok (aset states x { s with immBorrows := s.immBorrows + 1 },
              rel ++ [(x, "imm")])) := rfl

/-- Unfolding of `_visit_expr` on `&mut x`. -/
theorem borrowVisit_ampmut_eq (exprTypes : List (Span × Ty)) (sp spArg : Span)
    (x : String) (states : BorrowStates) (rel : List (String × String)) :
    borrowVisit exprTypes (.unary sp "&mut" (.ident spArg x)) states rel =
      (match alookup states x with
      | none => .ok (states, rel)
      | some s =>
          if s.moved then
            .error (borrowErr sp ("cannot borrow moved value '" ++ x ++ "'"))
          else if s.mutBorrow || s.immBorrows > 0 then
            .error (borrowErr sp
              ("cannot mutably borrow '" ++ x ++ "' while already borrowed"))
          else
            .ok (aset states x { s with mutBorrow := true },
              rel ++ [(x, "mut")])) := rfl

/-- C5: with `x` bound and not moved, `&mut x` is rejected whenever `x`
has any outstanding borrow (`cannot mutably borrow ... while already
borrowed`, code MD4002); `&x` is rejected when `x` is mutably borrowed
(`cannot immutably borrow ... while mutably borrowed`, code MD4003);
and `&x` succeeds when `x` is not mutably borrowed, incrementing the
immutable-borrow count, so `&x` twice in one block borrow-checks. -/
theorem borrow_rules
    (exprTypes : List (Span × Ty)) (states : BorrowStates)
    (sp spArg bsp sp1 sp2 sp3 sp4 sp5 sp6 : Span) (x : String)
    (stX : BorrowState) (rel : List (String × String))
    (hs : alookup states x = some stX) (hnm : stX.moved = false) :
    (stX.mutBorrow = true ∨ 0 < stX.immBorrows →
      borrowVisit exprTypes (.unary sp "&mut" (.ident spArg x)) states rel =
        .error (borrowErr sp
          ("cannot mutably borrow '" ++ x ++ "' while already borrowed"))) ∧
    (mkError "midori_ir.borrow" sp
      "cannot mutably borrow 'x' while already borrowed" none).code = "MD4002" ∧
    (stX.mutBorrow = true →
      borrowVisit exprTypes (.unary sp "&" (.ident spArg x)) states rel =
        .error (borrowErr sp
          ("cannot immutably borrow '" ++ x ++ "' while mutably borrowed"))) ∧
    (mkError "midori_ir.borrow" sp
      "cannot immutably borrow 'x' while mutably borrowed" none).code = "MD4003" ∧
    (stX.mutBorrow = false →
      borrowVisit exprTypes (.unary sp "&" (.ident spArg x)) states rel =
        .ok (aset states x { stX with immBorrows := stX.immBorrows + 1 },
          rel ++ [(x, "imm")])) ∧
    (stX.mutBorrow = false →
      ∃ states', borrowCheckBlock exprTypes
        (.mk bsp [.exprS sp1 (.unary sp2 "&" (.ident sp3 x)),
                  .exprS sp4 (.unary sp5 "&" (.ident sp6 x))] none) states
          = .ok states') := by
  refine ⟨?_, rfl, ?_, rfl, ?_, ?_⟩
  · intro h
    rw [borrowVisit_ampmut_eq, hs]
    have : (stX.mutBorrow || decide (0 < stX.immBorrows)) = true := by
      rcases h with h | h
      · simp [h]
      · simp [h]
    simp [hnm, this]
  · intro h
    rw [borrowVisit_amp_eq, hs]
    simp [hnm, h]
  · intro h
    rw [borrowVisit_amp_eq, hs]
    simp [hnm, h]
  · intro h
    have e1 : ∀ (spa spb : Span) rel, borrowVisit exprTypes
        (.unary spa "&" (.ident spb x)) states rel =
        .ok (aset states x { stX with immBorrows := stX.immBorrows + 1 },
          rel ++ [(x, "imm")]) := by
      intro spa spb rel
      rw [borrowVisit_amp_eq, hs]
      simp [hnm, h]
    have e2 : ∀ (spa spb : Span) rel, borrowVisit exprTypes
        (.unary spa "&" (.ident spb x))
        (aset states x { stX with immBorrows := stX.immBorrows + 1 }) rel =
        .ok (aset (aset states x { stX with immBorrows := stX.immBorrows + 1 }) x
              { stX with immBorrows := stX.immBorrows + 1 + 1 },
          rel ++ [(x, "imm")]) := by
      intro spa spb rel
      rw [borrowVisit_amp_eq, alookup_aset_self]
      simp [hnm, h]
    have eqBlock : borrowCheckBlock exprTypes
        (.mk bsp [.exprS sp1 (.unary sp2 "&" (.ident sp3 x)),
                  .exprS sp4 (.unary sp5 "&" (.ident sp6 x))] none) states =
        (do
          let (states, releaseOps, shadowed, localsDefined) ←
            borrowStmts exprTypes
              [.exprS sp1 (.unary sp2 "&" (.ident sp3 x)),
               .exprS sp4 (.unary sp5 "&" (.ident sp6 x))] states [] [] []
          let (states, releaseOps) ←
            (.ok (states, releaseOps) :
              Except Failure (BorrowStates × List (String × String)))
          let states := releaseOps.foldl
            (fun st op =>
              match alookup st op.1 with
              | none => st
              | some s =>
                  if op.2 = "imm" then
                    aset st op.1 { s with immBorrows := s.immBorrows - 1 }
                  else
                    aset st op.1 { s with mutBorrow := false })
            states
          let states := localsDefined.foldl
            (fun st lcl =>
              match alookup shadowed lcl with
              | some (some old) => aset st lcl old
              | _ => adrop st lcl)
            states
          .ok states) := rfl
    rw [eqBlock]
    have eqStmt1 : borrowStmts exprTypes
        [.exprS sp1 (.unary sp2 "&" (.ident sp3 x)),
         .exprS sp4 (.unary sp5 "&" (.ident sp6 x))] states [] [] [] =
        (do
          let (states, rel) ← borrowVisit exprTypes
            (.unary sp2 "&" (.ident sp3 x)) states []
          borrowStmts exprTypes [.exprS sp4 (.unary sp5 "&" (.ident sp6 x))]
            states rel [] []) := rfl
    rw [eqStmt1, e1, except_bind_ok]
    dsimp only []
    have eqStmt2 : ∀ states2 rel2,
        borrowStmts exprTypes [.exprS sp4 (.unary sp5 "&" (.ident sp6 x))]
          states2 rel2 [] [] =
        (do
          let (states2, rel2) ← borrowVisit exprTypes
            (.unary sp5 "&" (.ident sp6 x)) states2 rel2
          borrowStmts exprTypes ([] : List Stmt) states2 rel2 [] []) :=
      fun _ _ => rfl
    rw [eqStmt2, e2, except_bind_ok]
    dsimp only []
    exact ⟨_, rfl⟩

theorem borrow_rules_witness :
    borrowVisit [] (.unary (msp 0) "&mut" (.ident (msp 1) "x"))
      [("x", ⟨false, 1, false, some tyString⟩)] [] =
      .error (borrowErr (msp 0)
        "cannot mutably borrow 'x' while already borrowed") ∧
    (mkError "midori_ir.borrow" (msp 0)
      "cannot mutably borrow 'x' while already borrowed" none).code = "MD4002" ∧
    borrowVisit [] (.unary (msp 0) "&" (.ident (msp 1) "x"))
      [("x", ⟨false, 0, true, some tyString⟩)] [] =
      .error (borrowErr (msp 0)
        "cannot immutably borrow 'x' while mutably borrowed") ∧
    (mkError "midori_ir.borrow" (msp 0)
      "cannot immutably borrow 'x' while mutably borrowed" none).code = "MD4003" ∧
    borrowVisit [] (.unary (msp 0) "&" (.ident (msp 1) "x"))
      [("x", ⟨false, 0, false, some tyString⟩)] [] =
      .ok ([("x", ⟨false, 1, false, some tyString⟩)], [("x", "imm")]) ∧
    (∃ states', borrowCheckBlock []
      (.mk (msp 2) [.exprS (msp 3) (.unary (msp 4) "&" (.ident (msp 5) "x")),
                    .exprS (msp 6) (.unary (msp 7) "&" (.ident (msp 8) "x"))] none)
      [("x", ⟨false, 0, false, some tyString⟩)] = .ok states') := by
  have h1 := borrow_rules [] [("x", ⟨false, 1, false, some tyString⟩)]
    (msp 0) (msp 1) (msp 2) (msp 3) (msp 4) (msp 5) (msp 6) (msp 7) (msp 8)
    "x" ⟨false, 1, false, some tyString⟩ [] rfl rfl
  have h2 := borrow_rules [] [("x", ⟨false, 0, true, some tyString⟩)]
    (msp 0) (msp 1) (msp 2) (msp 3) (msp 4) (msp 5) (msp 6) (msp 7) (msp 8)
    "x" ⟨false, 0, true, some tyString⟩ [] rfl rfl
  have h3 := borrow_rules [] [("x", ⟨false, 0, false, some tyString⟩)]
    (msp 0) (msp 1) (msp 2) (msp 3) (msp 4) (msp 5) (msp 6) (msp 7) (msp 8)
    "x" ⟨false, 0, false, some tyString⟩ [] rfl rfl
  exact ⟨h1.1 (Or.inr (by decide)), h1.2.1, h2.2.2.1 rfl, h2.2.2.2.1,
    h3.2.2.2.2.1 rfl, h3.2.2.2.2.2 rfl⟩


/-! ## C1 — match exhaustiveness -/

/-- `enum Unsupported { A, B }  fn main() -> Int { let u := A()
match u { A => 0 } }`: a non-exhaustive match over an enum whose
name contains the word `unsupported`. -/
def unsupportedEnumProgram : Program :=
  ⟨msp 0,
    [.enumI ⟨msp 1, "Unsupported", [⟨msp 2, "A", []⟩, ⟨msp 3, "B", []⟩]⟩,
     .fnI ⟨msp 4, "main", [], [], some (trefN 5 "Int"),
      .mk (msp 6)
        [.letS (msp 7) "u" none (.call (msp 8) (.ident (msp 9) "A") []) false true]
        (some (.matchE (msp 10) (.ident (msp 11) "u")
          [.mk (msp 12) (.nameP (msp 13) "A") (.literal (msp 14) "0" "int")])),
      false, false⟩]⟩

def unsupportedEnumResolution : Resolution :=
  match resolveNames unsupportedEnumProgram with
  | .ok r => r
  | .error _ => ⟨[], [], [], []⟩

/-- C1 counterexample to the claimed rule: (i) the non-exhaustive-match
diagnostic over `enum Unsupported` carries code MD3110, not the claimed
MD3100, because the code is sniffed from the message text, and the type
name is interpolated into it; (ii) a declared enum named `Bool` whose
every variant appears is still not exhaustive (the Bool-literal rule is
checked first); (iii) a declared enum with no variants is never
exhaustive without a catch-all, though "every declared variant name
appears" holds vacuously. -/
theorem match_exhaustiveness_counterexample :
    checkProgram unsupportedEnumProgram unsupportedEnumResolution =
      .error (.diag (checkerErr (msp 10)
        "non-exhaustive match over type Unsupported"
        (some "add missing patterns or a trailing `_ => ...` arm"))) ∧
    (checkerErr (msp 10) "non-exhaustive match over type Unsupported"
      (some "add missing patterns or a trailing `_ => ...` arm")).code
        = "MD3110" ∧
    "MD3110" ≠ "MD3100" ∧
    isExhaustiveMatch tyBool false ["A"] []
      [("Bool", ⟨"Bool", [("A", ⟨"A", 0, []⟩)]⟩)] = false ∧
    isExhaustiveMatch (.mk "E" []) false [] [] [("E", ⟨"E", []⟩)] = false :=
  ⟨rfl, by decide, by decide, by decide, by decide⟩

/-- C1 (amended): `_is_exhaustive_match` accepts exactly when (a) a
catch-all arm was seen, or (b) the target type equals `Bool` (even when
`Bool` is a declared enum) and the seen bool literals are exactly
{true, false}, or (c) the target type is not `Bool`, resolves to a
non-empty variant table (a declared enum, or Option/Result), and every
variant name was seen; the `MatchExpr` gate accepts iff this predicate
holds and otherwise raises `non-exhaustive match over type T`, whose
code is MD3100 only when the rendered type name leaks no earlier
sniffing pattern (for `Bool` it is MD3100); the last conjunct wires the
gate's verdict through the checker's `MatchExpr` branch. -/
theorem match_exhaustiveness
    (targetTy : Ty) (sawCatchAll : Bool) (seenVariants seenBools : List String)
    (enums : List (String × EnumInfo)) (span : Span) (acc : MatchAcc)
    (ctx : ChkCtx) (st st1 st2 : ChkState) (sp : Span) (scrut : Expr)
    (a : Arm) (arms' : List Arm) (armTy : Ty) (restTypes : List Ty)
    (e : Failure) :
    (isExhaustiveMatch targetTy sawCatchAll seenVariants seenBools enums = true ↔
      (sawCatchAll = true ∨
       (targetTy = tyBool ∧ seenBoolsComplete seenBools = true) ∨
       (targetTy ≠ tyBool ∧
        ∃ variants, enumVariantsForType targetTy enums = some variants ∧
          variants ≠ [] ∧
          ∀ kv ∈ variants, seenVariants.contains kv.1 = true))) ∧
    (matchExhaustGate span targetTy acc enums = .ok () ↔
      isExhaustiveMatch targetTy acc.sawCatchAll acc.seenVariants acc.seenBools
        enums = true) ∧
    (isExhaustiveMatch targetTy acc.sawCatchAll acc.seenVariants acc.seenBools
        enums = false →
      matchExhaustGate span targetTy acc enums =
        .error (.diag (checkerErr span
          ("non-exhaustive match over type " ++ tyStr targetTy)
          (some "add missing patterns or a trailing `_ => ...` arm")))) ∧
    (checkerErr span ("non-exhaustive match over type " ++ tyStr tyBool)
      (some "add missing patterns or a trailing `_ => ...` arm")).code
        = "MD3100" ∧
    (inferExpr ctx st scrut = .ok (targetTy, st1) →
      checkArms ctx st1 (a :: arms') targetTy ⟨[], [], false⟩ []
        = .ok (acc, armTy :: restTypes, st2) →
      ensureArmTypes armTy restTypes sp = .ok () →
      (matchExhaustGate sp targetTy acc ctx.enums = .error e →
        inferExpr ctx st (.matchE sp scrut (a :: arms')) = .error e) ∧
      (matchExhaustGate sp targetTy acc ctx.enums = .ok () →
        inferExpr ctx st (.matchE sp scrut (a :: arms')) =
          .ok (noteTy st2 (.matchE sp scrut (a :: arms')) armTy))) := by
  refine ⟨?_, ?_, ?_, rfl, ?_⟩
  · unfold isExhaustiveMatch
    by_cases hca : sawCatchAll = true
    · simp [hca]
    · have hca' : sawCatchAll = false := by
        cases sawCatchAll
        · rfl
        · exact absurd rfl hca
      rw [hca']
      simp only [if_false, Bool.false_eq_true, false_or]
      by_cases hb : targetTy = tyBool
      · simp [hb]
      · rw [if_neg hb]
        cases hv : enumVariantsForType targetTy enums with
        | none =>
            simp [hb, hv]
        | some variants =>
            dsimp only []
            by_cases hne : variants.isEmpty
            · rw [if_pos hne]
              have : variants = [] := List.isEmpty_iff.mp hne
              subst this
              simp [hb, hv]
            · rw [if_neg hne]
              have hne' : variants ≠ [] := by
                intro hh
                subst hh
                exact hne rfl
              constructor
              · intro hall
                refine Or.inr ⟨hb, variants, rfl, ?_, ?_⟩
                · exact hne'
                · intro kv hkv
                  exact List.all_eq_true.mp hall kv hkv
              · rintro (⟨hbb, _⟩ | ⟨_, vs, hvs, _, hall⟩)
                · exact absurd hbb hb
                · injection hvs with hvs
                  subst hvs
                  exact List.all_eq_true.mpr fun kv hkv => hall kv hkv
  · unfold matchExhaustGate
    by_cases hg : isExhaustiveMatch targetTy acc.sawCatchAll acc.seenVariants
        acc.seenBools enums = true
    · simp [hg]
    · rw [if_neg hg]
      simp [hg]
  · intro hg
    unfold matchExhaustGate
    rw [hg]
    rfl
  · intro h1 h2 h3
    have heq : inferExpr ctx st (.matchE sp scrut (a :: arms')) =
        (do
          let (targetTy, st) ← inferExpr ctx st scrut
          let (acc, armTypes, st) ←
            checkArms ctx st (a :: arms') targetTy ⟨[], [], false⟩ []
          match armTypes with
          | [] => .error .indexError
          | armTy :: rest => do
              let _ ← ensureArmTypes armTy rest sp
              let _ ← matchExhaustGate sp targetTy acc ctx.enums
              .ok (noteTy st (.matchE sp scrut (a :: arms')) armTy)) := rfl
    constructor
    · intro hgate
      rw [heq, h1, except_bind_ok]
      dsimp only []
      rw [h2, except_bind_ok]
      dsimp only []
      rw [h3, except_bind_ok, hgate, except_bind_error]
    · intro hgate
      rw [heq, h1, except_bind_ok]
      dsimp only []
      rw [h2, except_bind_ok]
      dsimp only []
      rw [h3, except_bind_ok, hgate, except_bind_ok]

/-- A checking context for `main() -> Int` with no declared enums. -/
def matchCtx : ChkCtx := ⟨[("main", ⟨[], tyInt, []⟩)], [], [], [], "main"⟩

/-- A scope holding `o : Option[Int]`. -/
def matchSt : ChkState := ⟨[("o", ⟨optionType tyInt, false⟩)], [], [], false⟩

def wArm1 : Arm := .mk (msp 21) (.variantP (msp 22) "Some" ["v"]) (.literal (msp 23) "1" "int")

def wArm2 : Arm := .mk (msp 24) (.variantP (msp 25) "None" []) (.literal (msp 26) "2" "int")

def wSt1m : ChkState := (noteTy matchSt (.ident (msp 20) "o") (optionType tyInt)).2

def wSt2m : ChkState :=
  match checkArms matchCtx wSt1m [wArm1, wArm2] (optionType tyInt) ⟨[], [], false⟩ [] with
  | .ok (_, _, st) => st
  | .error _ => wSt1m

def wSt2f : ChkState :=
  match checkArms matchCtx wSt1m [wArm1] (optionType tyInt) ⟨[], [], false⟩ [] with
  | .ok (_, _, st) => st
  | .error _ => wSt1m

theorem match_exhaustiveness_witness :
    inferExpr matchCtx matchSt (.matchE (msp 27) (.ident (msp 20) "o") [wArm1, wArm2]) =
      .ok (noteTy wSt2m (.matchE (msp 27) (.ident (msp 20) "o") [wArm1, wArm2]) tyInt) ∧
    inferExpr matchCtx matchSt (.matchE (msp 27) (.ident (msp 20) "o") [wArm1]) =
      .error (.diag (checkerErr (msp 27)
        "non-exhaustive match over type Option[Int]"
        (some "add missing patterns or a trailing `_ => ...` arm"))) ∧
    (checkerErr (msp 27) "non-exhaustive match over type Option[Int]"
      (some "add missing patterns or a trailing `_ => ...` arm")).code = "MD3100" := by
  have hOk := (match_exhaustiveness (optionType tyInt) false [] [] [] (msp 0)
    ⟨["Some", "None"], [], false⟩ matchCtx matchSt wSt1m wSt2m (msp 27)
    (.ident (msp 20) "o") wArm1 [wArm2] tyInt [tyInt] .fuelOut).2.2.2.2
    rfl rfl rfl
  have hErr := (match_exhaustiveness (optionType tyInt) false [] [] [] (msp 0)
    ⟨["Some"], [], false⟩ matchCtx matchSt wSt1m wSt2f (msp 27)
    (.ident (msp 20) "o") wArm1 [] tyInt []
    (.diag (checkerErr (msp 27)
      "non-exhaustive match over type Option[Int]"
      (some "add missing patterns or a trailing `_ => ...` arm")))).2.2.2.2
    rfl rfl rfl
  exact ⟨hOk.2 rfl, hErr.1 rfl, by decide⟩


/-! ## C8 — the enum layout table -/

/-- `sub` occurs inside `ty` (as `ty` itself or nested in its arguments),
the positions `_collect_type_enums` visits. -/
inductive TyOccurs : Ty → Ty → Prop
  | refl (t : Ty) : TyOccurs t t
  | arg {sub t : Ty} (n : String) (args : List Ty) :
      t ∈ args → TyOccurs sub t → TyOccurs sub (.mk n args)

theorem setAdd_contains_self (l : List String) (s : String) :
    (setAdd l s).contains s = true := by
  unfold setAdd
  by_cases h : l.contains s
  · rw [if_pos h]; exact h
  · rw [if_neg h]
    simp

theorem setAdd_contains_mono (l : List String) (s k : String)
    (h : l.contains k = true) : (setAdd l s).contains k = true := by
  unfold setAdd
  by_cases hc : l.contains s
  · rw [if_pos hc]; exact h
  · rw [if_neg hc]
    have hm : k ∈ l := by simpa using h
    simpa using Or.inl hm

mutual

theorem collectTypeEnums_mono (enumNames : List String) :
    ∀ (ty : Ty) (out : List String) (k : String), out.contains k = true →
      (collectTypeEnums enumNames ty out).contains k = true
  | .mk n args, out, k, h => by
      unfold collectTypeEnums
      apply collectTypeEnumsList_mono
      dsimp only []
      cases hek : enumKeyForType (.mk n args) with
      | none => exact h
      | some key =>
          dsimp only []
          by_cases hc : enumNames.contains n = true ∨ n = "Option" ∨ n = "Result"
          · rw [if_pos hc]
            exact setAdd_contains_mono _ _ _ h
          · rw [if_neg hc]
            exact h

theorem collectTypeEnumsList_mono (enumNames : List String) :
    ∀ (tys : List Ty) (out : List String) (k : String), out.contains k = true →
      (collectTypeEnumsList enumNames tys out).contains k = true
  | [], _, _, h => h
  | t :: rest, out, k, h => by
      unfold collectTypeEnumsList
      exact collectTypeEnumsList_mono enumNames rest _ k
        (collectTypeEnums_mono enumNames t out k h)

end

theorem collectTypeEnums_self (enumNames : List String) (n : String) (args : List Ty)
    (out : List String) (key : String)
    (hek : enumKeyForType (.mk n args) = some key)
    (hc : enumNames.contains n = true ∨ n = "Option" ∨ n = "Result") :
    (collectTypeEnums enumNames (.mk n args) out).contains key = true := by
  unfold collectTypeEnums
  apply collectTypeEnumsList_mono
  rw [hek]
  dsimp only []
  rw [if_pos hc]
  exact setAdd_contains_self _ _

theorem collectTypeEnumsList_occurs (enumNames : List String) (t : Ty) (key : String)
    (ih : ∀ out, (collectTypeEnums enumNames t out).contains key = true) :
    ∀ (args : List Ty), t ∈ args → ∀ out,
      (collectTypeEnumsList enumNames args out).contains key = true := by
  intro args
  induction args with
  | nil => intro hmem; cases hmem
  | cons a rest iha =>
      intro hmem out
      unfold collectTypeEnumsList
      rcases List.mem_cons.mp hmem with heq | htail
      · subst heq
        exact collectTypeEnumsList_mono enumNames rest _ key (ih out)
      · exact iha htail _

theorem collectTypeEnums_occurs (enumNames : List String) (sub ty : Ty) (key : String)
    (hocc : TyOccurs sub ty)
    (hek : enumKeyForType sub = some key)
    (hc : enumNames.contains sub.name = true ∨ sub.name = "Option" ∨
      sub.name = "Result") :
    ∀ out, (collectTypeEnums enumNames ty out).contains key = true := by
  induction hocc with
  | refl =>
      intro out
      obtain ⟨n, args⟩ := sub
      exact collectTypeEnums_self enumNames n args out key hek hc
  | @arg t n args hmem hsub ih =>
      intro out
      unfold collectTypeEnums
      apply collectTypeEnumsList_occurs enumNames _ key ih args hmem

theorem foldl_contains_mono {α : Type} (f : List String → α → List String)
    (hmono : ∀ s a k, s.contains k = true → (f s a).contains k = true) :
    ∀ (l : List α) (s : List String) (k : String), s.contains k = true →
      (l.foldl f s).contains k = true := by
  intro l
  induction l with
  | nil => intro s k h; exact h
  | cons a rest ih =>
      intro s k h
      exact ih (f s a) k (hmono s a k h)

theorem foldl_contains_of_mem {α : Type} (f : List String → α → List String)
    (hmono : ∀ s a k, s.contains k = true → (f s a).contains k = true)
    (a : α) (k : String) (hintro : ∀ s, (f s a).contains k = true) :
    ∀ (l : List α) (s : List String), a ∈ l → (l.foldl f s).contains k = true := by
  intro l
  induction l with
  | nil => intro s hmem; cases hmem
  | cons b rest ih =>
      intro s hmem
      rcases List.mem_cons.mp hmem with heq | htail
      · subst heq
        exact foldl_contains_mono f hmono rest (f s a) k (hintro s)
      · exact ih (f s b) htail

theorem alookup_append {α : Type} (l1 l2 : List (String × α)) (k : String) :
    alookup (l1 ++ l2) k =
      (match alookup l1 k with
      | some v => some v
      | none => alookup l2 k) := by
  induction l1 with
  | nil => simp [alookup]
  | cons kv t ih =>
      by_cases h : kv.1 = k
      · simp [alookup, h]
      · simp [alookup, h, ih]

theorem ahas_append_mono {α : Type} (l1 l2 : List (String × α)) (k : String)
    (h : ahas l1 k = true) : ahas (l1 ++ l2) k = true := by
  unfold ahas at h ⊢
  rw [alookup_append]
  cases hv : alookup l1 k with
  | none => rw [hv] at h; simp at h
  | some v => rfl

theorem ahas_append_self {α : Type} (l : List (String × α)) (k : String) (v : α) :
    ahas (l ++ [(k, v)]) k = true := by
  unfold ahas
  rw [alookup_append]
  cases hv : alookup l k with
  | none => simp [alookup]
  | some w => rfl

theorem buildGo_mem (enums : List (String × EnumInfo)) :
    ∀ (keys : List String) (acc out : List (String × EnumLayout)),
      buildEnumLayouts.go enums keys acc = .ok out →
      ∀ k, (keys.contains k = true ∨ ahas acc k = true) → ahas out k = true := by
  intro keys
  induction keys with
  | nil =>
      intro acc out h k hk
      unfold buildEnumLayouts.go at h
      rw [Except.ok.injEq] at h
      subst h
      rcases hk with hk | hk
      · simp at hk
      · exact hk
  | cons key' rest ih =>
      intro acc out h k hk
      unfold buildEnumLayouts.go at h
      cases hl : layoutForEnumKey key' enums with
      | error e => rw [hl, except_bind_error] at h; exact Except.noConfusion h
      | ok layout =>
          rw [hl, except_bind_ok] at h
          rcases hk with hk | hk
          · by_cases hkk : k = key'
            · subst hkk
              exact ih _ _ h k (Or.inr (ahas_append_self _ _ _))
            · have : rest.contains k = true := by
                have hm : k ∈ key' :: rest := by simpa using hk
                rcases List.mem_cons.mp hm with he | ht
                · exact absurd he hkk
                · simpa using ht
              exact ih _ _ h k (Or.inl this)
          · exact ih _ _ h k (Or.inr (ahas_append_mono _ _ _ hk))

theorem buildGo_entries (enums : List (String × EnumInfo)) :
    ∀ (keys : List String) (acc out : List (String × EnumLayout)),
      buildEnumLayouts.go enums keys acc = .ok out →
      ∀ kv, kv ∈ out → kv ∈ acc ∨ layoutForEnumKey kv.1 enums = .ok kv.2 := by
  intro keys
  induction keys with
  | nil =>
      intro acc out h kv hkv
      unfold buildEnumLayouts.go at h
      rw [Except.ok.injEq] at h
      subst h
      exact Or.inl hkv
  | cons key' rest ih =>
      intro acc out h kv hkv
      unfold buildEnumLayouts.go at h
      cases hl : layoutForEnumKey key' enums with
      | error e => rw [hl, except_bind_error] at h; exact Except.noConfusion h
      | ok layout =>
          rw [hl, except_bind_ok] at h
          rcases ih _ _ h kv hkv with hin | hlay
          · rcases List.mem_append.mp hin with hin | hin
            · exact Or.inl hin
            · have : kv = (key', layout) := by simpa using hin
              subst this
              exact Or.inr hl
          · exact Or.inr hlay

theorem layoutForEnumKey_shape (key : String) (enums : List (String × EnumInfo))
    (layout : EnumLayout) (h : layoutForEnumKey key enums = .ok layout) :
    layout.key = key ∧
    layout.payloadSlots =
      (layout.variants.map (fun v => v.fieldTypes.length)).foldl max 0 := by
  unfold layoutForEnumKey at h
  cases ha : alookup enums key with
  | some enumInfo =>
      rw [ha] at h
      dsimp only [] at h
      rw [Except.ok.injEq] at h
      subst h
      exact ⟨rfl, rfl⟩
  | none =>
      rw [ha] at h
      dsimp only [] at h
      by_cases h1 : strStarts key "Option[" = true
      · rw [if_pos h1] at h
        rw [Except.ok.injEq] at h
        subst h
        exact ⟨rfl, rfl⟩
      · rw [if_neg h1] at h
        by_cases h2 : strStarts key "Result[" = true
        · rw [if_pos h2] at h
          rw [Except.ok.injEq] at h
          subst h
          exact ⟨rfl, rfl⟩
        · rw [if_neg h2] at h
          exact Except.noConfusion h

theorem collectProgramEnumKeys_contains
    (tp : TypedProgram) (name : String) (fn : TypedFunction)
    (hfn : (name, fn) ∈ tp.functions)
    (ty : Ty)
    (hty : ty = fn.fnType.ret ∨ ty ∈ fn.fnType.params ∨
      ∃ sp, (sp, ty) ∈ fn.exprTypes)
    (sub : Ty) (hocc : TyOccurs sub ty) (key : String)
    (hek : enumKeyForType sub = some key)
    (hc : (tp.enums.map (fun kv => kv.1)).contains sub.name = true ∨
      sub.name = "Option" ∨ sub.name = "Result") :
    (collectProgramEnumKeys tp).contains key = true := by
  unfold collectProgramEnumKeys
  have hoccAll := collectTypeEnums_occurs (tp.enums.map (fun kv => kv.1))
    sub ty key hocc hek hc
  have hcMono := collectTypeEnums_mono (tp.enums.map (fun kv => kv.1))
  refine foldl_contains_of_mem _ ?_ (name, fn) key ?_ tp.functions [] hfn
  · intro s a k h
    dsimp only []
    apply foldl_contains_mono _ (fun s a k h => hcMono a.2 s k h)
    apply foldl_contains_mono _ (fun s a k h => hcMono a s k h)
    exact hcMono _ _ _ h
  · intro s
    dsimp only []
    rcases hty with hret | hparam | ⟨sp, hexpr⟩
    · subst hret
      apply foldl_contains_mono _ (fun s a k h => hcMono a.2 s k h)
      apply foldl_contains_mono _ (fun s a k h => hcMono a s k h)
      exact hoccAll _
    · apply foldl_contains_mono _ (fun s a k h => hcMono a.2 s k h)
      exact foldl_contains_of_mem _ (fun s a k h => hcMono a s k h)
        ty key (fun s' => hoccAll s') _ _ hparam
    · exact foldl_contains_of_mem _ (fun s a k h => hcMono a.2 s k h)
        (sp, ty) key (fun s' => hoccAll s') _ _ hexpr

/-- C8: when lowering succeeds, every enum type occurring (at any
nesting depth) in a function's parameter types, return type or recorded
expression types — a type whose name is a declared enum or Option or
Result, and whose canonical key `_enum_key_for_type` yields — has an
entry in `ProgramIR.enums` under that key; and every layout in the table
carries its own key and `payload_slots` equal to the maximum variant
payload arity. -/
theorem enum_layout_table
    (tp : TypedProgram) (ir : ProgramIR) (h : lowerTypedProgram tp = .ok ir)
    (name : String) (fn : TypedFunction) (hfn : (name, fn) ∈ tp.functions)
    (ty : Ty)
    (hty : ty = fn.fnType.ret ∨ ty ∈ fn.fnType.params ∨
      ∃ sp, (sp, ty) ∈ fn.exprTypes)
    (sub : Ty) (hocc : TyOccurs sub ty) (key : String)
    (hek : enumKeyForType sub = some key)
    (hc : (tp.enums.map (fun kv => kv.1)).contains sub.name = true ∨
      sub.name = "Option" ∨ sub.name = "Result")
    (kv : String × EnumLayout) (hkv : kv ∈ ir.enums) :
    ahas ir.enums key = true ∧
    kv.2.key = kv.1 ∧
    kv.2.payloadSlots =
      (kv.2.variants.map (fun v => v.fieldTypes.length)).foldl max 0 := by
  unfold lowerTypedProgram at h
  dsimp only [] at h
  cases hb : buildEnumLayouts (collectProgramEnumKeys tp) tp.enums with
  | error e => rw [hb, except_bind_error] at h; exact Except.noConfusion h
  | ok layouts =>
      rw [hb, except_bind_ok] at h
      try dsimp only [] at h
      cases hf : lowerFunctions layouts
          (buildVariantCtors layouts (tp.enums.map (fun kv => kv.1)))
          tp.functions [] with
      | error e => rw [hf, except_bind_error] at h; exact Except.noConfusion h
      | ok fns =>
          rw [hf, except_bind_ok] at h
          rw [Except.ok.injEq] at h
          have hir : ir.enums = layouts := by rw [← h]
          have hgo : buildEnumLayouts.go tp.enums (collectProgramEnumKeys tp) []
              = .ok layouts := hb
          constructor
          · rw [hir]
            exact buildGo_mem tp.enums _ _ _ hgo key
              (Or.inl (collectProgramEnumKeys_contains tp name fn hfn ty hty
                sub hocc key hek hc))
          · rw [hir] at hkv
            rcases buildGo_entries tp.enums _ _ _ hgo kv hkv with hin | hlay
            · cases hin
            · exact layoutForEnumKey_shape kv.1 tp.enums kv.2 hlay

/-- The typed form of `nestedEnumProgram`. -/
def nestedEnumTyped : TypedProgram :=
  match (do
    let r ← resolveNames nestedEnumProgram
    checkProgram nestedEnumProgram r : Except Failure TypedProgram) with
  | .ok tp => tp
  | .error _ => ⟨nestedEnumProgram, [], [], []⟩

/-- The IR lowered from `nestedEnumTyped`. -/
def nestedEnumIR : ProgramIR :=
  match lowerTypedProgram nestedEnumTyped with
  | .ok ir => ir
  | .error _ => ⟨[], []⟩

/-- The typed function `f` of `nestedEnumTyped`. -/
def nestedEnumFnF : TypedFunction :=
  match alookup nestedEnumTyped.functions "f" with
  | some fn => fn
  | none => ⟨⟨msp 1, "f", [], [], none, .mk (msp 7) [] none, false, false⟩,
      ⟨[], tyVoid, []⟩, [], []⟩

theorem enum_layout_table_witness :
    lowerTypedProgram nestedEnumTyped = .ok nestedEnumIR ∧
    ahas nestedEnumIR.enums "Option[Int]" = true ∧
    (⟨"Option[Int]", [⟨"Some", 0, [Ty.mk "Int" []]⟩, ⟨"None", 1, []⟩], 1⟩
      : EnumLayout).key = "Option[Int]" ∧
    (⟨"Option[Int]", [⟨"Some", 0, [Ty.mk "Int" []]⟩, ⟨"None", 1, []⟩], 1⟩
      : EnumLayout).payloadSlots =
      (([⟨"Some", 0, [Ty.mk "Int" []]⟩, ⟨"None", 1, []⟩]
          : List EnumVariantLayout).map
        (fun v => v.fieldTypes.length)).foldl max 0 :=
  ⟨rfl,
    enum_layout_table nestedEnumTyped nestedEnumIR rfl "f" nestedEnumFnF
      (List.Mem.head _)
      (Ty.mk "Option" [Ty.mk "Option" [Ty.mk "Int" []]])
      (Or.inr (Or.inl (List.Mem.head _)))
      (Ty.mk "Option" [Ty.mk "Int" []])
      (TyOccurs.arg "Option" [Ty.mk "Option" [Ty.mk "Int" []]]
        (List.Mem.head _) (TyOccurs.refl _))
      "Option[Int]" rfl (Or.inr (Or.inl rfl))
      ("Option[Int]",
        ⟨"Option[Int]", [⟨"Some", 0, [Ty.mk "Int" []]⟩, ⟨"None", 1, []⟩], 1⟩)
      (List.Mem.tail _ (List.Mem.head _))⟩

end Midori
